import Mathlib

/-!
# FPM383F fingerprint-module driver: framing layer

A shallow embedding of `src/src/FPM383F.cpp` (checksums, `sendFrame`,
`receiveFrame`, `receiveResponse` and the command wrappers built on them)
together with theorems about it.

Conventions of the embedding

* A byte (`uint8_t`) is a `Nat` below 256, a `uint16_t` a `Nat` below 65536,
  a `uint32_t` a `Nat` below 2^32; every place where the C++ code truncates
  is written as an explicit `%`.
* `int` is taken to be at least 32 bits wide, so that `appData[6] << 24` and
  the `int` loop counters running up to 65535 are the plain values.
* The `int16_t` accumulators of the checksum routines wrap modulo 2^16
  (`toInt16`).
* Debug printing goes to another port and changes none of the modelled
  state; it is left out.
* The loops guarded by `millis() < timeout` are written by recursion on an
  iteration budget; `receiveFrame` passes the number of bytes in the receive
  buffer and on the wire plus the milliseconds left to the deadline plus one.
  An exhausted budget is the separate outcome `Exec.outOfFuel`. The polling
  loop of `autoEnroll` takes its budget as an argument.
* The two operands of `(serial->read() << 8) | serial->read()` are evaluated
  left to right: the first byte read is the high byte of the length.
* A buffer passed by pointer is the list of its bytes, its size the length of
  the list; a read or a store outside an allocated buffer, the destination of
  a `memcpy` included, is the outcome `Exec.outOfBounds`.
* The peer's bytes are the `stream` of the port: those in the receive buffer
  followed by those on the wire, each with its arrival time. Theorems about
  frames that arrive while the driver waits say by which time a front part of
  the stream is due (`ArrivesBy`) and start from a port on which no byte is
  overdue (`Settled`), as every port is after a `delay`.
-/

/-- The mutable members of the class `FPM383F` that the framing layer uses. -/
structure FPM383F where
  password : Nat
  lastError : Nat
deriving DecidableEq

namespace FPM383F

/-! ## Protocol constants (FPM383F.h) -/

def FP_FRAME_HEADER_0 : Nat := 0xF1
def FP_FRAME_HEADER_1 : Nat := 0x1F
def FP_FRAME_HEADER_2 : Nat := 0xE2
def FP_FRAME_HEADER_3 : Nat := 0x2E
def FP_FRAME_HEADER_4 : Nat := 0xB6
def FP_FRAME_HEADER_5 : Nat := 0x6B
def FP_FRAME_HEADER_6 : Nat := 0xA8
def FP_FRAME_HEADER_7 : Nat := 0x8A

def FP_CMD_FINGERPRINT_0 : Nat := 0x01
def FP_CMD_SYSTEM_0 : Nat := 0x02
def FP_CMD_MAINTENANCE_0 : Nat := 0x03

def FP_CMD_CANCEL : Nat := 0x15
def FP_CMD_AUTO_ENROLL : Nat := 0x18
def FP_CMD_MATCH : Nat := 0x21
def FP_CMD_QUERY_MATCH : Nat := 0x22
def FP_CMD_MATCH_SYNC : Nat := 0x23
def FP_CMD_HEARTBEAT : Nat := 0x03
def FP_CMD_SET_PASSWORD : Nat := 0x01
def FP_CMD_SET_ENROLL_COUNT : Nat := 0x0D

def FP_ERROR_SUCCESS : Nat := 0x00000000
def FP_ERROR_INVALID_DATA : Nat := 0x00000003
def FP_ERROR_TIMEOUT : Nat := 0x00000008

/-- The array `frameHeader` / `expectedHeader` of the source: the eight marker bytes. -/
def frameHeader : List Nat :=
  [FP_FRAME_HEADER_0, FP_FRAME_HEADER_1, FP_FRAME_HEADER_2, FP_FRAME_HEADER_3,
   FP_FRAME_HEADER_4, FP_FRAME_HEADER_5, FP_FRAME_HEADER_6, FP_FRAME_HEADER_7]

/-! ## Checksums -/

/-- Conversion of an `int` value to `int16_t`: wrap into `-32768 .. 32767`. -/
def toInt16 (x : Int) : Int := (x + 32768) % 65536 - 32768

/-- Conversion of an `int` value to `uint8_t`. -/
def toUInt8 (x : Int) : Nat := (x % 256).toNat

/-- The statement `sum += b` on an `int16_t sum`. -/
def addInt16 (sum : Int) (b : Nat) : Int := toInt16 (sum + (b : Int))

/-- The function `calculateChecksum(data, length)`: `data` is the slice
`data[0 .. length)` the loop runs over. -/
def calculateChecksum (data : List Nat) : Nat :=
  let sum : Int := data.foldl addInt16 0
  toUInt8 ((~~~sum) + 1)

/-- The function `calculateFrameChecksum(dataLength)`. -/
def calculateFrameChecksum (dataLength : Nat) : Nat :=
  let sum : Int := frameHeader.foldl addInt16 0
  let sum := addInt16 sum ((dataLength >>> 8) &&& 0xFF)
  let sum := addInt16 sum (dataLength &&& 0xFF)
  toUInt8 ((~~~sum) + 1)

/-! ## Execution outcomes, the serial port and the clock -/

/-- Outcome of running a piece of the driver: it returns a value, or it
accesses memory outside an allocated buffer (undefined behaviour in C++), or
the iteration budget given to a loop of the model is used up. -/
inductive Exec (α : Type) where
  | ret (a : α)
  | outOfBounds
  | outOfFuel
deriving DecidableEq

/-- Sequencing of two pieces of the driver. -/
def Exec.bind {α β : Type} (x : Exec α) (f : α → Exec β) : Exec β :=
  match x with
  | .ret a => f a
  | .outOfBounds => .outOfBounds
  | .outOfFuel => .outOfFuel

/-- The serial port together with the millisecond clock.

* `now`: milliseconds since start-up, unbounded; `millis()` is `now` modulo 2^32.
* `rx`: the bytes in the receive buffer, oldest first; `available()` is its length.
* `incoming`: the bytes still on the wire, each with the time (in ms since
  start-up) at which it reaches the receive buffer, in wire order.
* `tx`: the bytes written so far, oldest first.

Time passes only in `delay` and in an iteration of the marker loop that finds
the receive buffer empty (one millisecond); reading and writing take no time. -/
structure Transport where
  now : Nat
  rx : List Nat
  incoming : List (Nat × Nat)
  tx : List Nat
deriving DecidableEq

/-- The Arduino function `millis()`: a 32-bit counter. -/
def millis (w : Transport) : Nat := w.now % 2 ^ 32

/-- The call `serial->available()`. -/
def available (w : Transport) : Nat := w.rx.length

/-- The call `serial->read()`. Every read of the driver is guarded by
`available()`; on an empty buffer the library returns -1, which as a byte is 0xFF. -/
def read (w : Transport) : Nat × Transport :=
  match w.rx with
  | [] => (0xFF, w)
  | b :: rest => (b, { w with rx := rest })

/-- The call `serial->write(b)`. -/
def write (w : Transport) (b : Nat) : Transport := { w with tx := w.tx ++ [b] }

/-- The call `delay(ms)`: the clock advances and the bytes that have arrived by
then move, in order, from the wire to the receive buffer. -/
def delay (w : Transport) (ms : Nat) : Transport :=
  { w with
    now := w.now + ms
    rx := w.rx ++ (w.incoming.takeWhile (fun p => p.1 ≤ w.now + ms)).map Prod.snd
    incoming := w.incoming.dropWhile (fun p => p.1 ≤ w.now + ms) }

/-- Read of `buf[i]` in an array of `buf.length` bytes. -/
def index (buf : List Nat) (i : Nat) : Exec Nat :=
  match buf[i]? with
  | some b => .ret b
  | none => .outOfBounds

/-- The slice `buf[0 .. n)` that a callee reads through a pointer and a length. -/
def slice (buf : List Nat) (n : Nat) : Exec (List Nat) :=
  if n ≤ buf.length then .ret (buf.take n) else .outOfBounds

/-! ## sendFrame -/

/-- The function `sendFrame(cmd1, cmd2, data, dataLen)`; `data = none` is a null
pointer. The buffer `appData` has `totalLen` bytes: the stores into it are in
bounds exactly when the envelope built here is no longer than `totalLen`. -/
def sendFrame (self : FPM383F) (w : Transport) (cmd1 cmd2 : Nat)
    (data : Option (List Nat)) (dataLen : Nat) : Exec Transport :=
  let totalLen := (7 + dataLen) % 65536
  -- Send frame header
  let w := write w FP_FRAME_HEADER_0
  let w := write w FP_FRAME_HEADER_1
  let w := write w FP_FRAME_HEADER_2
  let w := write w FP_FRAME_HEADER_3
  let w := write w FP_FRAME_HEADER_4
  let w := write w FP_FRAME_HEADER_5
  let w := write w FP_FRAME_HEADER_6
  let w := write w FP_FRAME_HEADER_7
  -- Send data length
  let w := write w ((totalLen >>> 8) &&& 0xFF)
  let w := write w (totalLen &&& 0xFF)
  -- Send frame checksum
  let w := write w (calculateFrameChecksum totalLen)
  -- Password and command
  let appData := [(self.password >>> 24) &&& 0xFF, (self.password >>> 16) &&& 0xFF,
                  (self.password >>> 8) &&& 0xFF, self.password &&& 0xFF, cmd1, cmd2]
  -- Data
  let copied : Exec (List Nat) :=
    match data with
    | some d => if dataLen > 0 then (slice d dataLen).bind (fun c => .ret (appData ++ c))
                else .ret appData
    | none => .ret appData
  copied.bind fun appData =>
    -- Calculate and add checksum
    let checksum := calculateChecksum appData
    let appData := appData ++ [checksum]
    if appData.length ≤ totalLen then
      -- Send application data
      .ret (appData.foldl write w)
    else .outOfBounds

/-- The function `sendCommand`: it sends the frame and returns `true`. -/
def sendCommand (self : FPM383F) (w : Transport) (cmd1 cmd2 : Nat)
    (data : Option (List Nat)) (dataLen : Nat) : Exec (Bool × Transport) :=
  (sendFrame self w cmd1 cmd2 data dataLen).bind fun w => .ret (true, w)

/-! ## receiveFrame -/

/-- The caller's variables that `receiveFrame` writes through its pointer
parameters: `*cmd1`, `*cmd2`, the buffer `data` (`none` is a null pointer,
`some buf` a buffer of `buf.length` bytes), `*actualDataLen` and `*errorCode`. -/
structure Outputs where
  cmd1 : Nat
  cmd2 : Nat
  data : Option (List Nat)
  actualDataLen : Nat
  errorCode : Nat
deriving DecidableEq

/-- What a receiving call leaves behind: its return value, the driver object,
the serial port and the caller's variables. -/
structure Return where
  value : Bool
  self : FPM383F
  serial : Transport
  out : Outputs
deriving DecidableEq

/-- The marker loop `while (millis() < timeout && headerIdx < 8)`. The first
argument after `timeout` bounds the number of iterations. -/
def headerLoop (timeout : Nat) : Nat → Transport → Nat → Exec (Transport × Nat)
  | 0, _, _ => .outOfFuel
  | fuel + 1, w, headerIdx =>
    if millis w < timeout ∧ headerIdx < 8 then
      if available w ≠ 0 then
        let byte := (read w).1
        let w := (read w).2
        if byte = frameHeader.getD headerIdx 0 then
          headerLoop timeout fuel w (headerIdx + 1)
        else
          headerLoop timeout fuel w (if byte = frameHeader.getD 0 0 then 1 else 0)
      else
        headerLoop timeout fuel (delay w 1) headerIdx
    else .ret (w, headerIdx)

/-- The loops `while (millis() < timeout && serial->available() < n) delay(1)`. -/
def waitAvailable (timeout n : Nat) : Nat → Transport → Exec Transport
  | 0, _ => .outOfFuel
  | fuel + 1, w =>
    if millis w < timeout ∧ available w < n then waitAvailable timeout n fuel (delay w 1)
    else .ret w

/-- The loop `for (i = 0; i < dataLength; i++) appData[i] = serial->read()`. -/
def readBytes : Nat → Transport → List Nat × Transport
  | 0, w => ([], w)
  | n + 1, w =>
    let r := readBytes n (read w).2
    ((read w).1 :: r.1, r.2)

/-- Iterations that a loop guarded by `millis() < timeout` can make by letting
time pass: each such iteration lasts a millisecond. -/
def waitFuel (timeout : Nat) (w : Transport) : Nat := timeout - millis w + 1

/-- The failure exits of `receiveFrame`: `lastError = e; return false`. -/
def failWith (self : FPM383F) (w : Transport) (out : Outputs) (e : Nat) : Return :=
  { value := false, self := { self with lastError := e }, serial := w, out := out }

/-- The part of `receiveFrame` after the envelope has been read into `appData`. -/
def parseEnvelope (self : FPM383F) (w : Transport) (out : Outputs) (maxDataLen : Nat)
    (dataLength : Nat) (appData : List Nat) : Exec Return :=
  -- Verify application checksum (for dataLength = 0 the index is -1)
  (index appData (dataLength - 1)).bind fun receivedChecksum =>
  (slice appData ((dataLength + 65535) % 65536)).bind fun body =>
  let calculatedChecksum := calculateChecksum body
  if receivedChecksum ≠ calculatedChecksum then
    .ret (failWith self w out FP_ERROR_INVALID_DATA)
  else
  -- Parse response
  (index appData 0).bind fun p0 =>
  (index appData 1).bind fun p1 =>
  (index appData 2).bind fun p2 =>
  (index appData 3).bind fun p3 =>
  let _receivedPassword := ((p0 <<< 24) ||| (p1 <<< 16) ||| (p2 <<< 8) ||| p3) % 2 ^ 32
  (index appData 4).bind fun c1 =>
  (index appData 5).bind fun c2 =>
  (index appData 6).bind fun e0 =>
  (index appData 7).bind fun e1 =>
  (index appData 8).bind fun e2 =>
  (index appData 9).bind fun e3 =>
  let errorCode := ((e0 <<< 24) ||| (e1 <<< 16) ||| (e2 <<< 8) ||| e3) % 2 ^ 32
  let out := { out with cmd1 := c1, cmd2 := c2, errorCode := errorCode }
  -- Copy data
  let responseDataLen := (dataLength + 65536 - 11) % 65536
  let copied : Exec Outputs :=
    match out.data with
    | some buf =>
      if responseDataLen > 0 ∧ maxDataLen > 0 then
        let n := min responseDataLen maxDataLen
        -- memcpy(data, &appData[10], n): `n` bytes are read from `appData` at
        -- offset 10 and stored into the caller's buffer of `buf.length` bytes
        if 10 + n ≤ appData.length ∧ n ≤ buf.length then
          .ret { out with actualDataLen := n
                          data := some ((appData.drop 10).take n ++ buf.drop n) }
        else .outOfBounds
      else .ret { out with actualDataLen := 0 }
    | none => .ret { out with actualDataLen := 0 }
  copied.bind fun out =>
  .ret { value := true, self := { self with lastError := errorCode }, serial := w, out := out }

/-- The part of `receiveFrame` after the marker loop has seen all eight marker
bytes: length, frame checksum and envelope. -/
def afterHeader (timeout : Nat) (self : FPM383F) (w : Transport) (out : Outputs)
    (maxDataLen : Nat) : Exec Return :=
  -- Read data length
  (waitAvailable timeout 2 (waitFuel timeout w) w).bind fun w =>
  if available w < 2 then .ret (failWith self w out FP_ERROR_TIMEOUT) else
  let hi := (read w).1
  let w := (read w).2
  let lo := (read w).1
  let w := (read w).2
  let dataLength := ((hi <<< 8) ||| lo) % 65536
  -- Read frame checksum
  (waitAvailable timeout 1 (waitFuel timeout w) w).bind fun w =>
  if available w < 1 then .ret (failWith self w out FP_ERROR_TIMEOUT) else
  let frameChecksum := (read w).1
  let w := (read w).2
  -- Verify frame checksum
  if frameChecksum ≠ calculateFrameChecksum dataLength then
    .ret (failWith self w out FP_ERROR_INVALID_DATA)
  else
  -- Read application data
  (waitAvailable timeout dataLength (waitFuel timeout w) w).bind fun w =>
  if available w < dataLength then .ret (failWith self w out FP_ERROR_TIMEOUT) else
  let appData := (readBytes dataLength w).1
  let w := (readBytes dataLength w).2
  parseEnvelope self w out maxDataLen dataLength appData

/-- The deadline `millis() + 5000` that `receiveFrame` computes on entry, a `uint32_t`. -/
def deadline (w : Transport) : Nat := (millis w + 5000) % 2 ^ 32

/-- The function `receiveFrame(cmd1, cmd2, data, maxDataLen, actualDataLen, errorCode)`;
`out` holds the caller's variables as they are at the call. -/
def receiveFrame (self : FPM383F) (w : Transport) (out : Outputs) (maxDataLen : Nat) :
    Exec Return :=
  let timeout := deadline w
  -- Wait for frame header
  (headerLoop timeout (w.rx.length + w.incoming.length + waitFuel timeout w) w 0).bind fun p =>
  if p.2 < 8 then .ret (failWith self p.1 out FP_ERROR_TIMEOUT)
  else afterHeader timeout self p.1 out maxDataLen

/-- The function `receiveResponse`; the fields `cmd1` and `cmd2` of `out` are
its locals `respCmd1` and `respCmd2`. -/
def receiveResponse (self : FPM383F) (w : Transport) (cmd1 cmd2 : Nat) (out : Outputs)
    (maxDataLen : Nat) : Exec Return :=
  (receiveFrame self w out maxDataLen).bind fun r =>
  if r.value = false then .ret r
  else
    -- Verify command match
    if r.out.cmd1 ≠ cmd1 ∨ r.out.cmd2 ≠ cmd2 then
      .ret { r with value := false, self := { r.self with lastError := FP_ERROR_INVALID_DATA } }
    else .ret r

/-- The locals `errorCode` and `dataLen` (and `respCmd1`, `respCmd2` of
`receiveResponse`) of a command wrapper that passes a null data pointer. They
are not initialised and are read only after `receiveFrame` has written them. -/
def noBuffer : Outputs :=
  { cmd1 := 0, cmd2 := 0, data := none, actualDataLen := 0, errorCode := 0 }

/-- The function `cancelOperation`. -/
def cancelOperation (self : FPM383F) (w : Transport) : Exec (Bool × FPM383F × Transport) :=
  (sendCommand self w FP_CMD_FINGERPRINT_0 FP_CMD_CANCEL none 0).bind fun s =>
  (receiveResponse self s.2 FP_CMD_FINGERPRINT_0 FP_CMD_CANCEL noBuffer 0).bind fun r =>
  if r.value = false then .ret (false, r.self, r.serial)
  else .ret (decide (r.out.errorCode = FP_ERROR_SUCCESS), r.self, r.serial)

/-- The function `heartbeat`. -/
def heartbeat (self : FPM383F) (w : Transport) : Exec (Bool × FPM383F × Transport) :=
  (sendCommand self w FP_CMD_MAINTENANCE_0 FP_CMD_HEARTBEAT none 0).bind fun s =>
  (receiveResponse self s.2 FP_CMD_MAINTENANCE_0 FP_CMD_HEARTBEAT noBuffer 0).bind fun r =>
  if r.value = false then .ret (false, r.self, r.serial)
  else .ret (decide (r.out.errorCode = FP_ERROR_SUCCESS), r.self, r.serial)

/-- The constructor `FPM383F(rxPin, txPin, touchPin)`: the password starts at
zero and `lastError` at `FP_ERROR_SUCCESS`. -/
def new : FPM383F := { password := 0x00000000, lastError := FP_ERROR_SUCCESS }

/-- The function `setPassword(newPassword)`. -/
def setPassword (self : FPM383F) (w : Transport) (newPassword : Nat) :
    Exec (Bool × FPM383F × Transport) :=
  let data := [(newPassword >>> 24) &&& 0xFF, (newPassword >>> 16) &&& 0xFF,
               (newPassword >>> 8) &&& 0xFF, newPassword &&& 0xFF]
  (sendCommand self w FP_CMD_SYSTEM_0 FP_CMD_SET_PASSWORD (some data) 4).bind fun s =>
  (receiveResponse self s.2 FP_CMD_SYSTEM_0 FP_CMD_SET_PASSWORD noBuffer 0).bind fun r =>
  if r.value = false then .ret (false, r.self, r.serial)
  else if r.out.errorCode = FP_ERROR_SUCCESS then
    .ret (true, { r.self with password := newPassword }, r.serial)
  else .ret (false, r.self, r.serial)

/-- The locals of one iteration of the polling loop of `autoEnroll`: the
4-byte array `responseData`, `dataLen`, `errorCode` (and `respCmd1`, `respCmd2`
of `receiveResponse`). They are not initialised and are read only after
`receiveFrame` has written them. -/
def responseBuffer : Outputs :=
  { cmd1 := 0, cmd2 := 0, data := some [0, 0, 0, 0], actualDataLen := 0, errorCode := 0 }

/-- The loop `while (millis() < timeout)` of `autoEnroll`. The first argument
after `timeout` bounds the number of iterations; the last argument counts the
calls of `receiveResponse` made so far and is returned with the result. -/
def autoEnrollLoop (timeout : Nat) :
    Nat → FPM383F → Transport → Nat → Exec (Bool × FPM383F × Transport × Nat)
  | 0, _, _, _ => .outOfFuel
  | fuel + 1, self, w, attempts =>
    if millis w < timeout then
      (receiveResponse self w FP_CMD_FINGERPRINT_0 FP_CMD_AUTO_ENROLL responseBuffer 4).bind
        fun r =>
        if r.value = true then
          if r.out.errorCode ≠ FP_ERROR_SUCCESS then
            .ret (false, r.self, r.serial, attempts + 1)
          else
            let currentCount := (r.out.data.getD []).getD 0 0
            let progress := (r.out.data.getD []).getD 3 0
            -- currentCount == 0xFF means save complete
            if r.out.actualDataLen ≥ 4 ∧ currentCount = 0xFF ∧ progress = 100 then
              .ret (true, r.self, r.serial, attempts + 1)
            else
              autoEnrollLoop timeout fuel r.self (delay r.serial 100) (attempts + 1)
        else
          autoEnrollLoop timeout fuel r.self (delay r.serial 100) (attempts + 1)
    else .ret (false, self, w, attempts)

/-- The function `autoEnroll(fingerprintId, enrollCount, waitFingerLift)`. The
first argument is the iteration budget of the polling loop; the last component
of the result is the number of calls of `receiveResponse`. -/
def autoEnroll (fuel : Nat) (self : FPM383F) (w : Transport)
    (fingerprintId enrollCount : Nat) (waitFingerLift : Bool) :
    Exec (Bool × FPM383F × Transport × Nat) :=
  let data := [if waitFingerLift then 1 else 0, enrollCount,
               (fingerprintId >>> 8) &&& 0xFF, fingerprintId &&& 0xFF]
  (sendCommand self w FP_CMD_FINGERPRINT_0 FP_CMD_AUTO_ENROLL (some data) 4).bind fun s =>
  -- Auto enroll sends multiple responses
  let timeout := (millis s.2 + 30000) % 2 ^ 32
  autoEnrollLoop timeout fuel self s.2 0

/-- The struct `FingerprintMatchResult` (FPM383F.h); the two numbers are `uint16_t`. -/
structure FingerprintMatchResult where
  matched : Bool
  fingerprintId : Nat
  matchScore : Nat
deriving DecidableEq

/-- The locals of `queryMatchResult` and `matchSync`: the 6-byte array `data`,
`dataLen`, `errorCode` (and `respCmd1`, `respCmd2` of `receiveResponse`). They
are not initialised and are read only after `receiveFrame` has written them. -/
def matchBuffer : Outputs :=
  { cmd1 := 0, cmd2 := 0, data := some [0, 0, 0, 0, 0, 0], actualDataLen := 0, errorCode := 0 }

/-- The function `queryMatchResult()`. -/
def queryMatchResult (self : FPM383F) (w : Transport) :
    Exec (FingerprintMatchResult × FPM383F × Transport) :=
  let result : FingerprintMatchResult := { matched := false, fingerprintId := 0, matchScore := 0 }
  (sendCommand self w FP_CMD_FINGERPRINT_0 FP_CMD_QUERY_MATCH none 0).bind fun s =>
  (receiveResponse self s.2 FP_CMD_FINGERPRINT_0 FP_CMD_QUERY_MATCH matchBuffer 6).bind fun r =>
  if r.value = false then .ret (result, r.self, r.serial)
  else
    if r.out.errorCode = FP_ERROR_SUCCESS ∧ r.out.actualDataLen ≥ 6 then
      let data := r.out.data.getD []
      let matchScore := ((data.getD 1 0 <<< 8) ||| data.getD 2 0) % 65536
      let fingerprintId := ((data.getD 4 0 <<< 8) ||| data.getD 5 0) % 65536
      -- A match is found if score > 0 and ID is valid (not 65535)
      .ret ({ matched := decide (matchScore > 0 ∧ fingerprintId ≠ 65535)
              fingerprintId := fingerprintId
              matchScore := matchScore }, r.self, r.serial)
    else .ret (result, r.self, r.serial)

/-- The function `matchSync()`. -/
def matchSync (self : FPM383F) (w : Transport) :
    Exec (FingerprintMatchResult × FPM383F × Transport) :=
  let result : FingerprintMatchResult := { matched := false, fingerprintId := 0, matchScore := 0 }
  (sendCommand self w FP_CMD_FINGERPRINT_0 FP_CMD_MATCH_SYNC none 0).bind fun s =>
  (receiveResponse self s.2 FP_CMD_FINGERPRINT_0 FP_CMD_MATCH_SYNC matchBuffer 6).bind fun r =>
  if r.value = false then .ret (result, r.self, r.serial)
  else
    if r.out.errorCode = FP_ERROR_SUCCESS ∧ r.out.actualDataLen ≥ 6 then
      let data := r.out.data.getD []
      let matchScore := ((data.getD 1 0 <<< 8) ||| data.getD 2 0) % 65536
      let fingerprintId := ((data.getD 4 0 <<< 8) ||| data.getD 5 0) % 65536
      -- A match is found if score > 0 and ID is valid (not 65535)
      .ret ({ matched := decide (matchScore > 0 ∧ fingerprintId ≠ 65535)
              fingerprintId := fingerprintId
              matchScore := matchScore }, r.self, r.serial)
    else .ret (result, r.self, r.serial)

/-- The function `setEnrollCount(count)`; `count` is a `uint8_t`. -/
def setEnrollCount (self : FPM383F) (w : Transport) (count : Nat) :
    Exec (Bool × FPM383F × Transport) :=
  if count < 1 ∨ count > 6 then .ret (false, self, w) else
  let data := [count]
  (sendCommand self w FP_CMD_SYSTEM_0 FP_CMD_SET_ENROLL_COUNT (some data) 1).bind fun s =>
  (receiveResponse self s.2 FP_CMD_SYSTEM_0 FP_CMD_SET_ENROLL_COUNT noBuffer 0).bind fun r =>
  if r.value = false then .ret (false, r.self, r.serial)
  else .ret (decide (r.out.errorCode = FP_ERROR_SUCCESS), r.self, r.serial)

/-! ## The wire format as the specification words it -/

/-- The marker constant `F1 1F E2 2E B6 6B A8 8A`. -/
def marker : List Nat := [0xF1, 0x1F, 0xE2, 0x2E, 0xB6, 0x6B, 0xA8, 0x8A]

/-- A 16-bit value as two bytes, most significant first. -/
def bigEndian16 (n : Nat) : List Nat := [n / 256 % 256, n % 256]

/-- A 32-bit value as four bytes, most significant first. -/
def bigEndian32 (n : Nat) : List Nat :=
  [n / 16777216 % 256, n / 65536 % 256, n / 256 % 256, n % 256]

/-- The value of four bytes read most significant first. -/
def fromBigEndian32 (b0 b1 b2 b3 : Nat) : Nat :=
  b0 * 16777216 + b1 * 65536 + b2 * 256 + b3

/-- The frame around an envelope: marker, length, frame checksum, envelope. -/
def frame (env : List Nat) : List Nat :=
  marker ++ bigEndian16 env.length ++ [calculateFrameChecksum env.length] ++ env

/-- A request envelope: password, command pair, data, checksum. -/
def requestEnvelope (password cmd1 cmd2 : Nat) (data : List Nat) : List Nat :=
  bigEndian32 password ++ [cmd1, cmd2] ++ data ++
    [calculateChecksum (bigEndian32 password ++ [cmd1, cmd2] ++ data)]

/-- A response envelope: password, command pair, error code, data, checksum. -/
def responseEnvelope (password cmd1 cmd2 errorCode : Nat) (data : List Nat) : List Nat :=
  bigEndian32 password ++ [cmd1, cmd2] ++ bigEndian32 errorCode ++ data ++
    [calculateChecksum (bigEndian32 password ++ [cmd1, cmd2] ++ bigEndian32 errorCode ++ data)]

/-- All elements of a list are bytes. -/
def Bytes (l : List Nat) : Prop := ∀ b ∈ l, b < 256

instance (l : List Nat) : Decidable (Bytes l) := by
  unfold Bytes
  infer_instance

/-! ## Auxiliary notions for the statements -/

/-- The new value of `headerIdx` after the marker loop has read the byte `b`. -/
def syncNext (headerIdx b : Nat) : Nat :=
  if b = frameHeader.getD headerIdx 0 then headerIdx + 1
  else if b = frameHeader.getD 0 0 then 1 else 0

/-- The noise `N` before a frame contains no earlier occurrence of the marker:
in `N ++ marker` the marker occurs only as the final eight bytes. -/
def MarkerOnlyAtEnd (N : List Nat) : Prop :=
  ∀ pre post : List Nat, N ++ marker = pre ++ marker ++ post → post = []

/-- What a successful `receiveFrame` leaves in the caller's variables for a
response with command pair, error code and response data `d`. -/
def deliver (out : Outputs) (maxDataLen cmd1 cmd2 errorCode : Nat) (d : List Nat) : Outputs :=
  match out.data with
  | some buf =>
    if 0 < d.length ∧ 0 < maxDataLen then
      { cmd1 := cmd1, cmd2 := cmd2, errorCode := errorCode,
        actualDataLen := min d.length maxDataLen,
        data := some (d.take (min d.length maxDataLen) ++ buf.drop (min d.length maxDataLen)) }
    else
      { cmd1 := cmd1, cmd2 := cmd2, errorCode := errorCode, actualDataLen := 0,
        data := some buf }
  | none =>
    { cmd1 := cmd1, cmd2 := cmd2, errorCode := errorCode, actualDataLen := 0, data := none }

/-- The result `{false, 0, 0}` with which `queryMatchResult` and `matchSync` start. -/
def noMatch : FingerprintMatchResult := { matched := false, fingerprintId := 0, matchScore := 0 }

/-- The match result that the response data `d` (at least six bytes) encodes:
the score in bytes 1 and 2, the fingerprint id in bytes 4 and 5, big-endian;
a match needs a positive score and an id other than 65535. -/
def matchResultOf (d : List Nat) : FingerprintMatchResult :=
  { matchScore := d.getD 1 0 * 256 + d.getD 2 0
    fingerprintId := d.getD 4 0 * 256 + d.getD 5 0
    matched := decide (d.getD 1 0 * 256 + d.getD 2 0 > 0 ∧ d.getD 4 0 * 256 + d.getD 5 0 ≠ 65535) }

/-- The caller's buffer, if there is one, has room for `n` bytes. -/
def Room (out : Outputs) (n : Nat) : Prop := ∀ buf, out.data = some buf → n ≤ buf.length

/-- The bytes a call has written: what `tx` holds after it beyond what it held before. -/
def written (before after : Transport) : List Nat := after.tx.drop before.tx.length

/-- The 16-bit length field of a written frame: its bytes 8 and 9, big-endian. -/
def lengthField (bytes : List Nat) : Nat := bytes.getD 8 0 * 256 + bytes.getD 9 0

/-- The number of bytes of a written frame after its frame-checksum byte (byte 10). -/
def bytesAfterFrameChecksum (bytes : List Nat) : Nat := (bytes.drop 11).length

/-- What every returning call of `receiveFrame` (and of `receiveResponse`)
satisfies, where `self`, `w`, `out` are the state before the call: nothing is
written to the port, the password is kept, and the call either fails with
`FP_ERROR_TIMEOUT` or `FP_ERROR_INVALID_DATA`, or succeeds with `lastError`
set to the error code it delivers. -/
def TypedOutcome (self : FPM383F) (w : Transport) (r : Return) : Prop :=
  r.serial.tx = w.tx ∧ r.self.password = self.password ∧
    ((r.value = false ∧
        (r.self.lastError = FP_ERROR_TIMEOUT ∨ r.self.lastError = FP_ERROR_INVALID_DATA)) ∨
      (r.value = true ∧ r.self.lastError = r.out.errorCode))

/-- The request frame of `autoEnroll`: command (0x01, 0x18) with the data bytes
`waitFingerLift ? 1 : 0`, `enrollCount`, high and low byte of `fingerprintId`. -/
def autoEnrollRequest (password fingerprintId enrollCount : Nat) (waitFingerLift : Bool) :
    List Nat :=
  frame (requestEnvelope password 0x01 0x18
    [if waitFingerLift then 1 else 0, enrollCount, fingerprintId / 256 % 256,
     fingerprintId % 256])

/-- The bytes a transport will still deliver, in order: those in the receive
buffer followed by those on the wire, whatever their arrival times. -/
def stream (w : Transport) : List Nat := w.rx ++ w.incoming.map Prod.snd

/-- No byte on the wire is overdue: the next byte on the wire, if there is one,
arrives after the present time. Every `delay` leaves the port in this state. -/
def Settled (w : Transport) : Prop := ∀ p ∈ w.incoming.head?, w.now < p.1

/-- The first `k` bytes of the stream are in the receive buffer once the clock
has reached `t`: those of them still on the wire arrive at `t` at the latest. -/
def ArrivesBy (w : Transport) (k t : Nat) : Prop :=
  ∀ p ∈ w.incoming.take (k - w.rx.length), p.1 ≤ t

instance (w : Transport) : Decidable (Settled w) :=
  inferInstanceAs (Decidable (∀ p ∈ w.incoming.head?, w.now < p.1))

instance (w : Transport) (k t : Nat) : Decidable (ArrivesBy w k t) :=
  inferInstanceAs (Decidable (∀ p ∈ w.incoming.take (k - w.rx.length), p.1 ≤ t))

/-- The first `j` bytes of the stream are complete less than `ms` milliseconds
after the first `k` bytes are, and after the present time: they are due by some
time `t` that is less than `ms` after every time, from now on, by which the
first `k` bytes are due. -/
def CompleteWithin (w : Transport) (k j ms : Nat) : Prop :=
  ∃ t, ArrivesBy w j t ∧ ∀ u, w.now ≤ u → ArrivesBy w k u → t < u + ms

/-- The port `r` is the port `w` after a receiving stretch of the driver that
consumed the first `c` bytes of the stream and ended at time `t` at the latest:
nothing was written, no byte is overdue, and the bytes after the consumed ones
are due in `r` when they were due in `w`; the consumed ones had arrived. -/
def Follows (w r : Transport) (c t : Nat) : Prop :=
  c ≤ (stream w).length ∧ stream r = (stream w).drop c ∧ r.tx = w.tx ∧ Settled r ∧
    w.now ≤ r.now ∧ r.now ≤ t ∧ (∀ m B, ArrivesBy w (c + m) B → ArrivesBy r m B) ∧
    ∀ m B, r.now ≤ B → ArrivesBy r m B → ArrivesBy w (c + m) B

/-! ## Checksum lemmas -/

theorem toInt16_emod (x : Int) : toInt16 x % 256 = x % 256 := by
  unfold toInt16
  omega

theorem foldl_addInt16_emod (data : List Nat) (acc : Int) :
    data.foldl addInt16 acc % 256 = (acc + (data.sum : Int)) % 256 := by
  induction data generalizing acc with
  | nil => simp
  | cons b bs ih =>
    simp only [List.foldl_cons, List.sum_cons, Nat.cast_add]
    rw [ih]
    have h := toInt16_emod (acc + (b : Int))
    unfold addInt16
    omega

theorem toUInt8_neg (sum : Int) : toUInt8 ((~~~sum) + 1) = ((-sum) % 256).toNat := by
  unfold toUInt8
  have h : (~~~sum) + 1 = -sum := by
    cases sum with
    | ofNat n =>
      show Int.negSucc n + 1 = -(n : Int)
      rw [Int.negSucc_eq]
      omega
    | negSucc n =>
      show ((n : Nat) : Int) + 1 = -(Int.negSucc n)
      rw [Int.negSucc_eq]
      omega
  rw [h]

theorem calculateChecksum_eq (data : List Nat) :
    calculateChecksum data = (256 - data.sum % 256) % 256 := by
  unfold calculateChecksum
  simp only
  rw [toUInt8_neg]
  have h := foldl_addInt16_emod data 0
  simp only [zero_add] at h
  have h2 : ((data.sum : Int)) % 256 = ((data.sum % 256 : Nat) : Int) := by
    simp
  omega

/-- C3: for every byte sequence `bs` (empty or not, of any length, also where
the signed 16-bit accumulator wraps) the bytes plus `calculateChecksum bs` sum
to 0 modulo 256, and the checksum is `(256 - sum mod 256) mod 256`. -/
theorem calculateChecksum_law (bs : List Nat) :
    (bs.sum + calculateChecksum bs) % 256 = 0 ∧
      calculateChecksum bs = (256 - bs.sum % 256) % 256 := by
  refine ⟨?_, calculateChecksum_eq bs⟩
  rw [calculateChecksum_eq]
  omega

theorem calculateFrameChecksum_aux (L : Nat) :
    calculateFrameChecksum L
      = calculateChecksum (frameHeader ++ [(L >>> 8) &&& 0xFF, L &&& 0xFF]) := by
  simp [calculateFrameChecksum, calculateChecksum, frameHeader]

/-- C4: the frame checksum of a 16-bit length `L` is the payload checksum of
the marker followed by the two length bytes, so those ten bytes plus the frame
checksum sum to 0 modulo 256; the lengths 7 and 11 give 0x86 and 0x82. -/
theorem calculateFrameChecksum_law (L : Nat) :
    calculateFrameChecksum L
        = calculateChecksum
            ([0xF1, 0x1F, 0xE2, 0x2E, 0xB6, 0x6B, 0xA8, 0x8A] ++
              [(L >>> 8) &&& 0xFF, L &&& 0xFF]) ∧
      ((([0xF1, 0x1F, 0xE2, 0x2E, 0xB6, 0x6B, 0xA8, 0x8A] ++
              [(L >>> 8) &&& 0xFF, L &&& 0xFF]).sum
          + calculateFrameChecksum L) % 256 = 0) ∧
      calculateFrameChecksum 7 = 0x86 ∧ calculateFrameChecksum 11 = 0x82 := by
  have h1 : calculateFrameChecksum L
        = calculateChecksum
            ([0xF1, 0x1F, 0xE2, 0x2E, 0xB6, 0x6B, 0xA8, 0x8A] ++
              [(L >>> 8) &&& 0xFF, L &&& 0xFF]) := by
    simp [calculateFrameChecksum, calculateChecksum, frameHeader, FP_FRAME_HEADER_0,
      FP_FRAME_HEADER_1, FP_FRAME_HEADER_2, FP_FRAME_HEADER_3, FP_FRAME_HEADER_4,
      FP_FRAME_HEADER_5, FP_FRAME_HEADER_6, FP_FRAME_HEADER_7]
  refine ⟨h1, ?_, by decide, by decide⟩
  rw [h1, calculateChecksum_eq]
  omega

/-! ## Bit-level helpers -/

theorem and_255 (x : Nat) : x &&& 255 = x % 256 :=
  Nat.and_pow_two_sub_one_eq_mod x 8

theorem calculateChecksum_lt (data : List Nat) : calculateChecksum data < 256 := by
  rw [calculateChecksum_eq]
  omega

theorem calculateFrameChecksum_lt (n : Nat) : calculateFrameChecksum n < 256 := by
  rw [(calculateFrameChecksum_aux n)]
  exact calculateChecksum_lt _

/-! ## sendFrame -/

theorem foldl_write (l : List Nat) (w : Transport) :
    l.foldl write w = { w with tx := w.tx ++ l } := by
  induction l generalizing w with
  | nil => simp
  | cons b bs ih => simp [List.foldl_cons, ih, write]

theorem shr_and_16 (n : Nat) : (n >>> 8) &&& 255 = n / 256 % 256 := by
  rw [and_255, Nat.shiftRight_eq_div_pow]

theorem slice_length (d : List Nat) : slice d d.length = .ret d := by
  simp [slice]

theorem code_envelope_head (p cmd1 cmd2 : Nat) :
    [(p >>> 24) &&& 255, (p >>> 16) &&& 255, (p >>> 8) &&& 255, p &&& 255, cmd1, cmd2]
      = bigEndian32 p ++ [cmd1, cmd2] := by
  simp only [and_255, Nat.shiftRight_eq_div_pow, bigEndian32, Nat.reducePow, List.cons_append,
    List.nil_append]

/-- The eleven header writes and the envelope writes of `sendFrame`, collected. -/
theorem header_writes (w : Transport) (n : Nat) (env : List Nat) :
    List.foldl write
      (write (write (write (write (write (write (write (write (write (write (write w
        FP_FRAME_HEADER_0) FP_FRAME_HEADER_1) FP_FRAME_HEADER_2) FP_FRAME_HEADER_3)
        FP_FRAME_HEADER_4) FP_FRAME_HEADER_5) FP_FRAME_HEADER_6) FP_FRAME_HEADER_7)
        ((n >>> 8) &&& 255)) (n &&& 255)) (calculateFrameChecksum n)) env
      = { w with tx := w.tx ++ (marker ++ bigEndian16 n ++ [calculateFrameChecksum n] ++ env) } := by
  rw [foldl_write]
  simp only [write, shr_and_16, and_255, Nat.shiftRight_eq_div_pow, Nat.reducePow,
    bigEndian16, marker, FP_FRAME_HEADER_0,
    FP_FRAME_HEADER_1, FP_FRAME_HEADER_2, FP_FRAME_HEADER_3, FP_FRAME_HEADER_4,
    FP_FRAME_HEADER_5, FP_FRAME_HEADER_6, FP_FRAME_HEADER_7, List.append_assoc,
    List.cons_append, List.nil_append]

theorem requestEnvelope_length (p cmd1 cmd2 : Nat) (d : List Nat) :
    (requestEnvelope p cmd1 cmd2 d).length = 7 + d.length := by
  simp only [requestEnvelope, bigEndian32, List.length_append, List.length_cons,
    List.length_nil]
  omega

theorem sendFrame_eq (self : FPM383F) (w : Transport) (cmd1 cmd2 : Nat) (d : List Nat)
    (hlen : d.length ≤ 65528) :
    sendFrame self w cmd1 cmd2 (some d) d.length
      = .ret { w with tx := w.tx ++ frame (requestEnvelope self.password cmd1 cmd2 d) } := by
  have hmod : (7 + d.length) % 65536 = 7 + d.length := Nat.mod_eq_of_lt (by omega)
  have henv := requestEnvelope_length self.password cmd1 cmd2 d
  unfold sendFrame
  simp only [hmod, code_envelope_head]
  by_cases hd : d.length > 0
  · simp only [hd, if_true, slice_length, Exec.bind]
    have hfit : (bigEndian32 self.password ++ [cmd1, cmd2] ++ d ++
        [calculateChecksum (bigEndian32 self.password ++ [cmd1, cmd2] ++ d)]).length
          ≤ 7 + d.length := by
      have := henv
      unfold requestEnvelope at this
      omega
    rw [if_pos hfit, header_writes]
    unfold frame
    rw [henv]
    rfl
  · have hnil : d = [] := List.length_eq_zero.mp (by omega)
    subst hnil
    simp only [List.length_nil, gt_iff_lt, lt_self_iff_false, if_false, Exec.bind,
      List.append_nil] at henv ⊢
    have hfit : (bigEndian32 self.password ++ [cmd1, cmd2] ++
        [calculateChecksum (bigEndian32 self.password ++ [cmd1, cmd2])]).length
          ≤ 7 + 0 := by
      have := henv
      unfold requestEnvelope at this
      simp only [List.append_nil] at this
      omega
    rw [if_pos hfit, header_writes]
    unfold frame
    rw [henv]
    simp only [requestEnvelope, List.append_nil]

/-- C2: for every command pair, stored password `p` and non-null data `d` of
at most 65528 bytes, `sendFrame` appends to the transport exactly the marker,
the big-endian length `7 + len d`, its frame checksum, the big-endian password,
the command pair, `d` and the payload checksum, in that order: `18 + len d` bytes. -/
theorem sendFrame_wire_layout (self : FPM383F) (w : Transport) (cmd1 cmd2 : Nat)
    (d : List Nat) (hlen : d.length ≤ 65528) :
    sendFrame self w cmd1 cmd2 (some d) d.length
      = .ret { w with tx := w.tx ++
          ([0xF1, 0x1F, 0xE2, 0x2E, 0xB6, 0x6B, 0xA8, 0x8A] ++ bigEndian16 (7 + d.length) ++
            [calculateFrameChecksum (7 + d.length)] ++ bigEndian32 self.password ++
            [cmd1, cmd2] ++ d ++
            [calculateChecksum (bigEndian32 self.password ++ [cmd1, cmd2] ++ d)]) } ∧
      ([0xF1, 0x1F, 0xE2, 0x2E, 0xB6, 0x6B, 0xA8, 0x8A] ++ bigEndian16 (7 + d.length) ++
            [calculateFrameChecksum (7 + d.length)] ++ bigEndian32 self.password ++
            [cmd1, cmd2] ++ d ++
            [calculateChecksum (bigEndian32 self.password ++ [cmd1, cmd2] ++ d)]).length
        = 18 + d.length := by
  constructor
  · rw [sendFrame_eq self w cmd1 cmd2 d hlen]
    unfold frame
    rw [requestEnvelope_length]
    simp only [requestEnvelope, marker, List.append_assoc]
  · simp only [bigEndian16, bigEndian32, List.length_append, List.length_cons, List.length_nil]
    omega

/-- C2 at a concrete input: password 0x01020304, command (0x02, 0x0F), data `[4, 1, 0]`. -/
theorem sendFrame_wire_layout_witness :
    [4, 1, 0].length ≤ 65528 ∧
    sendFrame ⟨0x01020304, 0⟩ ⟨0, [], [], []⟩ 0x02 0x0F (some [4, 1, 0]) 3
      = .ret ⟨0, [], [],
          [0xF1, 0x1F, 0xE2, 0x2E, 0xB6, 0x6B, 0xA8, 0x8A, 0x00, 0x0A, 0x83,
           0x01, 0x02, 0x03, 0x04, 0x02, 0x0F, 4, 1, 0, 0xE0]⟩ :=
  ⟨by decide, (sendFrame_wire_layout ⟨0x01020304, 0⟩ ⟨0, [], [], []⟩ 0x02 0x0F [4, 1, 0]
    (by decide)).1⟩

/-! ## The marker loop -/

theorem read_cons (w : Transport) (b : Nat) (t : List Nat) (h : w.rx = b :: t) :
    read w = (b, { w with rx := t }) := by
  unfold read
  rw [h]

theorem headerLoop_read (timeout fuel : Nat) (w : Transport) (k b : Nat) (t : List Nat)
    (hk : k < 8) (ht : millis w < timeout) (hrx : w.rx = b :: t) :
    headerLoop timeout (fuel + 1) w k = headerLoop timeout fuel { w with rx := t } (syncNext k b) := by
  have hav : available w ≠ 0 := by simp [available, hrx]
  rw [headerLoop]
  simp only [ht, hk, and_self, if_true, hav, ne_eq, not_false_eq_true, read_cons w b t hrx,
    syncNext]
  split <;> rfl

theorem headerLoop_done (timeout fuel : Nat) (w : Transport) (k : Nat) (hk : ¬ k < 8) :
    headerLoop timeout (fuel + 1) w k = .ret (w, k) := by
  rw [headerLoop]
  simp [hk]

/-- Reading a stretch `N` of available bytes during which `headerIdx` stays below 8. -/
theorem headerLoop_scan (timeout : Nat) (N : List Nat) :
    ∀ (fuel : Nat) (w : Transport) (k : Nat) (t : List Nat), millis w < timeout →
      w.rx = N ++ t → (∀ i, i < N.length → (N.take i).foldl syncNext k < 8) →
      headerLoop timeout (N.length + fuel) w k
        = headerLoop timeout fuel { w with rx := t } (N.foldl syncNext k) := by
  induction N with
  | nil =>
    intro fuel w k t _ hrx _
    simp only [List.length_nil, Nat.zero_add, List.foldl_nil]
    congr
    simp only [List.nil_append] at hrx
    cases w
    simp_all
  | cons b N ih =>
    intro fuel w k t ht hrx hlt
    have hk : k < 8 := by simpa using hlt 0 (by simp)
    have hfuel : (b :: N).length + fuel = (N.length + fuel) + 1 := by
      simp only [List.length_cons]
      omega
    rw [hfuel, headerLoop_read timeout _ w k b (N ++ t) hk ht (by simpa using hrx)]
    rw [ih fuel { w with rx := N ++ t } (syncNext k b) t (by simpa [millis] using ht) rfl]
    · simp only [List.foldl_cons]
    · intro i hi
      have := hlt (i + 1) (by simpa using hi)
      simpa using this

/-- From any state of the marker loop the eight marker bytes lead to state 8,
and to no state 8 before the last of them. -/
theorem marker_from_any_state :
    ∀ k, k < 8 → frameHeader.foldl syncNext k = 8 ∧
      ∀ i, i < 8 → (frameHeader.take i).foldl syncNext k < 8 := by
  decide

theorem frameHeader_getElem_some (k : Nat) (hk : k < 8) :
    frameHeader[k]? = some (frameHeader.getD k 0) := by
  interval_cases k <;> rfl

theorem syncNext_sound (T : List Nat) (k b : Nat) (hk : k < 8)
    (h : frameHeader.take k <:+ T) :
    syncNext k b ≤ 8 ∧ frameHeader.take (syncNext k b) <:+ T ++ [b] := by
  unfold syncNext
  split
  · rename_i hb
    refine ⟨by omega, ?_⟩
    rw [List.take_succ, frameHeader_getElem_some k hk, ← hb]
    obtain ⟨pre, hpre⟩ := h
    exact ⟨pre, by simp [← hpre]⟩
  · split
    · rename_i hb
      refine ⟨by omega, ?_⟩
      rw [hb]
      exact ⟨T, rfl⟩
    · refine ⟨by omega, ?_⟩
      exact ⟨T ++ [b], by simp⟩

/-- While the marker loop reads `N ++ marker`, `headerIdx` stays below 8 until
the last byte has been read. -/
theorem states_before_end (N : List Nat) (hiso : MarkerOnlyAtEnd N) :
    ∀ i, i < (N ++ marker).length →
      ((N ++ marker).take i).foldl syncNext 0 < 8 ∧
      frameHeader.take (((N ++ marker).take i).foldl syncNext 0) <:+ (N ++ marker).take i := by
  intro i
  induction i with
  | zero =>
    intro _
    simp
  | succ i ih =>
    intro hi
    have hi' : i < (N ++ marker).length := by omega
    obtain ⟨hlt, hsuf⟩ := ih hi'
    have htake : (N ++ marker).take (i + 1) = (N ++ marker).take i ++ [(N ++ marker)[i]] := by
      rw [List.take_succ, List.getElem?_eq_getElem hi']
      rfl
    rw [htake, List.foldl_append]
    simp only [List.foldl_cons, List.foldl_nil]
    obtain ⟨hle, hsuf'⟩ := syncNext_sound _ _ ((N ++ marker)[i]) hlt hsuf
    refine ⟨?_, hsuf'⟩
    rcases Nat.lt_or_ge (syncNext (List.foldl syncNext 0 (List.take i (N ++ marker)))
      (N ++ marker)[i]) 8 with h8 | h8
    · exact h8
    · exfalso
      have h8' : syncNext (List.foldl syncNext 0 (List.take i (N ++ marker)))
          (N ++ marker)[i] = 8 := by omega
      rw [h8'] at hsuf'
      obtain ⟨pre, hpre⟩ := hsuf'
      have hsplit : N ++ marker = pre ++ marker ++ (N ++ marker).drop (i + 1) := by
        have h1 : List.take 8 frameHeader = marker := rfl
        rw [h1] at hpre
        rw [hpre, ← htake, List.take_append_drop]
      have hnil := hiso pre _ hsplit
      have hlen := congrArg List.length hnil
      simp only [List.length_drop, List.length_nil] at hlen
      omega

/-- Marker synchronisation: with `N ++ marker` at the front of the receive
buffer the marker loop stops right after the marker with `headerIdx = 8`. -/
theorem headerLoop_sync (timeout fuel : Nat) (w : Transport) (N t : List Nat)
    (ht : millis w < timeout) (hrx : w.rx = N ++ marker ++ t) (hiso : MarkerOnlyAtEnd N) :
    headerLoop timeout ((N ++ marker).length + (fuel + 1)) w 0
      = .ret ({ w with rx := t }, 8) := by
  have hstates := states_before_end N hiso
  rw [headerLoop_scan timeout (N ++ marker) (fuel + 1) w 0 t ht hrx
    (fun i hi => (hstates i hi).1)]
  have hN : N.foldl syncNext 0 < 8 := by
    have h := (hstates N.length (by simp [marker])).1
    simpa using h
  have hfin : (N ++ marker).foldl syncNext 0 = 8 := by
    rw [List.foldl_append]
    exact (marker_from_any_state _ hN).1
  rw [hfin, headerLoop_done]
  omega

theorem receiveFrame_sync (self : FPM383F) (w : Transport) (out : Outputs) (maxDataLen : Nat)
    (N t : List Nat) (ht : millis w < deadline w) (hrx : w.rx = N ++ marker ++ t)
    (hiso : MarkerOnlyAtEnd N) :
    receiveFrame self w out maxDataLen
      = afterHeader (deadline w) self { w with rx := t } out maxDataLen := by
  unfold receiveFrame
  have hfuel : w.rx.length + w.incoming.length + waitFuel (deadline w) w
      = (N ++ marker).length + ((t.length + w.incoming.length + (deadline w - millis w)) + 1) := by
    rw [hrx]
    simp only [List.length_append, waitFuel]
    omega
  simp only [hfuel, headerLoop_sync (deadline w) _ w N t ht hrx hiso, Exec.bind]
  simp

theorem markerOnlyAtEnd_nil : MarkerOnlyAtEnd [] := by
  intro pre post h
  have hlen := congrArg List.length h
  simp only [List.nil_append, List.length_append] at hlen
  have : post.length = 0 := by omega
  exact List.length_eq_zero.mp this

/-! ## Length, frame checksum and envelope -/

theorem waitAvailable_ready (timeout n : Nat) (w : Transport) (h : n ≤ available w) :
    waitAvailable timeout n (waitFuel timeout w) w = .ret w := by
  unfold waitFuel
  rw [waitAvailable]
  simp [Nat.not_lt.mpr h]

theorem readBytes_append (env : List Nat) :
    ∀ (w : Transport) (rest : List Nat), w.rx = env ++ rest →
      readBytes env.length w = (env, { w with rx := rest }) := by
  induction env with
  | nil =>
    intro w rest h
    cases w
    simp_all [readBytes]
  | cons b env ih =>
    intro w rest h
    simp only [List.length_cons, readBytes]
    rw [read_cons w b (env ++ rest) (by simpa using h)]
    simp only
    rw [ih { w with rx := env ++ rest } rest rfl]

theorem shiftLeft_or_lt (a b i : Nat) (hb : b < 2 ^ i) : (a <<< i) ||| b = a * 2 ^ i + b := by
  rw [Nat.shiftLeft_eq, Nat.mul_comm a (2 ^ i)]
  exact (Nat.mul_add_lt_is_or hb a).symm

theorem decode_bigEndian16 (L : Nat) (hL : L < 65536) :
    (((L / 256 % 256) <<< 8) ||| (L % 256)) % 65536 = L := by
  rw [shiftLeft_or_lt _ _ 8 (by simpa using Nat.mod_lt L (by decide : 0 < 256))]
  simp only [Nat.reducePow]
  omega

theorem decode_bytes32 (b0 b1 b2 b3 : Nat) (h1 : b1 < 256) (h2 : b2 < 256) (h3 : b3 < 256) :
    ((b0 <<< 24) ||| (b1 <<< 16) ||| (b2 <<< 8) ||| b3) = fromBigEndian32 b0 b1 b2 b3 := by
  rw [Nat.lor_assoc, Nat.lor_assoc]
  rw [shiftLeft_or_lt b2 b3 8 (by simpa using h3)]
  rw [shiftLeft_or_lt b1 _ 16 (by simp only [Nat.reducePow]; omega)]
  rw [shiftLeft_or_lt b0 _ 24 (by simp only [Nat.reducePow]; omega)]
  simp only [Nat.reducePow, fromBigEndian32]
  omega

theorem decode_bigEndian32 (n : Nat) (hn : n < 2 ^ 32) :
    ((((n / 16777216 % 256) <<< 24) ||| ((n / 65536 % 256) <<< 16) |||
      ((n / 256 % 256) <<< 8) ||| (n % 256)) % 2 ^ 32) = n := by
  rw [decode_bytes32 _ _ _ _ (Nat.mod_lt _ (by decide)) (Nat.mod_lt _ (by decide))
    (Nat.mod_lt _ (by decide))]
  simp only [fromBigEndian32, Nat.reducePow] at hn ⊢
  omega

/-- The length and frame-checksum stages when three bytes are in the receive
buffer and the third is not the frame checksum of the length read. -/
theorem afterHeader_bad_frameChecksum (timeout : Nat) (self : FPM383F) (w : Transport)
    (out : Outputs) (maxDataLen hi lo c : Nat) (rest : List Nat)
    (hrx : w.rx = hi :: lo :: c :: rest)
    (hc : c ≠ calculateFrameChecksum (((hi <<< 8) ||| lo) % 65536)) :
    afterHeader timeout self w out maxDataLen
      = .ret (failWith self { w with rx := rest } out FP_ERROR_INVALID_DATA) := by
  unfold afterHeader
  rw [waitAvailable_ready timeout 2 w (by simp [available, hrx])]
  simp only [Exec.bind]
  rw [if_neg (by simp [available, hrx])]
  rw [read_cons w hi (lo :: c :: rest) hrx]
  simp only
  rw [read_cons { w with rx := lo :: c :: rest } lo (c :: rest) rfl]
  simp only
  rw [waitAvailable_ready timeout 1 _ (by simp [available])]
  simp only [Exec.bind]
  rw [if_neg (by simp [available])]
  rw [read_cons { w with rx := c :: rest } c rest rfl]
  simp only [ne_eq, hc, not_false_eq_true, if_true]

/-- The length, frame-checksum and read stages when a whole frame body is in
the receive buffer. -/
theorem afterHeader_frame (timeout : Nat) (self : FPM383F) (w : Transport)
    (out : Outputs) (maxDataLen : Nat) (env rest : List Nat) (hL : env.length < 65536)
    (hrx : w.rx = bigEndian16 env.length ++ [calculateFrameChecksum env.length] ++ env ++ rest) :
    afterHeader timeout self w out maxDataLen
      = parseEnvelope self { w with rx := rest } out maxDataLen env.length env := by
  have hrx' : w.rx = (env.length / 256 % 256) :: (env.length % 256) ::
      calculateFrameChecksum env.length :: (env ++ rest) := by
    rw [hrx]
    simp [bigEndian16]
  unfold afterHeader
  rw [waitAvailable_ready timeout 2 w (by simp [available, hrx'])]
  simp only [Exec.bind]
  rw [if_neg (by simp [available, hrx'])]
  rw [read_cons w _ _ hrx']
  simp only
  rw [read_cons { w with rx := _ :: _ :: (env ++ rest) } _ _ rfl]
  simp only
  rw [waitAvailable_ready timeout 1 _ (by simp [available])]
  simp only [Exec.bind]
  rw [if_neg (by simp [available])]
  rw [read_cons { w with rx := _ :: (env ++ rest) } _ _ rfl]
  rw [decode_bigEndian16 env.length hL, if_neg (by simp)]
  simp only
  rw [waitAvailable_ready timeout env.length _ (by simp [available])]
  simp only [Exec.bind]
  rw [if_neg (by simp [available])]
  rw [readBytes_append env { w with rx := env ++ rest } rest rfl]

/-! ## The envelope -/

theorem index_append_last (body : List Nat) (c : Nat) :
    index (body ++ [c]) ((body ++ [c]).length - 1) = .ret c := by
  simp [index]

theorem slice_append_last (body : List Nat) (c : Nat) (h : (body ++ [c]).length < 65536) :
    slice (body ++ [c]) (((body ++ [c]).length + 65535) % 65536) = .ret body := by
  have hlen : ((body ++ [c]).length + 65535) % 65536 = body.length := by
    simp only [List.length_append, List.length_cons, List.length_nil] at h ⊢
    omega
  rw [hlen]
  simp [slice]

/-- An envelope whose last byte is not the checksum of the bytes before it is
rejected, and nothing is written to the caller's variables. -/
theorem parseEnvelope_bad_checksum (self : FPM383F) (w : Transport) (out : Outputs)
    (maxDataLen : Nat) (body : List Nat) (c : Nat) (h : (body ++ [c]).length < 65536)
    (hc : c ≠ calculateChecksum body) :
    parseEnvelope self w out maxDataLen (body ++ [c]).length (body ++ [c])
      = .ret (failWith self w out FP_ERROR_INVALID_DATA) := by
  unfold parseEnvelope
  rw [index_append_last, slice_append_last body c h]
  simp only [Exec.bind]
  rw [if_pos hc]

theorem fromBigEndian32_lt (e0 e1 e2 e3 : Nat) (h0 : e0 < 256) (h1 : e1 < 256) (h2 : e2 < 256)
    (h3 : e3 < 256) : fromBigEndian32 e0 e1 e2 e3 < 2 ^ 32 := by
  simp only [fromBigEndian32, Nat.reducePow]
  omega

theorem room_noBuffer (n : Nat) : Room noBuffer n := by
  intro buf h
  cases h

theorem room_responseBuffer (n : Nat) (h : n ≤ 4) : Room responseBuffer n := by
  intro buf hb
  cases hb
  exact h

theorem room_le (out : Outputs) (m n : Nat) (h : Room out n) (hmn : m ≤ n) : Room out m :=
  fun buf hb => Nat.le_trans hmn (h buf hb)

theorem room_min (out : Outputs) (k n : Nat) (h : Room out n) : Room out (min k n) :=
  room_le out _ n h (Nat.min_le_right k n)

/-- A checksum-valid envelope of at least 11 bytes is accepted. -/
theorem parseEnvelope_ok (self : FPM383F) (w : Transport) (out : Outputs) (maxDataLen : Nat)
    (p0 p1 p2 p3 c1 c2 e0 e1 e2 e3 : Nat) (d : List Nat)
    (h0 : e0 < 256) (h1 : e1 < 256) (h2 : e2 < 256) (h3 : e3 < 256)
    (hlen : 11 + d.length < 65536) (hroom : Room out (min d.length maxDataLen)) :
    parseEnvelope self w out maxDataLen
        ([p0, p1, p2, p3, c1, c2, e0, e1, e2, e3] ++ d ++
          [calculateChecksum ([p0, p1, p2, p3, c1, c2, e0, e1, e2, e3] ++ d)]).length
        ([p0, p1, p2, p3, c1, c2, e0, e1, e2, e3] ++ d ++
          [calculateChecksum ([p0, p1, p2, p3, c1, c2, e0, e1, e2, e3] ++ d)])
      = .ret { value := true
               self := { self with lastError := fromBigEndian32 e0 e1 e2 e3 }
               serial := w
               out := deliver out maxDataLen c1 c2 (fromBigEndian32 e0 e1 e2 e3) d } := by
  have hL : ([p0, p1, p2, p3, c1, c2, e0, e1, e2, e3] ++ d ++
      [calculateChecksum ([p0, p1, p2, p3, c1, c2, e0, e1, e2, e3] ++ d)]).length
        = 11 + d.length := by
    simp only [List.length_append, List.length_cons, List.length_nil]
    omega
  unfold parseEnvelope
  rw [index_append_last, slice_append_last _ _ (by omega)]
  simp only [Exec.bind, ne_eq, not_true_eq_false, if_false]
  rw [hL]
  have hE : ((e0 <<< 24) ||| (e1 <<< 16) ||| (e2 <<< 8) ||| e3) % 2 ^ 32
      = fromBigEndian32 e0 e1 e2 e3 := by
    rw [decode_bytes32 e0 e1 e2 e3 h1 h2 h3]
    exact Nat.mod_eq_of_lt (fromBigEndian32_lt e0 e1 e2 e3 h0 h1 h2 h3)
  have hR : (11 + d.length + 65536 - 11) % 65536 = d.length := by omega
  simp only [index, List.cons_append, List.nil_append, List.getElem?_cons_zero,
    List.getElem?_cons_succ, hE, hR, List.drop_succ_cons, List.drop_zero, List.length_cons,
    List.length_append, List.length_nil]
  unfold deliver
  cases hbuf : out.data with
  | none => simp
  | some buf =>
    simp only
    by_cases hcopy : 0 < d.length ∧ 0 < maxDataLen
    · have hfit : 10 + min d.length maxDataLen ≤ 11 + d.length := by
        omega
      have hdst : min d.length maxDataLen ≤ buf.length := hroom buf hbuf
      simp [hcopy, hfit, hdst,
        List.take_append_of_le_length (Nat.min_le_left d.length maxDataLen)]
    · simp [hcopy]

/-! ## Decoding a frame -/

theorem responseEnvelope_length (pw c1 c2 ec : Nat) (d : List Nat) :
    (responseEnvelope pw c1 c2 ec d).length = 11 + d.length := by
  simp only [responseEnvelope, bigEndian32, List.length_append, List.length_cons,
    List.length_nil]
  omega

theorem fromBigEndian32_bigEndian32 (n : Nat) (hn : n < 2 ^ 32) :
    fromBigEndian32 (n / 16777216 % 256) (n / 65536 % 256) (n / 256 % 256) (n % 256) = n := by
  simp only [fromBigEndian32, Nat.reducePow] at hn ⊢
  omega

/-- A frame with envelope `env` at the front of the receive buffer, possibly
after noise `N`, is handed to `parseEnvelope`, and exactly the noise and the
frame are consumed. -/
theorem receiveFrame_frame (self : FPM383F) (w : Transport) (out : Outputs) (maxDataLen : Nat)
    (N env rest : List Nat) (ht : millis w < deadline w) (hiso : MarkerOnlyAtEnd N)
    (hL : env.length < 65536) (hrx : w.rx = N ++ frame env ++ rest) :
    receiveFrame self w out maxDataLen
      = parseEnvelope self { w with rx := rest } out maxDataLen env.length env := by
  rw [receiveFrame_sync self w out maxDataLen N
    (bigEndian16 env.length ++ [calculateFrameChecksum env.length] ++ env ++ rest) ht
    (by rw [hrx]; simp only [frame, List.append_assoc]) hiso]
  rw [afterHeader_frame (deadline w) self _ out maxDataLen env rest hL rfl]

/-- A valid response frame at the front of the receive buffer, possibly after
noise `N`, is decoded. -/
theorem receiveFrame_response (self : FPM383F) (w : Transport) (out : Outputs)
    (maxDataLen : Nat) (N rest : List Nat) (pw c1 c2 ec : Nat) (d : List Nat)
    (ht : millis w < deadline w) (hiso : MarkerOnlyAtEnd N) (hec : ec < 2 ^ 32)
    (hlen : 11 + d.length < 65536)
    (hrx : w.rx = N ++ frame (responseEnvelope pw c1 c2 ec d) ++ rest)
    (hroom : Room out (min d.length maxDataLen)) :
    receiveFrame self w out maxDataLen
      = .ret { value := true
               self := { self with lastError := ec }
               serial := { w with rx := rest }
               out := deliver out maxDataLen c1 c2 ec d } := by
  rw [receiveFrame_frame self w out maxDataLen N _ rest ht hiso
    (by rw [responseEnvelope_length]; exact hlen) hrx]
  have h := parseEnvelope_ok self { w with rx := rest } out maxDataLen
    (pw / 16777216 % 256) (pw / 65536 % 256) (pw / 256 % 256) (pw % 256) c1 c2
    (ec / 16777216 % 256) (ec / 65536 % 256) (ec / 256 % 256) (ec % 256) d
    (Nat.mod_lt _ (by decide)) (Nat.mod_lt _ (by decide)) (Nat.mod_lt _ (by decide))
    (Nat.mod_lt _ (by decide)) hlen hroom
  rw [fromBigEndian32_bigEndian32 ec hec] at h
  exact h

theorem deliver_fits (out : Outputs) (maxDataLen c1 c2 ec : Nat) (d buf : List Nat)
    (hbuf : out.data = some buf) (hcap : d.length ≤ maxDataLen) :
    deliver out maxDataLen c1 c2 ec d
      = { cmd1 := c1, cmd2 := c2, errorCode := ec, actualDataLen := d.length,
          data := some (d ++ buf.drop d.length) } := by
  unfold deliver
  rw [hbuf]
  simp only
  by_cases hcopy : 0 < d.length ∧ 0 < maxDataLen
  · rw [if_pos hcopy, Nat.min_eq_left hcap, List.take_length]
  · rw [if_neg hcopy]
    have hd : d = [] := List.length_eq_zero.mp (by omega)
    subst hd
    simp

/-- C1, round trip: for every password, command pair and data `d` with
`11 + len d` fitting in 16 bits, when the bytes `sendFrame` writes for
`(cmd1, cmd2, [0,0,0,0] ++ d)` stand in the receive buffer before the deadline,
`receiveFrame` with a buffer of capacity at least `len d` (announced by
`maxDataLen` and present in the buffer) returns true with exactly `cmd1`,
`cmd2`, error code 0, `actualDataLen = len d` and data `d`. -/
theorem sendFrame_receiveFrame_roundtrip (sender self : FPM383F) (w0 w1 w : Transport)
    (out : Outputs) (maxDataLen cmd1 cmd2 : Nat) (d buf rest : List Nat)
    (hlen : 11 + d.length < 65536)
    (hw0 : w0.tx = [])
    (hsend : sendFrame sender w0 cmd1 cmd2 (some ([0, 0, 0, 0] ++ d)) ([0, 0, 0, 0] ++ d).length
      = .ret w1)
    (hrx : w.rx = w1.tx ++ rest)
    (ht : millis w < deadline w)
    (hbuf : out.data = some buf) (hcap : d.length ≤ maxDataLen)
    (hroom : d.length ≤ buf.length) :
    receiveFrame self w out maxDataLen
      = .ret { value := true
               self := { self with lastError := 0 }
               serial := { w with rx := rest }
               out := { cmd1 := cmd1, cmd2 := cmd2, errorCode := 0, actualDataLen := d.length,
                        data := some (d ++ buf.drop d.length) } } := by
  have hsent := sendFrame_eq sender w0 cmd1 cmd2 ([0, 0, 0, 0] ++ d)
    (by simp only [List.length_append, List.length_cons, List.length_nil]; omega)
  rw [hsend] at hsent
  have hw1 := Exec.ret.inj hsent
  have htx : w1.tx = frame (responseEnvelope sender.password cmd1 cmd2 0 d) := by
    rw [hw1, hw0]
    simp [requestEnvelope, responseEnvelope, bigEndian32]
  rw [htx] at hrx
  have hrx' : w.rx = [] ++ frame (responseEnvelope sender.password cmd1 cmd2 0 d) ++ rest := by
    rw [hrx, List.nil_append]
  have hzero : (0 : Nat) < 2 ^ 32 := by norm_num
  have hR : Room out (min d.length maxDataLen) := by
    intro b hb
    rw [hbuf] at hb
    cases hb
    exact Nat.le_trans (Nat.min_le_left _ _) hroom
  have h := receiveFrame_response self w out maxDataLen [] rest sender.password cmd1 cmd2 0 d ht
    markerOnlyAtEnd_nil hzero hlen hrx' hR
  rw [h, deliver_fits out maxDataLen cmd1 cmd2 0 d buf hbuf hcap]

/-- C1 at a concrete input: password 0xA1B2C3D4, command (0x01, 0x21), data `[7, 9]`. -/
theorem sendFrame_receiveFrame_roundtrip_witness :
    receiveFrame ⟨0, 5⟩
        ⟨100, [0xF1, 0x1F, 0xE2, 0x2E, 0xB6, 0x6B, 0xA8, 0x8A, 0x00, 0x0D, 0x80,
               0xA1, 0xB2, 0xC3, 0xD4, 0x01, 0x21, 0, 0, 0, 0, 7, 9, 0xE4], [], []⟩
        ⟨0, 0, some [1, 2, 3, 4], 0, 0⟩ 4
      = .ret { value := true
               self := ⟨0, 0⟩
               serial := ⟨100, [], [], []⟩
               out := ⟨0x01, 0x21, some [7, 9, 3, 4], 2, 0⟩ } :=
  sendFrame_receiveFrame_roundtrip ⟨0xA1B2C3D4, 0⟩ ⟨0, 5⟩ ⟨0, [], [], []⟩
    ⟨0, [], [], [0xF1, 0x1F, 0xE2, 0x2E, 0xB6, 0x6B, 0xA8, 0x8A, 0x00, 0x0D, 0x80,
               0xA1, 0xB2, 0xC3, 0xD4, 0x01, 0x21, 0, 0, 0, 0, 7, 9, 0xE4]⟩
    ⟨100, [0xF1, 0x1F, 0xE2, 0x2E, 0xB6, 0x6B, 0xA8, 0x8A, 0x00, 0x0D, 0x80,
               0xA1, 0xB2, 0xC3, 0xD4, 0x01, 0x21, 0, 0, 0, 0, 7, 9, 0xE4], [], []⟩
    ⟨0, 0, some [1, 2, 3, 4], 0, 0⟩ 4 0x01 0x21 [7, 9] [1, 2, 3, 4] []
    (by decide) rfl (by decide) (by decide) (by decide) rfl (by decide) (by decide)

/-! ## Marker resynchronisation -/

theorem markerOnlyAtEnd_F1 : MarkerOnlyAtEnd [0xF1] := by
  intro pre post h
  have hlen := congrArg List.length h
  simp only [marker, List.length_append, List.length_cons, List.length_nil] at hlen
  cases pre with
  | nil =>
    exfalso
    simp [marker] at h
  | cons a pre =>
    simp only [List.length_cons] at hlen
    exact List.length_eq_zero.mp (by omega)

/-- C5, marker resynchronisation: for noise `N` such that `N ++ marker` holds
the marker only as its final eight bytes, and a valid response frame after it,
the marker loop stops exactly at the end of the frame's marker with all eight
bytes matched, and `receiveFrame` returns on `N ++ F` the successful result it
returns on `F` alone; the single noise byte 0xF1 is such an `N`. -/
theorem marker_resynchronisation (self : FPM383F) (w : Transport) (out : Outputs)
    (maxDataLen : Nat) (N rest : List Nat) (pw c1 c2 ec : Nat) (d : List Nat)
    (hiso : MarkerOnlyAtEnd N) (hec : ec < 2 ^ 32) (hlen : 11 + d.length < 65536)
    (hrx : w.rx = N ++ frame (responseEnvelope pw c1 c2 ec d) ++ rest)
    (ht : millis w < deadline w) (hroom : Room out maxDataLen) :
    headerLoop (deadline w) (w.rx.length + w.incoming.length + waitFuel (deadline w) w) w 0
        = .ret ({ w with rx := (frame (responseEnvelope pw c1 c2 ec d)).drop 8 ++ rest }, 8) ∧
      receiveFrame self w out maxDataLen
        = .ret { value := true
                 self := { self with lastError := ec }
                 serial := { w with rx := rest }
                 out := deliver out maxDataLen c1 c2 ec d } ∧
      receiveFrame self { w with rx := frame (responseEnvelope pw c1 c2 ec d) ++ rest } out
          maxDataLen
        = receiveFrame self w out maxDataLen ∧
      MarkerOnlyAtEnd [0xF1] := by
  refine ⟨?_, ?_, ?_, markerOnlyAtEnd_F1⟩
  · have hrx' : w.rx = N ++ marker ++
        ((frame (responseEnvelope pw c1 c2 ec d)).drop 8 ++ rest) := by
      rw [hrx]
      simp [frame, marker]
    have hfuel : w.rx.length + w.incoming.length + waitFuel (deadline w) w
        = (N ++ marker).length +
          ((((frame (responseEnvelope pw c1 c2 ec d)).drop 8 ++ rest).length
            + w.incoming.length + (deadline w - millis w)) + 1) := by
      rw [hrx']
      simp only [List.length_append, waitFuel]
      omega
    rw [hfuel]
    exact headerLoop_sync (deadline w) _ w N _ ht hrx' hiso
  · exact receiveFrame_response self w out maxDataLen N rest pw c1 c2 ec d ht hiso hec hlen hrx
      (room_min out _ _ hroom)
  · rw [receiveFrame_response self w out maxDataLen N rest pw c1 c2 ec d ht hiso hec hlen hrx
      (room_min out _ _ hroom)]
    have h := receiveFrame_response self
      { w with rx := frame (responseEnvelope pw c1 c2 ec d) ++ rest } out maxDataLen [] rest
      pw c1 c2 ec d ht markerOnlyAtEnd_nil hec hlen (by simp) (room_min out _ _ hroom)
    rw [h]

/-- C5 at the stream `F1 F1 1F E2 2E B6 6B A8 8A` followed by the length,
frame checksum and envelope of a heartbeat response. -/
theorem marker_resynchronisation_witness :
    receiveFrame ⟨0, 0⟩
        ⟨0, [0xF1, 0xF1, 0x1F, 0xE2, 0x2E, 0xB6, 0x6B, 0xA8, 0x8A, 0x00, 0x0B, 0x82,
             0, 0, 0, 0, 0x03, 0x03, 0, 0, 0, 0, 0xFA], [], []⟩
        ⟨0, 0, none, 0, 0⟩ 0
      = .ret { value := true
               self := ⟨0, 0⟩
               serial := ⟨0, [], [], []⟩
               out := ⟨0x03, 0x03, none, 0, 0⟩ } :=
  (marker_resynchronisation ⟨0, 0⟩
    ⟨0, [0xF1, 0xF1, 0x1F, 0xE2, 0x2E, 0xB6, 0x6B, 0xA8, 0x8A, 0x00, 0x0B, 0x82,
         0, 0, 0, 0, 0x03, 0x03, 0, 0, 0, 0, 0xFA], [], []⟩
    ⟨0, 0, none, 0, 0⟩ 0 [0xF1] [] 0 0x03 0x03 0 []
    markerOnlyAtEnd_F1 (by norm_num) (by decide) (by decide) (by decide)
    (room_noBuffer 0)).2.1

/-! ## Corrupted frames -/

theorem sum_set (l : List Nat) :
    ∀ (i v : Nat) (h : i < l.length), (l.set i v).sum + l[i] = l.sum + v := by
  induction l with
  | nil =>
    intro i v h
    simp at h
  | cons a l ih =>
    intro i v h
    cases i with
    | zero =>
      simp only [List.set_cons_zero, List.sum_cons, List.getElem_cons_zero]
      omega
    | succ i =>
      simp only [List.set_cons_succ, List.sum_cons, List.getElem_cons_succ]
      have := ih i v (by simpa using h)
      omega

theorem calculateChecksum_set_ne (body : List Nat) (i v : Nat) (h : i < body.length)
    (hb : body[i] < 256) (hv : v < 256) (hne : body[i] ≠ v) :
    calculateChecksum body ≠ calculateChecksum (body.set i v) := by
  rw [calculateChecksum_eq, calculateChecksum_eq]
  have := sum_set body i v h
  omega

/-- The failure result of C6 and C7: `false`, `lastError = FP_ERROR_INVALID_DATA`,
the caller's variables untouched, `rest` left in the receive buffer. -/
theorem failWith_invalid (self : FPM383F) (w : Transport) (out : Outputs) :
    failWith self w out FP_ERROR_INVALID_DATA
      = { value := false, self := { self with lastError := 0x03 }, serial := w, out := out } :=
  rfl

/-- C6, payload corruption is detected: in a valid frame with envelope
`body ++ [calculateChecksum body]`, replacing any one byte of the envelope
(a body byte or the trailing checksum byte) by a different byte value makes
`receiveFrame` return false with `lastError = FP_ERROR_INVALID_DATA` (0x03),
and `cmd1`, `cmd2`, `errorCode`, `actualDataLen` and the data buffer of the
caller are left as they were. -/
theorem payload_corruption_detected (self : FPM383F) (w : Transport) (out : Outputs)
    (maxDataLen : Nat) (body rest : List Nat) (i v : Nat)
    (hL : (body ++ [calculateChecksum body]).length < 65536) (hbytes : Bytes body)
    (hi : i < (body ++ [calculateChecksum body]).length) (hv : v < 256)
    (hne : (body ++ [calculateChecksum body])[i]? ≠ some v)
    (hrx : w.rx = frame ((body ++ [calculateChecksum body]).set i v) ++ rest)
    (ht : millis w < deadline w) :
    receiveFrame self w out maxDataLen
      = .ret { value := false
               self := { self with lastError := 0x03 }
               serial := { w with rx := rest }
               out := out } := by
  simp only [List.length_append, List.length_cons, List.length_nil] at hL hi
  have hrx' : w.rx = [] ++ frame ((body ++ [calculateChecksum body]).set i v) ++ rest := by
    rw [hrx, List.nil_append]
  rcases Nat.lt_or_ge i body.length with hlt | hge
  · have hset : (body ++ [calculateChecksum body]).set i v
        = body.set i v ++ [calculateChecksum body] := List.set_append_left i v hlt
    have hbi : body[i] ≠ v := by
      intro h
      apply hne
      rw [List.getElem?_append_left hlt, List.getElem?_eq_getElem hlt, h]
    have hcs := calculateChecksum_set_ne body i v hlt (hbytes _ (List.getElem_mem hlt)) hv hbi
    rw [hset] at hrx'
    have hlen : (body.set i v ++ [calculateChecksum body]).length < 65536 := by
      simp only [List.length_append, List.length_set, List.length_cons, List.length_nil]
      omega
    rw [receiveFrame_frame self w out maxDataLen [] _ rest ht markerOnlyAtEnd_nil hlen hrx',
      parseEnvelope_bad_checksum self _ out maxDataLen _ _ hlen hcs, failWith_invalid]
  · have hieq : i = body.length := by omega
    subst hieq
    have hset : (body ++ [calculateChecksum body]).set body.length v = body ++ [v] := by
      rw [List.set_append_right _ _ (Nat.le_refl _)]
      simp
    have hcs : v ≠ calculateChecksum body := by
      intro h
      apply hne
      rw [List.getElem?_append_right (Nat.le_refl _)]
      simp [h]
    rw [hset] at hrx'
    have hlen : (body ++ [v]).length < 65536 := by
      simp only [List.length_append, List.length_cons, List.length_nil]
      omega
    rw [receiveFrame_frame self w out maxDataLen [] _ rest ht markerOnlyAtEnd_nil hlen hrx',
      parseEnvelope_bad_checksum self _ out maxDataLen _ _ hlen hcs, failWith_invalid]

/-- C6 at a heartbeat response whose checksum byte 0xFA has its lowest bit flipped. -/
theorem payload_corruption_detected_witness :
    receiveFrame ⟨0, 0⟩
        ⟨0, [0xF1, 0x1F, 0xE2, 0x2E, 0xB6, 0x6B, 0xA8, 0x8A, 0x00, 0x0B, 0x82,
             0, 0, 0, 0, 0x03, 0x03, 0, 0, 0, 0, 0xFA ^^^ 1], [], []⟩
        ⟨7, 7, some [7, 7], 7, 7⟩ 2
      = .ret { value := false
               self := ⟨0, 0x03⟩
               serial := ⟨0, [], [], []⟩
               out := ⟨7, 7, some [7, 7], 7, 7⟩ } :=
  payload_corruption_detected ⟨0, 0⟩
    ⟨0, [0xF1, 0x1F, 0xE2, 0x2E, 0xB6, 0x6B, 0xA8, 0x8A, 0x00, 0x0B, 0x82,
         0, 0, 0, 0, 0x03, 0x03, 0, 0, 0, 0, 0xFA ^^^ 1], [], []⟩
    ⟨7, 7, some [7, 7], 7, 7⟩ 2 [0, 0, 0, 0, 0x03, 0x03, 0, 0, 0, 0] [] 10 (0xFA ^^^ 1)
    (by decide) (by decide) (by decide) (by decide) (by decide) (by decide) (by decide)

/-- C7, frame-checksum mismatch: with the marker, a 16-bit length `L` and a
byte other than `calculateFrameChecksum L` in the receive buffer, `receiveFrame`
returns false with `lastError = FP_ERROR_INVALID_DATA`, has consumed exactly
those eleven bytes and leaves everything after them unread. -/
theorem frame_checksum_mismatch (self : FPM383F) (w : Transport) (out : Outputs)
    (maxDataLen L c : Nat) (rest : List Nat) (hL : L < 65536)
    (hc : c ≠ calculateFrameChecksum L)
    (hrx : w.rx = marker ++ bigEndian16 L ++ [c] ++ rest)
    (ht : millis w < deadline w) :
    receiveFrame self w out maxDataLen
      = .ret { value := false
               self := { self with lastError := FP_ERROR_INVALID_DATA }
               serial := { w with rx := rest }
               out := out } ∧
      (marker ++ bigEndian16 L ++ [c]).length = 11 := by
  refine ⟨?_, by simp [marker, bigEndian16]⟩
  have hrx' : w.rx = [] ++ marker ++ ((L / 256 % 256) :: (L % 256) :: c :: rest) := by
    rw [hrx]
    simp [bigEndian16]
  rw [receiveFrame_sync self w out maxDataLen [] _ ht hrx' markerOnlyAtEnd_nil]
  rw [afterHeader_bad_frameChecksum (deadline w) self _ out maxDataLen _ _ c rest rfl
    (by rw [decode_bigEndian16 L hL]; exact hc)]
  rfl

/-- C7 at length 11 with the byte 0x83 in place of the frame checksum 0x82. -/
theorem frame_checksum_mismatch_witness :
    receiveFrame ⟨0, 0⟩
        ⟨0, [0xF1, 0x1F, 0xE2, 0x2E, 0xB6, 0x6B, 0xA8, 0x8A, 0x00, 0x0B, 0x83,
             0xF1, 0x1F, 0xE2], [], []⟩
        ⟨7, 7, none, 7, 7⟩ 0
      = .ret { value := false
               self := ⟨0, 0x03⟩
               serial := ⟨0, [0xF1, 0x1F, 0xE2], [], []⟩
               out := ⟨7, 7, none, 7, 7⟩ } :=
  (frame_checksum_mismatch ⟨0, 0⟩
    ⟨0, [0xF1, 0x1F, 0xE2, 0x2E, 0xB6, 0x6B, 0xA8, 0x8A, 0x00, 0x0B, 0x83,
         0xF1, 0x1F, 0xE2], [], []⟩
    ⟨7, 7, none, 7, 7⟩ 0 11 0x83 [0xF1, 0x1F, 0xE2] (by decide) (by decide) (by decide)
    (by decide)).1

/-! ## Command correlation -/

theorem sendFrame_null (self : FPM383F) (w : Transport) (cmd1 cmd2 : Nat) :
    sendFrame self w cmd1 cmd2 none 0
      = .ret { w with tx := w.tx ++ frame (requestEnvelope self.password cmd1 cmd2 []) } := by
  have henv := requestEnvelope_length self.password cmd1 cmd2 []
  unfold sendFrame
  simp only [code_envelope_head, Exec.bind]
  have hfit : (bigEndian32 self.password ++ [cmd1, cmd2] ++
      [calculateChecksum (bigEndian32 self.password ++ [cmd1, cmd2])]).length
        ≤ (7 + 0) % 65536 := by
    simp only [bigEndian32, List.length_append, List.length_cons, List.length_nil]
    omega
  rw [if_pos hfit, header_writes]
  unfold frame
  rw [henv]
  simp only [requestEnvelope, List.append_nil, List.length_nil]

theorem receiveResponse_mismatch (self : FPM383F) (w : Transport) (out : Outputs)
    (maxDataLen cmd1 cmd2 r1 r2 pw ec : Nat) (d rest : List Nat)
    (hne : r1 ≠ cmd1 ∨ r2 ≠ cmd2) (hec : ec < 2 ^ 32) (hlen : 11 + d.length < 65536)
    (hrx : w.rx = frame (responseEnvelope pw r1 r2 ec d) ++ rest)
    (ht : millis w < deadline w) (hroom : Room out (min d.length maxDataLen)) :
    receiveResponse self w cmd1 cmd2 out maxDataLen
      = .ret { value := false
               self := { self with lastError := FP_ERROR_INVALID_DATA }
               serial := { w with rx := rest }
               out := deliver out maxDataLen r1 r2 ec d } := by
  have hrx' : w.rx = [] ++ frame (responseEnvelope pw r1 r2 ec d) ++ rest := by
    rw [hrx, List.nil_append]
  have hcmd : (deliver out maxDataLen r1 r2 ec d).cmd1 = r1 ∧
      (deliver out maxDataLen r1 r2 ec d).cmd2 = r2 := by
    unfold deliver
    cases out.data with
    | none => exact ⟨rfl, rfl⟩
    | some buf =>
      simp only
      split <;> exact ⟨rfl, rfl⟩
  unfold receiveResponse
  rw [receiveFrame_response self w out maxDataLen [] rest pw r1 r2 ec d ht markerOnlyAtEnd_nil
    hec hlen hrx' hroom]
  simp only [Exec.bind, hcmd.1, hcmd.2, ne_eq, hne, if_true]
  simp

/-- C8, command correlation: for every requested pair and every valid response
frame whose command pair differs from it in at least one byte, `receiveResponse`
returns false with `lastError = FP_ERROR_INVALID_DATA`, whatever the frame's
error code is (0 included); so `cancelOperation`, which requests (0x01, 0x15),
returns false on a frame tagged with any other pair. -/
theorem command_correlation (self : FPM383F) (w : Transport) (out : Outputs)
    (maxDataLen cmd1 cmd2 r1 r2 pw ec : Nat) (d rest : List Nat)
    (hne : r1 ≠ cmd1 ∨ r2 ≠ cmd2) (hec : ec < 2 ^ 32) (hlen : 11 + d.length < 65536)
    (hrx : w.rx = frame (responseEnvelope pw r1 r2 ec d) ++ rest)
    (ht : millis w < deadline w) (hroom : Room out maxDataLen) :
    receiveResponse self w cmd1 cmd2 out maxDataLen
        = .ret { value := false
                 self := { self with lastError := FP_ERROR_INVALID_DATA }
                 serial := { w with rx := rest }
                 out := deliver out maxDataLen r1 r2 ec d } ∧
      (cmd1 = 0x01 → cmd2 = 0x15 →
        cancelOperation self w
          = .ret (false, { self with lastError := FP_ERROR_INVALID_DATA },
              { w with rx := rest
                       tx := w.tx ++ frame (requestEnvelope self.password 0x01 0x15 []) })) := by
  refine ⟨receiveResponse_mismatch self w out maxDataLen cmd1 cmd2 r1 r2 pw ec d rest hne hec
    hlen hrx ht (room_min out _ _ hroom), ?_⟩
  intro h1 h2
  subst h1 h2
  unfold cancelOperation sendCommand
  rw [sendFrame_null]
  simp only [Exec.bind]
  rw [receiveResponse_mismatch self
    { w with tx := w.tx ++ frame (requestEnvelope self.password FP_CMD_FINGERPRINT_0
        FP_CMD_CANCEL []) }
    noBuffer 0 FP_CMD_FINGERPRINT_0 FP_CMD_CANCEL r1 r2 pw ec d rest hne hec hlen hrx ht
    (room_noBuffer _)]
  rfl

/-- C8 at the request (0x01, 0x15) answered by a valid frame tagged (0x01, 0x21)
with error code 0: `cancelOperation` returns false. -/
theorem command_correlation_witness :
    cancelOperation ⟨0, 0⟩
        ⟨0, [0xF1, 0x1F, 0xE2, 0x2E, 0xB6, 0x6B, 0xA8, 0x8A, 0x00, 0x0B, 0x82,
             0, 0, 0, 0, 0x01, 0x21, 0, 0, 0, 0, 0xDE], [], []⟩
      = .ret (false, ⟨0, 0x03⟩,
          ⟨0, [], [], [0xF1, 0x1F, 0xE2, 0x2E, 0xB6, 0x6B, 0xA8, 0x8A, 0x00, 0x07, 0x86,
                       0, 0, 0, 0, 0x01, 0x15, 0xEA]⟩) :=
  (command_correlation ⟨0, 0⟩
    ⟨0, [0xF1, 0x1F, 0xE2, 0x2E, 0xB6, 0x6B, 0xA8, 0x8A, 0x00, 0x0B, 0x82,
         0, 0, 0, 0, 0x01, 0x21, 0, 0, 0, 0, 0xDE], [], []⟩
    noBuffer 0 0x01 0x15 0x01 0x21 0 0 [] [] (by decide) (by norm_num) (by decide)
    (by decide) (by decide) (room_noBuffer 0)).2 rfl rfl

/-! ## Silence on the line -/

theorem delay_silent (w : Transport) (hrx : w.rx = []) (hin : w.incoming = []) :
    delay w 1 = { w with now := w.now + 1 } := by
  cases w
  simp_all [delay]

/-- With nothing in the receive buffer and nothing on the wire the marker loop
spins until the clock reads `timeout`. -/
theorem headerLoop_silent (timeout : Nat) (htm : timeout < 2 ^ 32) :
    ∀ (n fuel : Nat) (w : Transport) (k : Nat), k < 8 → w.rx = [] → w.incoming = [] →
      millis w + n = timeout → n < fuel →
      headerLoop timeout fuel w k = .ret ({ w with now := w.now + n }, k) := by
  intro n
  induction n with
  | zero =>
    intro fuel w k _ _ _ hm hf
    obtain ⟨fuel, rfl⟩ : ∃ f, fuel = f + 1 := ⟨fuel - 1, by omega⟩
    rw [headerLoop]
    have : ¬ millis w < timeout := by omega
    simp [this]
  | succ n ih =>
    intro fuel w k hk hrx hin hm hf
    obtain ⟨fuel, rfl⟩ : ∃ f, fuel = f + 1 := ⟨fuel - 1, by omega⟩
    rw [headerLoop]
    have hlt : millis w < timeout := by omega
    have hav : available w = 0 := by simp [available, hrx]
    simp only [hlt, hk, and_self, if_true, hav, ne_eq, not_true_eq_false, if_false]
    rw [delay_silent w hrx hin]
    have hmil : millis { w with now := w.now + 1 } = millis w + 1 := by
      simp only [millis, Nat.reducePow] at hlt htm ⊢
      omega
    rw [ih fuel { w with now := w.now + 1 } k hk hrx hin (by rw [hmil]; omega) (by omega)]
    simp only [Nat.add_assoc, Nat.add_comm 1 n]

/-- When no byte ever arrives and the deadline does not wrap, `receiveFrame`
fails with `FP_ERROR_TIMEOUT` exactly 5000 ms after entry. -/
theorem receiveFrame_silent (self : FPM383F) (w : Transport) (out : Outputs)
    (maxDataLen : Nat) (hrx : w.rx = []) (hin : w.incoming = [])
    (hwrap : millis w + 5000 < 2 ^ 32) :
    receiveFrame self w out maxDataLen
      = .ret (failWith self { w with now := w.now + 5000 } out FP_ERROR_TIMEOUT) := by
  have hd : deadline w = millis w + 5000 := Nat.mod_eq_of_lt hwrap
  unfold receiveFrame
  simp only
  rw [headerLoop_silent (deadline w) (by rw [hd]; exact hwrap) 5000 _ w 0 (by decide) hrx hin
    hd.symm (by rw [hd]; simp only [waitFuel]; omega)]
  simp [Exec.bind]

/-- When the deadline computed on entry wraps around 2^32, `receiveFrame` fails
with `FP_ERROR_TIMEOUT` at once, whatever is in the receive buffer. -/
theorem receiveFrame_wrapped (self : FPM383F) (w : Transport) (out : Outputs)
    (maxDataLen : Nat) (hwrap : 2 ^ 32 ≤ millis w + 5000) :
    receiveFrame self w out maxDataLen = .ret (failWith self w out FP_ERROR_TIMEOUT) := by
  have hlt : ¬ millis w < deadline w := by
    have hm : millis w < 2 ^ 32 := Nat.mod_lt _ (by norm_num)
    simp only [deadline, Nat.reducePow] at hwrap hm ⊢
    omega
  unfold receiveFrame
  simp only [waitFuel]
  rw [show w.rx.length + w.incoming.length + (deadline w - millis w + 1)
      = (w.rx.length + w.incoming.length + (deadline w - millis w)) + 1 from by omega]
  rw [headerLoop]
  simp [hlt, Exec.bind]

/-! ## Short envelopes and the clock at its wrap-around -/

/-- C9 at a failing input: a frame with length field 10, valid frame checksum
(0x83) and valid payload checksum (0xFA), received with a 4-byte buffer and
`maxDataLen = 4`. `responseDataLen = 10 - 11` wraps to 65535, so the copy of
`min(65535, 4)` bytes from offset 10 of the 10-byte envelope is taken and reads
outside the envelope; no result with `actualDataLen = 0` is produced. -/
theorem short_envelope_copy_out_of_bounds :
    receiveFrame ⟨0, 0⟩
        ⟨0, [0xF1, 0x1F, 0xE2, 0x2E, 0xB6, 0x6B, 0xA8, 0x8A, 0x00, 0x0A, 0x83,
             0, 0, 0, 0, 0x03, 0x03, 0, 0, 0, 0xFA], [], []⟩
        ⟨0, 0, some [9, 9, 9, 9], 0, 0⟩ 4
      = .outOfBounds ∧
    calculateFrameChecksum 10 = 0x83 ∧
    calculateChecksum [0, 0, 0, 0, 0x03, 0x03, 0, 0, 0] = 0xFA ∧
    (10 + 65536 - 11) % 65536 = 65535 := by
  decide

/-- C10 at a failing input: the clock reads 4294967295 on entry and no byte
ever arrives. The deadline `millis() + 5000` wraps to 4999, the marker loop is
not entered, and `receiveFrame` returns false with `FP_ERROR_TIMEOUT` while the
clock still reads 4294967295: after 0 ms, not after 5000 ms. -/
theorem timeout_before_deadline_at_wrap :
    receiveFrame ⟨0, 0⟩ ⟨4294967295, [], [], []⟩ ⟨0, 0, none, 0, 0⟩ 0
      = .ret { value := false
               self := ⟨0, FP_ERROR_TIMEOUT⟩
               serial := ⟨4294967295, [], [], []⟩
               out := ⟨0, 0, none, 0, 0⟩ } ∧
    deadline ⟨4294967295, [], [], []⟩ = 4999 := by
  decide

/-! ## The length field of a sent frame -/

theorem slice_take (d : List Nat) (n : Nat) (hn : n ≤ d.length) :
    slice d n = .ret (d.take n) := by
  simp [slice, hn]

/-- With a non-null pointer to at least `dataLen ≤ 65528` bytes, `sendFrame`
sends the first `dataLen` of them. -/
theorem sendFrame_take (self : FPM383F) (w : Transport) (cmd1 cmd2 : Nat) (d : List Nat)
    (dataLen : Nat) (hn : dataLen ≤ d.length) (hlen : dataLen ≤ 65528) :
    sendFrame self w cmd1 cmd2 (some d) dataLen
      = .ret { w with
          tx := w.tx ++ frame (requestEnvelope self.password cmd1 cmd2 (d.take dataLen)) } := by
  have hl : (d.take dataLen).length = dataLen := by
    rw [List.length_take]
    omega
  have h := sendFrame_eq self w cmd1 cmd2 (d.take dataLen) (by rw [hl]; exact hlen)
  rw [← h, hl]
  unfold sendFrame
  simp only [slice_take d dataLen hn, slice_take (d.take dataLen) dataLen (by omega),
    List.take_take, Nat.min_self]

theorem written_append (w : Transport) (l : List Nat) :
    written w { w with tx := w.tx ++ l } = l := by
  simp [written]

theorem lengthField_frame (env : List Nat) (h : env.length < 65536) :
    lengthField (frame env) = env.length := by
  simp only [lengthField, frame, marker, bigEndian16, List.cons_append, List.nil_append,
    List.getD_cons_succ, List.getD_cons_zero]
  omega

theorem bytesAfterFrameChecksum_frame (env : List Nat) :
    bytesAfterFrameChecksum (frame env) = env.length := by
  simp [bytesAfterFrameChecksum, frame, marker, bigEndian16]

/-- A length `dataLen` from 65529 on makes `7 + dataLen` wrap to at most 6, fewer
bytes than the envelope stored into `appData`. -/
theorem sendFrame_overflow (self : FPM383F) (w : Transport) (cmd1 cmd2 : Nat)
    (data : Option (List Nat)) (dataLen : Nat) (h1 : 65529 ≤ dataLen) (h2 : dataLen < 65536) :
    sendFrame self w cmd1 cmd2 data dataLen = .outOfBounds := by
  have hmod : (7 + dataLen) % 65536 ≤ 6 := by omega
  have hpos : dataLen > 0 := by omega
  unfold sendFrame
  generalize (7 + dataLen) % 65536 = totalLen at hmod
  cases data with
  | none =>
    simp only [Exec.bind]
    rw [if_neg]
    simp only [List.length_append, List.length_cons, List.length_nil]
    omega
  | some d =>
    simp only [hpos, if_true, slice]
    split
    · simp only [Exec.bind]
      rw [if_neg]
      simp only [List.length_append, List.length_cons, List.length_nil, List.length_take]
      omega
    · rfl

/-- C11, as amended: for every command pair, every `dataLen ≤ 65528` and a
data pointer that is non-null with at least `dataLen` bytes behind it, or null
with `dataLen = 0`, `sendFrame` succeeds, the frame it writes carries `dataLen`
command data bytes, its 16-bit length field is `7 + dataLen`, and that is the
number of bytes written after the frame-checksum byte. -/
theorem sendFrame_length_field (self : FPM383F) (w : Transport) (cmd1 cmd2 : Nat)
    (data : Option (List Nat)) (dataLen : Nat) (hlen : dataLen ≤ 65528)
    (hdata : (∃ d, data = some d ∧ dataLen ≤ d.length) ∨ (data = none ∧ dataLen = 0)) :
    ∃ w1 emitted, sendFrame self w cmd1 cmd2 data dataLen = .ret w1 ∧
      written w w1 = frame (requestEnvelope self.password cmd1 cmd2 emitted) ∧
      emitted.length = dataLen ∧
      lengthField (written w w1) = 7 + dataLen ∧
      bytesAfterFrameChecksum (written w w1) = 7 + dataLen := by
  have key : ∀ emitted : List Nat, emitted.length = dataLen →
      sendFrame self w cmd1 cmd2 data dataLen
        = .ret { w with tx := w.tx ++ frame (requestEnvelope self.password cmd1 cmd2 emitted) } →
      ∃ w1 emitted, sendFrame self w cmd1 cmd2 data dataLen = .ret w1 ∧
        written w w1 = frame (requestEnvelope self.password cmd1 cmd2 emitted) ∧
        emitted.length = dataLen ∧
        lengthField (written w w1) = 7 + dataLen ∧
        bytesAfterFrameChecksum (written w w1) = 7 + dataLen := by
    intro emitted hem hsend
    have hL : (requestEnvelope self.password cmd1 cmd2 emitted).length = 7 + dataLen := by
      rw [requestEnvelope_length, hem]
    refine ⟨_, emitted, hsend, written_append w _, hem, ?_, ?_⟩
    · rw [written_append, lengthField_frame _ (by omega), hL]
    · rw [written_append, bytesAfterFrameChecksum_frame, hL]
  rcases hdata with ⟨d, rfl, hd⟩ | ⟨rfl, rfl⟩
  · exact key (d.take dataLen) (by rw [List.length_take]; omega)
      (sendFrame_take self w cmd1 cmd2 d dataLen hd hlen)
  · exact key [] rfl (sendFrame_null self w cmd1 cmd2)

/-- C11 at a concrete input: four data bytes taken from a five-byte array. -/
theorem sendFrame_length_field_witness :
    ∃ w1 emitted, sendFrame ⟨0, 0⟩ ⟨0, [], [], []⟩ 0x01 0x18 (some [0, 6, 0, 5, 9]) 4 = .ret w1 ∧
      written ⟨0, [], [], []⟩ w1 = frame (requestEnvelope 0 0x01 0x18 emitted) ∧
      emitted.length = 4 ∧
      lengthField (written ⟨0, [], [], []⟩ w1) = 7 + 4 ∧
      bytesAfterFrameChecksum (written ⟨0, [], [], []⟩ w1) = 7 + 4 :=
  sendFrame_length_field ⟨0, 0⟩ ⟨0, [], [], []⟩ 0x01 0x18 (some [0, 6, 0, 5, 9]) 4 (by decide)
    (Or.inl ⟨[0, 6, 0, 5, 9], rfl, by decide⟩)

/-- C11 as stated fails: with a null data pointer and `dataLen = 1` the
length field written is 8 while no data byte is emitted and only 7 bytes follow
the frame checksum; with `dataLen = 65535` the length `7 + dataLen` wraps to 6
and the stores into `appData` leave the buffer. -/
theorem sendFrame_length_field_counterexample :
    sendFrame ⟨0, 0⟩ ⟨0, [], [], []⟩ 0x01 0x02 none 1
        = .ret ⟨0, [], [], [0xF1, 0x1F, 0xE2, 0x2E, 0xB6, 0x6B, 0xA8, 0x8A, 0x00, 0x08, 0x85,
                            0, 0, 0, 0, 0x01, 0x02, 0xFD]⟩ ∧
      lengthField [0xF1, 0x1F, 0xE2, 0x2E, 0xB6, 0x6B, 0xA8, 0x8A, 0x00, 0x08, 0x85,
                   0, 0, 0, 0, 0x01, 0x02, 0xFD] = 8 ∧
      bytesAfterFrameChecksum [0xF1, 0x1F, 0xE2, 0x2E, 0xB6, 0x6B, 0xA8, 0x8A, 0x00, 0x08, 0x85,
                   0, 0, 0, 0, 0x01, 0x02, 0xFD] = 7 ∧
      sendFrame ⟨0, 0⟩ ⟨0, [], [], []⟩ 0x01 0x02 (some (List.replicate 65535 0)) 65535
        = .outOfBounds :=
  ⟨by decide, by decide, by decide,
    sendFrame_overflow _ _ _ _ _ _ (by decide) (by decide)⟩

/-! ## What every call of receiveFrame keeps -/

theorem bind_eq_ret {α β : Type} (x : Exec α) (f : α → Exec β) (b : β)
    (h : x.bind f = .ret b) : ∃ a, x = .ret a ∧ f a = .ret b := by
  cases x with
  | ret a => exact ⟨a, rfl, h⟩
  | outOfBounds => simp [Exec.bind] at h
  | outOfFuel => simp [Exec.bind] at h

theorem read_tx (w : Transport) : (read w).2.tx = w.tx := by
  unfold read
  split <;> rfl

theorem delay_tx (w : Transport) (ms : Nat) : (delay w ms).tx = w.tx := rfl

theorem delay_now (w : Transport) (ms : Nat) : (delay w ms).now = w.now + ms := rfl

theorem headerLoop_tx (timeout : Nat) :
    ∀ (fuel : Nat) (w : Transport) (k : Nat) (r : Transport × Nat),
      headerLoop timeout fuel w k = .ret r → r.1.tx = w.tx := by
  intro fuel
  induction fuel with
  | zero =>
    intro w k r h
    simp [headerLoop] at h
  | succ fuel ih =>
    intro w k r h
    rw [headerLoop] at h
    split at h
    · split at h
      · simp only at h
        split at h
        · rw [ih _ _ _ h, read_tx]
        · rw [ih _ _ _ h, read_tx]
      · rw [ih _ _ _ h, delay_tx]
    · cases h
      rfl

theorem waitAvailable_tx (timeout n : Nat) :
    ∀ (fuel : Nat) (w r : Transport), waitAvailable timeout n fuel w = .ret r → r.tx = w.tx := by
  intro fuel
  induction fuel with
  | zero =>
    intro w r h
    simp [waitAvailable] at h
  | succ fuel ih =>
    intro w r h
    rw [waitAvailable] at h
    split at h
    · rw [ih _ _ h, delay_tx]
    · cases h
      rfl

theorem readBytes_tx : ∀ (n : Nat) (w : Transport), (readBytes n w).2.tx = w.tx := by
  intro n
  induction n with
  | zero =>
    intro w
    rfl
  | succ n ih =>
    intro w
    simp only [readBytes]
    rw [ih, read_tx]

theorem typedOutcome_failWith (self self0 : FPM383F) (w w0 : Transport) (out : Outputs)
    (e : Nat) (htx : w.tx = w0.tx) (hp : self.password = self0.password)
    (he : e = FP_ERROR_TIMEOUT ∨ e = FP_ERROR_INVALID_DATA) :
    TypedOutcome self0 w0 (failWith self w out e) :=
  ⟨htx, hp, Or.inl ⟨rfl, he⟩⟩

theorem parseEnvelope_typed (self : FPM383F) (w : Transport) (out : Outputs)
    (maxDataLen dataLength : Nat) (appData : List Nat) (r : Return)
    (h : parseEnvelope self w out maxDataLen dataLength appData = .ret r) :
    TypedOutcome self w r := by
  unfold parseEnvelope at h
  obtain ⟨rc, -, h⟩ := bind_eq_ret _ _ _ h
  obtain ⟨body, -, h⟩ := bind_eq_ret _ _ _ h
  simp only at h
  split at h
  · cases h
    exact typedOutcome_failWith self self w w out _ rfl rfl (Or.inr rfl)
  · obtain ⟨p0, -, h⟩ := bind_eq_ret _ _ _ h
    obtain ⟨p1, -, h⟩ := bind_eq_ret _ _ _ h
    obtain ⟨p2, -, h⟩ := bind_eq_ret _ _ _ h
    obtain ⟨p3, -, h⟩ := bind_eq_ret _ _ _ h
    obtain ⟨c1, -, h⟩ := bind_eq_ret _ _ _ h
    obtain ⟨c2, -, h⟩ := bind_eq_ret _ _ _ h
    obtain ⟨e0, -, h⟩ := bind_eq_ret _ _ _ h
    obtain ⟨e1, -, h⟩ := bind_eq_ret _ _ _ h
    obtain ⟨e2, -, h⟩ := bind_eq_ret _ _ _ h
    obtain ⟨e3, -, h⟩ := bind_eq_ret _ _ _ h
    obtain ⟨o, ho, h⟩ := bind_eq_ret _ _ _ h
    cases h
    refine ⟨rfl, rfl, Or.inr ⟨rfl, ?_⟩⟩
    simp only
    cases hd : out.data with
    | none =>
      rw [hd] at ho
      cases ho
      rfl
    | some buf =>
      rw [hd] at ho
      simp only at ho
      split at ho
      · split at ho
        · cases ho
          rfl
        · cases ho
      · cases ho
        rfl

theorem afterHeader_typed (timeout : Nat) (self : FPM383F) (w : Transport) (out : Outputs)
    (maxDataLen : Nat) (r : Return)
    (h : afterHeader timeout self w out maxDataLen = .ret r) :
    TypedOutcome self w r := by
  unfold afterHeader at h
  obtain ⟨w1, hw1, h⟩ := bind_eq_ret _ _ _ h
  have t1 := waitAvailable_tx _ _ _ _ _ hw1
  split at h
  · cases h
    exact typedOutcome_failWith self self w1 w out _ t1 rfl (Or.inl rfl)
  · simp only at h
    obtain ⟨w2, hw2, h⟩ := bind_eq_ret _ _ _ h
    have t2 := waitAvailable_tx _ _ _ _ _ hw2
    rw [read_tx, read_tx, t1] at t2
    split at h
    · cases h
      exact typedOutcome_failWith self self w2 w out _ t2 rfl (Or.inl rfl)
    · split at h
      · cases h
        exact typedOutcome_failWith self self _ w out _ (by rw [read_tx, t2]) rfl (Or.inr rfl)
      · obtain ⟨w3, hw3, h⟩ := bind_eq_ret _ _ _ h
        have t3 := waitAvailable_tx _ _ _ _ _ hw3
        rw [read_tx, t2] at t3
        split at h
        · cases h
          exact typedOutcome_failWith self self w3 w out _ t3 rfl (Or.inl rfl)
        · obtain ⟨ht, hp, hc⟩ := parseEnvelope_typed _ _ _ _ _ _ _ h
          exact ⟨by rw [ht, readBytes_tx, t3], hp, hc⟩

/-- Every returning call of `receiveFrame` writes nothing, keeps the password,
and either succeeds or fails with `FP_ERROR_TIMEOUT` or `FP_ERROR_INVALID_DATA`. -/
theorem receiveFrame_typed (self : FPM383F) (w : Transport) (out : Outputs)
    (maxDataLen : Nat) (r : Return) (h : receiveFrame self w out maxDataLen = .ret r) :
    TypedOutcome self w r := by
  unfold receiveFrame at h
  obtain ⟨p, hp, h⟩ := bind_eq_ret _ _ _ h
  have t := headerLoop_tx _ _ _ _ _ hp
  split at h
  · cases h
    exact typedOutcome_failWith self self p.1 w out _ t rfl (Or.inl rfl)
  · obtain ⟨ht, hpw, hc⟩ := afterHeader_typed _ _ _ _ _ _ h
    exact ⟨by rw [ht, t], hpw, hc⟩

theorem receiveResponse_typed (self : FPM383F) (w : Transport) (cmd1 cmd2 : Nat)
    (out : Outputs) (maxDataLen : Nat) (r : Return)
    (h : receiveResponse self w cmd1 cmd2 out maxDataLen = .ret r) :
    TypedOutcome self w r := by
  unfold receiveResponse at h
  obtain ⟨r0, hr0, h⟩ := bind_eq_ret _ _ _ h
  obtain ⟨ht, hpw, hc⟩ := receiveFrame_typed _ _ _ _ _ hr0
  split at h
  · cases h
    exact ⟨ht, hpw, hc⟩
  · split at h
    · cases h
      exact ⟨ht, hpw, Or.inl ⟨rfl, Or.inr rfl⟩⟩
    · cases h
      exact ⟨ht, hpw, hc⟩


/-! ## The loops of receiveFrame stay within their budget -/

theorem delay_length (w : Transport) (ms : Nat) :
    (delay w ms).rx.length + (delay w ms).incoming.length
      = w.rx.length + w.incoming.length := by
  have h := congrArg List.length
    (List.takeWhile_append_dropWhile (fun p : Nat × Nat => decide (p.1 ≤ w.now + ms)) w.incoming)
  simp only [List.length_append] at h
  simp only [delay, List.length_append, List.length_map]
  omega

theorem read_length (w : Transport) (h : available w ≠ 0) :
    (read w).2.rx.length + 1 = w.rx.length ∧ (read w).2.incoming = w.incoming ∧
      (read w).2.now = w.now := by
  unfold read
  unfold available at h
  split
  · rename_i hnil
    rw [hnil] at h
    simp at h
  · rename_i b rest hcons
    rw [hcons]
    simp

theorem millis_delay_one (w : Transport) (timeout : Nat) (htm : timeout < 2 ^ 32)
    (h : millis w < timeout) : millis (delay w 1) = millis w + 1 := by
  simp only [millis, delay, Nat.reducePow] at h htm ⊢
  omega

theorem headerLoop_total (timeout : Nat) (htm : timeout < 2 ^ 32) :
    ∀ (fuel : Nat) (w : Transport) (k : Nat),
      w.rx.length + w.incoming.length + (timeout - millis w) < fuel →
      ∃ r, headerLoop timeout fuel w k = .ret r := by
  intro fuel
  induction fuel with
  | zero =>
    intro w k h
    omega
  | succ fuel ih =>
    intro w k h
    rw [headerLoop]
    split
    · rename_i hc
      split
      · rename_i hav
        obtain ⟨h1, h2, h3⟩ := read_length w hav
        have hm : millis (read w).2 = millis w := by simp only [millis, h3]
        simp only
        split
        · exact ih _ _ (by rw [h2, hm]; omega)
        · exact ih _ _ (by rw [h2, hm]; omega)
      · have hl := delay_length w 1
        have hm := millis_delay_one w timeout htm hc.1
        exact ih _ _ (by rw [hl, hm]; omega)
    · exact ⟨_, rfl⟩

theorem waitAvailable_total (timeout n : Nat) (htm : timeout < 2 ^ 32) :
    ∀ (fuel : Nat) (w : Transport), timeout - millis w < fuel →
      ∃ r, waitAvailable timeout n fuel w = .ret r := by
  intro fuel
  induction fuel with
  | zero =>
    intro w h
    omega
  | succ fuel ih =>
    intro w h
    rw [waitAvailable]
    split
    · rename_i hc
      have hm := millis_delay_one w timeout htm hc.1
      exact ih _ (by rw [hm]; omega)
    · exact ⟨_, rfl⟩

theorem bind_ne_outOfFuel {α β : Type} (x : Exec α) (f : α → Exec β)
    (hx : x ≠ .outOfFuel) (hf : ∀ a, x = .ret a → f a ≠ .outOfFuel) :
    x.bind f ≠ .outOfFuel := by
  cases x with
  | ret a => exact hf a rfl
  | outOfBounds => simp [Exec.bind]
  | outOfFuel => exact absurd rfl hx

theorem index_ne_outOfFuel (buf : List Nat) (i : Nat) : index buf i ≠ .outOfFuel := by
  unfold index
  split <;> simp

theorem slice_ne_outOfFuel (buf : List Nat) (n : Nat) : slice buf n ≠ .outOfFuel := by
  unfold slice
  split <;> simp

theorem parseEnvelope_ne_outOfFuel (self : FPM383F) (w : Transport) (out : Outputs)
    (maxDataLen dataLength : Nat) (appData : List Nat) :
    parseEnvelope self w out maxDataLen dataLength appData ≠ .outOfFuel := by
  unfold parseEnvelope
  refine bind_ne_outOfFuel _ _ (index_ne_outOfFuel _ _) (fun rc _ => ?_)
  refine bind_ne_outOfFuel _ _ (slice_ne_outOfFuel _ _) (fun body _ => ?_)
  simp only
  split
  · simp
  · refine bind_ne_outOfFuel _ _ (index_ne_outOfFuel _ _) (fun p0 _ => ?_)
    refine bind_ne_outOfFuel _ _ (index_ne_outOfFuel _ _) (fun p1 _ => ?_)
    refine bind_ne_outOfFuel _ _ (index_ne_outOfFuel _ _) (fun p2 _ => ?_)
    refine bind_ne_outOfFuel _ _ (index_ne_outOfFuel _ _) (fun p3 _ => ?_)
    refine bind_ne_outOfFuel _ _ (index_ne_outOfFuel _ _) (fun c1 _ => ?_)
    refine bind_ne_outOfFuel _ _ (index_ne_outOfFuel _ _) (fun c2 _ => ?_)
    refine bind_ne_outOfFuel _ _ (index_ne_outOfFuel _ _) (fun e0 _ => ?_)
    refine bind_ne_outOfFuel _ _ (index_ne_outOfFuel _ _) (fun e1 _ => ?_)
    refine bind_ne_outOfFuel _ _ (index_ne_outOfFuel _ _) (fun e2 _ => ?_)
    refine bind_ne_outOfFuel _ _ (index_ne_outOfFuel _ _) (fun e3 _ => ?_)
    refine bind_ne_outOfFuel _ _ ?_ (fun o _ => by simp)
    cases out.data with
    | none => simp
    | some buf =>
      simp only
      split
      · split <;> simp
      · simp

theorem waitAvailable_fuel_ne (timeout n : Nat) (htm : timeout < 2 ^ 32) (w : Transport) :
    waitAvailable timeout n (waitFuel timeout w) w ≠ .outOfFuel := by
  obtain ⟨r, hr⟩ := waitAvailable_total timeout n htm (waitFuel timeout w) w
    (by unfold waitFuel; omega)
  rw [hr]
  simp

theorem afterHeader_ne_outOfFuel (timeout : Nat) (htm : timeout < 2 ^ 32) (self : FPM383F)
    (w : Transport) (out : Outputs) (maxDataLen : Nat) :
    afterHeader timeout self w out maxDataLen ≠ .outOfFuel := by
  unfold afterHeader
  refine bind_ne_outOfFuel _ _ (waitAvailable_fuel_ne timeout 2 htm w) (fun w1 _ => ?_)
  split
  · simp
  · simp only
    refine bind_ne_outOfFuel _ _ (waitAvailable_fuel_ne timeout 1 htm _) (fun w2 _ => ?_)
    split
    · simp
    · split
      · simp
      · refine bind_ne_outOfFuel _ _ (waitAvailable_fuel_ne timeout _ htm _) (fun w3 _ => ?_)
        split
        · simp
        · exact parseEnvelope_ne_outOfFuel _ _ _ _ _ _

theorem deadline_lt (w : Transport) : deadline w < 2 ^ 32 :=
  Nat.mod_lt _ (by norm_num)

/-- The loops of `receiveFrame` end for every content of the receive buffer,
every arrival schedule and every clock value: the budget is never used up. -/
theorem receiveFrame_ne_outOfFuel (self : FPM383F) (w : Transport) (out : Outputs)
    (maxDataLen : Nat) : receiveFrame self w out maxDataLen ≠ .outOfFuel := by
  unfold receiveFrame
  simp only
  obtain ⟨p, hp⟩ := headerLoop_total (deadline w) (deadline_lt w)
    (w.rx.length + w.incoming.length + waitFuel (deadline w) w) w 0
    (by unfold waitFuel; omega)
  rw [hp]
  simp only [Exec.bind]
  split
  · simp
  · exact afterHeader_ne_outOfFuel _ (deadline_lt w) _ _ _ _


/-! ## A response whose command pair matches -/

theorem deliver_cmd (out : Outputs) (maxDataLen c1 c2 ec : Nat) (d : List Nat) :
    (deliver out maxDataLen c1 c2 ec d).cmd1 = c1 ∧ (deliver out maxDataLen c1 c2 ec d).cmd2 = c2 ∧
      (deliver out maxDataLen c1 c2 ec d).errorCode = ec := by
  unfold deliver
  cases out.data with
  | none => exact ⟨rfl, rfl, rfl⟩
  | some buf =>
    simp only
    split <;> exact ⟨rfl, rfl, rfl⟩

theorem deliver_noBuffer (maxDataLen c1 c2 ec : Nat) (d : List Nat) :
    deliver noBuffer maxDataLen c1 c2 ec d
      = { cmd1 := c1, cmd2 := c2, data := none, actualDataLen := 0, errorCode := ec } := rfl

theorem receiveResponse_of_receiveFrame (self : FPM383F) (w : Transport) (cmd1 cmd2 : Nat)
    (out : Outputs) (maxDataLen : Nat) (r : Return)
    (h : receiveFrame self w out maxDataLen = .ret r) (hv : r.value = true)
    (h1 : r.out.cmd1 = cmd1) (h2 : r.out.cmd2 = cmd2) :
    receiveResponse self w cmd1 cmd2 out maxDataLen = .ret r := by
  unfold receiveResponse
  rw [h]
  simp [Exec.bind, hv, h1, h2]

theorem receiveResponse_response (self : FPM383F) (w : Transport) (out : Outputs)
    (maxDataLen : Nat) (rest : List Nat) (pw c1 c2 ec : Nat) (d : List Nat)
    (ht : millis w < deadline w) (hec : ec < 2 ^ 32) (hlen : 11 + d.length < 65536)
    (hrx : w.rx = frame (responseEnvelope pw c1 c2 ec d) ++ rest)
    (hroom : Room out (min d.length maxDataLen)) :
    receiveResponse self w c1 c2 out maxDataLen
      = .ret { value := true
               self := { self with lastError := ec }
               serial := { w with rx := rest }
               out := deliver out maxDataLen c1 c2 ec d } :=
  receiveResponse_of_receiveFrame self w c1 c2 out maxDataLen _
    (receiveFrame_response self w out maxDataLen [] rest pw c1 c2 ec d ht markerOnlyAtEnd_nil
      hec hlen (by rw [hrx, List.nil_append]) hroom) rfl (deliver_cmd _ _ _ _ _ _).1
      (deliver_cmd _ _ _ _ _ _).2.1

/-- The function `heartbeat` in terms of the result of its `receiveResponse`. -/
theorem heartbeat_of_receiveResponse (self : FPM383F) (w : Transport) (r : Return)
    (h : receiveResponse self
      { w with tx := w.tx ++ frame (requestEnvelope self.password 0x03 0x03 []) }
      0x03 0x03 noBuffer 0 = .ret r) :
    heartbeat self w
      = .ret (decide (r.value = true ∧ r.out.errorCode = 0), r.self, r.serial) := by
  unfold heartbeat sendCommand
  rw [sendFrame_null]
  simp only [Exec.bind]
  have h' : receiveResponse self
      { w with tx := w.tx ++ frame (requestEnvelope self.password FP_CMD_MAINTENANCE_0
        FP_CMD_HEARTBEAT []) } FP_CMD_MAINTENANCE_0 FP_CMD_HEARTBEAT noBuffer 0 = .ret r := h
  rw [h']
  simp only
  cases hv : r.value <;> simp [FP_ERROR_SUCCESS]

/-! ## Envelopes shorter than the fixed response fields -/

/-- C12 at failing inputs. A frame with length field 0 and matching frame
checksum 0x8D: the envelope buffer has no byte and `appData[dataLength - 1]` is
read at index -1. A frame with length field 7 and valid checksums (the 18
bytes of a heartbeat request): `appData[7]`, `appData[8]` and `appData[9]` are
read from a 7-byte buffer. Neither call ends in a typed result. -/
theorem envelope_read_out_of_bounds :
    receiveFrame ⟨0, 0⟩
        ⟨0, [0xF1, 0x1F, 0xE2, 0x2E, 0xB6, 0x6B, 0xA8, 0x8A, 0x00, 0x00, 0x8D], [], []⟩
        noBuffer 0
      = .outOfBounds ∧
    calculateFrameChecksum 0 = 0x8D ∧
    receiveFrame ⟨0, 0⟩
        ⟨0, [0xF1, 0x1F, 0xE2, 0x2E, 0xB6, 0x6B, 0xA8, 0x8A, 0x00, 0x07, 0x86,
             0, 0, 0, 0, 0x03, 0x03, 0xFA], [], []⟩
        noBuffer 0
      = .outOfBounds ∧
    calculateFrameChecksum 7 = 0x86 ∧
    calculateChecksum [0, 0, 0, 0, 0x03, 0x03] = 0xFA := by
  decide


/-! ## The stored password -/

theorem code_bigEndian32 (p : Nat) :
    [(p >>> 24) &&& 255, (p >>> 16) &&& 255, (p >>> 8) &&& 255, p &&& 255] = bigEndian32 p := by
  simp only [and_255, Nat.shiftRight_eq_div_pow, bigEndian32, Nat.reducePow]

theorem receiveResponse_of_receiveFrame_false (self : FPM383F) (w : Transport)
    (cmd1 cmd2 : Nat) (out : Outputs) (maxDataLen : Nat) (r : Return)
    (h : receiveFrame self w out maxDataLen = .ret r) (hv : r.value = false) :
    receiveResponse self w cmd1 cmd2 out maxDataLen = .ret r := by
  unfold receiveResponse
  rw [h]
  simp [Exec.bind, hv]

/-- The function `setPassword` in terms of the result of its `receiveResponse`. -/
theorem setPassword_of_receiveResponse (self : FPM383F) (w : Transport) (n : Nat) (r : Return)
    (h : receiveResponse self
      { w with tx := w.tx ++ frame (requestEnvelope self.password 0x02 0x01 (bigEndian32 n)) }
      0x02 0x01 noBuffer 0 = .ret r) :
    setPassword self w n
      = .ret (decide (r.value = true ∧ r.out.errorCode = 0),
          { password := if r.value = true ∧ r.out.errorCode = 0 then n else self.password
            lastError := r.self.lastError },
          r.serial) := by
  have hpw := (receiveResponse_typed _ _ _ _ _ _ _ h).2.1
  unfold setPassword sendCommand
  simp only [code_bigEndian32]
  have hfour : (bigEndian32 n).length = 4 := rfl
  have hsend := sendFrame_eq self w FP_CMD_SYSTEM_0 FP_CMD_SET_PASSWORD (bigEndian32 n)
    (by rw [hfour]; decide)
  rw [hfour] at hsend
  rw [hsend]
  simp only [Exec.bind]
  have h' : receiveResponse self
      { w with tx := w.tx ++ frame (requestEnvelope self.password FP_CMD_SYSTEM_0
        FP_CMD_SET_PASSWORD (bigEndian32 n)) } FP_CMD_SYSTEM_0 FP_CMD_SET_PASSWORD noBuffer 0
      = .ret r := h
  rw [h']
  simp only
  cases hv : r.value
  · simp [← hpw]
  · by_cases hec : r.out.errorCode = 0
    · simp [hec, FP_ERROR_SUCCESS]
    · simp [hec, FP_ERROR_SUCCESS, ← hpw]

/-- C17, password state: the password is 0 after construction; `setPassword n`
sends its request stamped with the password stored at that time (big-endian)
and stores `n` exactly when its `receiveResponse` succeeds with error code 0,
which a checksum-valid response tagged (0x02, 0x01) with error code 0 brings
about; after a non-zero error code, a mismatched command pair, a timeout or
any other failed receive the password is unchanged and the result is false;
every frame `sendFrame` writes carries the stored password big-endian. -/
theorem password_state (self : FPM383F) (w : Transport) (n : Nat) :
    new.password = 0 ∧
    (∀ r, receiveResponse self
        { w with tx := w.tx ++ frame (requestEnvelope self.password 0x02 0x01 (bigEndian32 n)) }
        0x02 0x01 noBuffer 0 = .ret r →
      setPassword self w n
        = .ret (decide (r.value = true ∧ r.out.errorCode = 0),
            { password := if r.value = true ∧ r.out.errorCode = 0 then n else self.password
              lastError := r.self.lastError },
            r.serial) ∧
      r.serial.tx
        = w.tx ++ frame (requestEnvelope self.password 0x02 0x01 (bigEndian32 n))) ∧
    (∀ (pw ec : Nat) (d rest : List Nat), millis w < deadline w → ec < 2 ^ 32 →
      11 + d.length < 65536 → w.rx = frame (responseEnvelope pw 0x02 0x01 ec d) ++ rest →
      setPassword self w n
        = .ret (decide (ec = 0),
            { password := if ec = 0 then n else self.password, lastError := ec },
            { w with rx := rest
                     tx := w.tx ++
                       frame (requestEnvelope self.password 0x02 0x01 (bigEndian32 n)) })) ∧
    (∀ (pw r1 r2 ec : Nat) (d rest : List Nat), millis w < deadline w → ec < 2 ^ 32 →
      11 + d.length < 65536 → (r1 ≠ 0x02 ∨ r2 ≠ 0x01) →
      w.rx = frame (responseEnvelope pw r1 r2 ec d) ++ rest →
      setPassword self w n
        = .ret (false, { password := self.password, lastError := FP_ERROR_INVALID_DATA },
            { w with rx := rest
                     tx := w.tx ++
                       frame (requestEnvelope self.password 0x02 0x01 (bigEndian32 n)) })) ∧
    (w.rx = [] → w.incoming = [] → millis w + 5000 < 2 ^ 32 →
      setPassword self w n
        = .ret (false, { password := self.password, lastError := FP_ERROR_TIMEOUT },
            { w with now := w.now + 5000
                     tx := w.tx ++
                       frame (requestEnvelope self.password 0x02 0x01 (bigEndian32 n)) })) ∧
    (∀ (cmd1 cmd2 : Nat) (d : List Nat), d.length ≤ 65528 →
      sendFrame self w cmd1 cmd2 (some d) d.length
        = .ret { w with tx := w.tx ++ marker ++ bigEndian16 (7 + d.length) ++
            [calculateFrameChecksum (7 + d.length)] ++ bigEndian32 self.password ++
            [cmd1, cmd2] ++ d ++
            [calculateChecksum (bigEndian32 self.password ++ [cmd1, cmd2] ++ d)] }) := by
  refine ⟨rfl, ?_, ?_, ?_, ?_, ?_⟩
  · intro r h
    exact ⟨setPassword_of_receiveResponse self w n r h,
      (receiveResponse_typed _ _ _ _ _ _ _ h).1⟩
  · intro pw ec d rest ht hec hlen hrx
    rw [setPassword_of_receiveResponse self w n _
      (receiveResponse_response self
        { w with tx := w.tx ++ frame (requestEnvelope self.password 0x02 0x01 (bigEndian32 n)) }
        noBuffer 0 rest pw 0x02 0x01 ec d ht hec hlen hrx (room_noBuffer _))]
    simp [deliver_noBuffer]
  · intro pw r1 r2 ec d rest ht hec hlen hne hrx
    rw [setPassword_of_receiveResponse self w n _
      (receiveResponse_mismatch self
        { w with tx := w.tx ++ frame (requestEnvelope self.password 0x02 0x01 (bigEndian32 n)) }
        noBuffer 0 0x02 0x01 r1 r2 pw ec d rest hne hec hlen hrx ht (room_noBuffer _))]
    simp
  · intro hrx hin hwrap
    rw [setPassword_of_receiveResponse self w n _
      (receiveResponse_of_receiveFrame_false self _ 0x02 0x01 noBuffer 0 _
        (receiveFrame_silent self
          { w with tx := w.tx ++
              frame (requestEnvelope self.password 0x02 0x01 (bigEndian32 n)) }
          noBuffer 0 hrx hin hwrap) rfl)]
    simp [failWith]
  · intro cmd1 cmd2 d hd
    rw [sendFrame_eq self w cmd1 cmd2 d hd]
    unfold frame
    rw [requestEnvelope_length]
    simp only [requestEnvelope, List.append_assoc]

/-- C17 at a concrete exchange: password 0, `setPassword 0x11223344` answered
by a valid response tagged (0x02, 0x01) with error code 0. -/
theorem password_state_witness :
    setPassword ⟨0, 0⟩
        ⟨0, [0xF1, 0x1F, 0xE2, 0x2E, 0xB6, 0x6B, 0xA8, 0x8A, 0x00, 0x0B, 0x82,
             0, 0, 0, 0, 0x02, 0x01, 0, 0, 0, 0, 0xFD], [], []⟩ 0x11223344
      = .ret (true, ⟨0x11223344, 0⟩,
          ⟨0, [], [], [0xF1, 0x1F, 0xE2, 0x2E, 0xB6, 0x6B, 0xA8, 0x8A, 0x00, 0x0B, 0x82,
                       0, 0, 0, 0, 0x02, 0x01, 0x11, 0x22, 0x33, 0x44, 0x53]⟩) :=
  (password_state ⟨0, 0⟩
    ⟨0, [0xF1, 0x1F, 0xE2, 0x2E, 0xB6, 0x6B, 0xA8, 0x8A, 0x00, 0x0B, 0x82,
         0, 0, 0, 0, 0x02, 0x01, 0, 0, 0, 0, 0xFD], [], []⟩ 0x11223344).2.2.1
    0 0 [] [] (by decide) (by norm_num) (by decide) (by decide)


/-! ## The polling loop of autoEnroll -/

theorem autoEnroll_eq_loop (fuel : Nat) (self : FPM383F) (w : Transport)
    (fingerprintId enrollCount : Nat) (waitFingerLift : Bool) :
    autoEnroll fuel self w fingerprintId enrollCount waitFingerLift
      = autoEnrollLoop ((millis w + 30000) % 2 ^ 32) fuel self
          { w with tx := w.tx ++
              autoEnrollRequest self.password fingerprintId enrollCount waitFingerLift } 0 := by
  have hd : [if waitFingerLift then 1 else 0, enrollCount, (fingerprintId >>> 8) &&& 0xFF,
      fingerprintId &&& 0xFF]
      = [if waitFingerLift then 1 else 0, enrollCount, fingerprintId / 256 % 256,
          fingerprintId % 256] := by
    rw [shr_and_16, and_255]
  have hsend : sendFrame self w FP_CMD_FINGERPRINT_0 FP_CMD_AUTO_ENROLL
      (some [if waitFingerLift then 1 else 0, enrollCount, fingerprintId / 256 % 256,
        fingerprintId % 256]) 4 = _ :=
    sendFrame_eq self w FP_CMD_FINGERPRINT_0 FP_CMD_AUTO_ENROLL
      [if waitFingerLift then 1 else 0, enrollCount, fingerprintId / 256 % 256,
        fingerprintId % 256] (by simp)
  unfold autoEnroll sendCommand
  rw [hd]
  show ((sendFrame self w FP_CMD_FINGERPRINT_0 FP_CMD_AUTO_ENROLL
      (some [if waitFingerLift then 1 else 0, enrollCount, fingerprintId / 256 % 256,
        fingerprintId % 256]) 4).bind fun w => Exec.ret (true, w)).bind _ = _
  rw [hsend]
  rfl

theorem loop_deadline (timeout fuel : Nat) (self : FPM383F) (w : Transport) (n : Nat)
    (h : ¬ millis w < timeout) :
    autoEnrollLoop timeout (fuel + 1) self w n = .ret (false, self, w, n) := by
  rw [autoEnrollLoop]
  rw [if_neg h]

theorem loop_failed_attempt (timeout fuel : Nat) (self : FPM383F) (w : Transport) (n : Nat)
    (r : Return) (hto : millis w < timeout)
    (h : receiveResponse self w FP_CMD_FINGERPRINT_0 FP_CMD_AUTO_ENROLL responseBuffer 4 = .ret r)
    (hv : r.value = false) :
    autoEnrollLoop timeout (fuel + 1) self w n
      = autoEnrollLoop timeout fuel r.self (delay r.serial 100) (n + 1) := by
  rw [autoEnrollLoop]
  rw [if_pos hto, h]
  simp [Exec.bind, hv]

theorem loop_peer_error (timeout fuel : Nat) (self : FPM383F) (w : Transport) (n : Nat)
    (r : Return) (hto : millis w < timeout)
    (h : receiveResponse self w FP_CMD_FINGERPRINT_0 FP_CMD_AUTO_ENROLL responseBuffer 4 = .ret r)
    (hv : r.value = true) (hec : r.out.errorCode ≠ 0) :
    autoEnrollLoop timeout (fuel + 1) self w n = .ret (false, r.self, r.serial, n + 1) := by
  rw [autoEnrollLoop]
  rw [if_pos hto, h]
  simp [Exec.bind, hv, hec, FP_ERROR_SUCCESS]

theorem loop_terminal (timeout fuel : Nat) (self : FPM383F) (w : Transport) (n : Nat)
    (r : Return) (hto : millis w < timeout)
    (h : receiveResponse self w FP_CMD_FINGERPRINT_0 FP_CMD_AUTO_ENROLL responseBuffer 4 = .ret r)
    (hv : r.value = true) (hec : r.out.errorCode = 0)
    (hterm : r.out.actualDataLen ≥ 4 ∧ (r.out.data.getD []).getD 0 0 = 0xFF ∧
      (r.out.data.getD []).getD 3 0 = 100) :
    autoEnrollLoop timeout (fuel + 1) self w n = .ret (true, r.self, r.serial, n + 1) := by
  rw [autoEnrollLoop]
  rw [if_pos hto, h]
  simp only [Exec.bind, hv, hec, FP_ERROR_SUCCESS, ne_eq, not_true_eq_false, if_false, if_true]
  rw [if_pos hterm]

theorem loop_progress (timeout fuel : Nat) (self : FPM383F) (w : Transport) (n : Nat)
    (r : Return) (hto : millis w < timeout)
    (h : receiveResponse self w FP_CMD_FINGERPRINT_0 FP_CMD_AUTO_ENROLL responseBuffer 4 = .ret r)
    (hv : r.value = true) (hec : r.out.errorCode = 0)
    (hterm : ¬ (r.out.actualDataLen ≥ 4 ∧ (r.out.data.getD []).getD 0 0 = 0xFF ∧
      (r.out.data.getD []).getD 3 0 = 100)) :
    autoEnrollLoop timeout (fuel + 1) self w n
      = autoEnrollLoop timeout fuel r.self (delay r.serial 100) (n + 1) := by
  rw [autoEnrollLoop]
  rw [if_pos hto, h]
  simp only [Exec.bind, hv, hec, FP_ERROR_SUCCESS, ne_eq, not_true_eq_false, if_false, if_true]
  rw [if_neg hterm]

theorem deliver_responseBuffer (c1 c2 ec a b c e : Nat) :
    deliver responseBuffer 4 c1 c2 ec [a, b, c, e]
      = { cmd1 := c1, cmd2 := c2, data := some [a, b, c, e], actualDataLen := 4,
          errorCode := ec } := by
  simp [deliver, responseBuffer]

/-- One polling iteration on a valid (0x01, 0x18) frame with error code 0 whose
four data bytes start with 0xFF and end with 100: `autoEnroll` returns true. -/
theorem loop_terminal_frame (timeout fuel : Nat) (self : FPM383F) (w : Transport) (n : Nat)
    (pw b c : Nat) (rest : List Nat) (hto : millis w < timeout)
    (ht : millis w < deadline w)
    (hrx : w.rx = frame (responseEnvelope pw 0x01 0x18 0 [0xFF, b, c, 100]) ++ rest) :
    autoEnrollLoop timeout (fuel + 1) self w n
      = .ret (true, { self with lastError := 0 }, { w with rx := rest }, n + 1) := by
  have h := receiveResponse_response self w responseBuffer 4 rest pw 0x01 0x18 0
    [0xFF, b, c, 100] ht (by norm_num) (by simp) hrx
    (room_responseBuffer _ (Nat.min_le_right _ _))
  rw [deliver_responseBuffer] at h
  rw [loop_terminal timeout fuel self w n _ hto h rfl rfl]
  simp

theorem millis_add (w : Transport) (ms : Nat) (h : millis w + ms < 2 ^ 32) :
    (w.now + ms) % 2 ^ 32 = millis w + ms := by
  simp only [millis, Nat.reducePow] at h ⊢
  omega

theorem deadline_ahead (w : Transport) (h : millis w + 5000 < 2 ^ 32) :
    millis w < deadline w := by
  unfold deadline
  rw [Nat.mod_eq_of_lt h]
  omega

/-! ## Peer errors and failed attempts during polling -/

/-- C15 as stated fails: a first frame that `receiveResponse` rejects with
`FP_ERROR_INVALID_DATA` (corrupted payload checksum, mismatched frame checksum,
or the command pair (0x01, 0x21)) does not end `autoEnroll`; the terminal frame
behind it is received by a second call and `autoEnroll` returns true. -/
theorem polling_after_invalid_data_counterexample :
    receiveResponse ⟨0, 0⟩
        ⟨0, [0xF1, 0x1F, 0xE2, 0x2E, 0xB6, 0x6B, 0xA8, 0x8A, 0x00, 0x0F, 0x7E, 0, 0, 0, 0, 0x01, 0x18, 0, 0, 0, 0, 0x01, 0x00, 0x05, 0x21, 0xC1,
             0xF1, 0x1F, 0xE2, 0x2E, 0xB6, 0x6B, 0xA8, 0x8A, 0x00, 0x0F, 0x7E, 0, 0, 0, 0, 0x01, 0x18, 0, 0, 0, 0, 0xFF, 0x00, 0x05, 0x64, 0x7F], [], []⟩ 0x01 0x18 responseBuffer 4
      = .ret { value := false
               self := ⟨0, FP_ERROR_INVALID_DATA⟩
               serial := ⟨0, [0xF1, 0x1F, 0xE2, 0x2E, 0xB6, 0x6B, 0xA8, 0x8A, 0x00, 0x0F, 0x7E, 0, 0, 0, 0, 0x01, 0x18, 0, 0, 0, 0, 0xFF, 0x00, 0x05, 0x64, 0x7F], [], []⟩
               out := responseBuffer } ∧
    autoEnroll 2 ⟨0, 0⟩
        ⟨0, [0xF1, 0x1F, 0xE2, 0x2E, 0xB6, 0x6B, 0xA8, 0x8A, 0x00, 0x0F, 0x7E, 0, 0, 0, 0, 0x01, 0x18, 0, 0, 0, 0, 0x01, 0x00, 0x05, 0x21, 0xC1,
             0xF1, 0x1F, 0xE2, 0x2E, 0xB6, 0x6B, 0xA8, 0x8A, 0x00, 0x0F, 0x7E, 0, 0, 0, 0, 0x01, 0x18, 0, 0, 0, 0, 0xFF, 0x00, 0x05, 0x64, 0x7F], [], []⟩ 5 3 false
      = .ret (true, ⟨0, 0⟩, ⟨100, [], [], [0xF1, 0x1F, 0xE2, 0x2E, 0xB6, 0x6B, 0xA8, 0x8A, 0x00, 0x0B, 0x82, 0, 0, 0, 0, 0x01, 0x18, 0x00, 0x03, 0x00, 0x05, 0xDF]⟩, 2) ∧
    autoEnroll 2 ⟨0, 0⟩
        ⟨0, [0xF1, 0x1F, 0xE2, 0x2E, 0xB6, 0x6B, 0xA8, 0x8A, 0x00, 0x0F, 0x7F,
             0xF1, 0x1F, 0xE2, 0x2E, 0xB6, 0x6B, 0xA8, 0x8A, 0x00, 0x0F, 0x7E, 0, 0, 0, 0, 0x01, 0x18, 0, 0, 0, 0, 0xFF, 0x00, 0x05, 0x64, 0x7F], [], []⟩ 5 3 false
      = .ret (true, ⟨0, 0⟩, ⟨100, [], [], [0xF1, 0x1F, 0xE2, 0x2E, 0xB6, 0x6B, 0xA8, 0x8A, 0x00, 0x0B, 0x82, 0, 0, 0, 0, 0x01, 0x18, 0x00, 0x03, 0x00, 0x05, 0xDF]⟩, 2) ∧
    autoEnroll 2 ⟨0, 0⟩
        ⟨0, [0xF1, 0x1F, 0xE2, 0x2E, 0xB6, 0x6B, 0xA8, 0x8A, 0x00, 0x0B, 0x82, 0, 0, 0, 0, 0x01, 0x21, 0, 0, 0, 0, 0xDE,
             0xF1, 0x1F, 0xE2, 0x2E, 0xB6, 0x6B, 0xA8, 0x8A, 0x00, 0x0F, 0x7E, 0, 0, 0, 0, 0x01, 0x18, 0, 0, 0, 0, 0xFF, 0x00, 0x05, 0x64, 0x7F], [], []⟩ 5 3 false
      = .ret (true, ⟨0, 0⟩, ⟨100, [], [], [0xF1, 0x1F, 0xE2, 0x2E, 0xB6, 0x6B, 0xA8, 0x8A, 0x00, 0x0B, 0x82, 0, 0, 0, 0, 0x01, 0x18, 0x00, 0x03, 0x00, 0x05, 0xDF]⟩, 2) := by
  decide

/-- C15, as amended: a call of `receiveResponse` inside `autoEnroll` that fails
with `FP_ERROR_INVALID_DATA` does not end the polling. `autoEnroll` waits
100 ms and goes on with the next iteration; if the outer deadline has not
passed then and a valid terminal frame is at the front of the receive buffer,
`autoEnroll` returns true on that next attempt. -/
theorem polling_continues_after_invalid_data (timeout fuel : Nat) (self : FPM383F)
    (w : Transport) (n : Nat) (r : Return) (pw b c : Nat) (rest : List Nat)
    (hto : millis w < timeout)
    (hfail : receiveResponse self w 0x01 0x18 responseBuffer 4 = .ret r)
    (hv : r.value = false) (herr : r.self.lastError = FP_ERROR_INVALID_DATA) :
    autoEnrollLoop timeout (fuel + 2) self w n
        = autoEnrollLoop timeout (fuel + 1) r.self (delay r.serial 100) (n + 1) ∧
      r.self.lastError = 0x03 ∧
      (millis (delay r.serial 100) < timeout →
        millis (delay r.serial 100) < deadline (delay r.serial 100) →
        (delay r.serial 100).rx
          = frame (responseEnvelope pw 0x01 0x18 0 [0xFF, b, c, 100]) ++ rest →
        autoEnrollLoop timeout (fuel + 2) self w n
          = .ret (true, { r.self with lastError := 0 },
              { delay r.serial 100 with rx := rest }, n + 2)) := by
  have hstep := loop_failed_attempt timeout (fuel + 1) self w n r hto hfail hv
  refine ⟨hstep, herr, ?_⟩
  intro hto2 ht2 hrx2
  rw [hstep, loop_terminal_frame timeout fuel r.self (delay r.serial 100) (n + 1) pw b c rest
    hto2 ht2 hrx2]

/-- C15 as amended, on a frame with a corrupted payload checksum followed by a
terminal frame. -/
theorem polling_continues_after_invalid_data_witness :
    autoEnrollLoop 30000 (0 + 2) ⟨0, 0⟩
        ⟨0, [0xF1, 0x1F, 0xE2, 0x2E, 0xB6, 0x6B, 0xA8, 0x8A, 0x00, 0x0F, 0x7E, 0, 0, 0, 0, 0x01, 0x18, 0, 0, 0, 0, 0x01, 0x00, 0x05, 0x21, 0xC1,
             0xF1, 0x1F, 0xE2, 0x2E, 0xB6, 0x6B, 0xA8, 0x8A, 0x00, 0x0F, 0x7E, 0, 0, 0, 0, 0x01, 0x18, 0, 0, 0, 0, 0xFF, 0x00, 0x05, 0x64, 0x7F], [], []⟩ 0
      = .ret (true, ⟨0, 0⟩, ⟨100, [], [], []⟩, 0 + 2) :=
  (polling_continues_after_invalid_data 30000 0 ⟨0, 0⟩
    ⟨0, [0xF1, 0x1F, 0xE2, 0x2E, 0xB6, 0x6B, 0xA8, 0x8A, 0x00, 0x0F, 0x7E, 0, 0, 0, 0, 0x01, 0x18, 0, 0, 0, 0, 0x01, 0x00, 0x05, 0x21, 0xC1,
         0xF1, 0x1F, 0xE2, 0x2E, 0xB6, 0x6B, 0xA8, 0x8A, 0x00, 0x0F, 0x7E, 0, 0, 0, 0, 0x01, 0x18, 0, 0, 0, 0, 0xFF, 0x00, 0x05, 0x64, 0x7F], [], []⟩ 0
    { value := false
      self := ⟨0, FP_ERROR_INVALID_DATA⟩
      serial := ⟨0, [0xF1, 0x1F, 0xE2, 0x2E, 0xB6, 0x6B, 0xA8, 0x8A, 0x00, 0x0F, 0x7E, 0, 0, 0, 0, 0x01, 0x18, 0, 0, 0, 0, 0xFF, 0x00, 0x05, 0x64, 0x7F], [], []⟩
      out := responseBuffer }
    0 0x00 0x05 [] (by decide) (by decide) rfl rfl).2.2 (by decide) (by decide) (by decide)


/-! ## Partial delivery -/

theorem marker_take_states (n : Nat) (hn : n < 8) :
    (marker.take n).foldl syncNext 0 < 8 ∧
      ∀ i, i < (marker.take n).length → ((marker.take n).take i).foldl syncNext 0 < 8 := by
  interval_cases n <;> decide

/-! ## What the loops of receiveFrame consume, whatever the timing -/

theorem stream_delay (w : Transport) (ms : Nat) : stream (delay w ms) = stream w := by
  have h := List.takeWhile_append_dropWhile (fun p : Nat × Nat => decide (p.1 ≤ w.now + ms))
    w.incoming
  simp only [stream, delay, List.append_assoc, ← List.map_append, h]

theorem stream_read (w : Transport) (h : available w ≠ 0) :
    stream w = (read w).1 :: stream (read w).2 := by
  unfold read
  unfold available at h
  split
  · rename_i hnil
    rw [hnil] at h
    simp at h
  · rename_i b rest hcons
    simp [stream, hcons]

theorem available_le_stream (w : Transport) : available w ≤ (stream w).length := by
  simp [available, stream]

/-- The bytes in the receive buffer are the first `available` bytes of the stream. -/
theorem rx_eq_take_stream (w : Transport) : w.rx = (stream w).take (available w) := by
  simp [available, stream]

/-- The marker loop consumes a front part `c` of the stream, `headerIdx` follows
`syncNext` over it and was below 8 before each byte was read. -/
theorem headerLoop_stream (timeout : Nat) :
    ∀ (fuel : Nat) (w : Transport) (k : Nat) (r : Transport × Nat),
      headerLoop timeout fuel w k = .ret r →
      ∃ c, stream w = c ++ stream r.1 ∧ r.2 = c.foldl syncNext k ∧
        ∀ i, i < c.length → (c.take i).foldl syncNext k < 8 := by
  intro fuel
  induction fuel with
  | zero =>
    intro w k r h
    simp [headerLoop] at h
  | succ fuel ih =>
    intro w k r h
    rw [headerLoop] at h
    split at h
    · rename_i hc
      split at h
      · rename_i hav
        have hnext : headerLoop timeout fuel (read w).2 (syncNext k (read w).1) = .ret r := by
          simp only at h
          unfold syncNext
          split at h
          · rename_i hb
            rw [if_pos hb]
            exact h
          · rename_i hb
            rw [if_neg hb]
            exact h
        obtain ⟨c, hs, hk, hlt⟩ := ih _ _ _ hnext
        refine ⟨(read w).1 :: c, ?_, ?_, ?_⟩
        · rw [stream_read w hav, hs]
          rfl
        · rw [hk]
          rfl
        · intro i hi
          cases i with
          | zero => exact hc.2
          | succ i =>
            simp only [List.take_succ_cons, List.foldl_cons]
            exact hlt i (by simpa using hi)
      · obtain ⟨c, hs, hk, hlt⟩ := ih _ _ _ h
        exact ⟨c, by rw [← stream_delay w 1]; exact hs, hk, hlt⟩
    · cases h
      exact ⟨[], rfl, rfl, fun i hi => by simp at hi⟩

/-- A wait loop reads nothing; it ends with enough bytes available or with the
deadline reached. -/
theorem waitAvailable_stream (timeout n : Nat) :
    ∀ (fuel : Nat) (w r : Transport), waitAvailable timeout n fuel w = .ret r →
      stream r = stream w ∧ (n ≤ available r ∨ ¬ millis r < timeout) := by
  intro fuel
  induction fuel with
  | zero =>
    intro w r h
    simp [waitAvailable] at h
  | succ fuel ih =>
    intro w r h
    rw [waitAvailable] at h
    split at h
    · obtain ⟨hs, hx⟩ := ih _ _ h
      exact ⟨by rw [hs, stream_delay], hx⟩
    · rename_i hc
      cases h
      refine ⟨rfl, ?_⟩
      by_cases hm : millis w < timeout
      · left
        have : ¬ available w < n := fun ha => hc ⟨hm, ha⟩
        omega
      · right
        exact hm

theorem waitAvailable_fuel_ret (timeout n : Nat) (htm : timeout < 2 ^ 32) (w : Transport) :
    ∃ r, waitAvailable timeout n (waitFuel timeout w) w = .ret r ∧ stream r = stream w :=  by
  obtain ⟨r, hr⟩ := waitAvailable_total timeout n htm (waitFuel timeout w) w
    (by unfold waitFuel; omega)
  exact ⟨r, hr, (waitAvailable_stream timeout n _ w r hr).1⟩

theorem read_of_stream (w : Transport) (b : Nat) (t : List Nat) (hs : stream w = b :: t)
    (hav : ¬ available w < 1) : (read w).1 = b ∧ stream (read w).2 = t := by
  have h := stream_read w (by omega)
  rw [hs] at h
  injection h with h1 h2
  exact ⟨h1.symm, h2.symm⟩

/-- The stages after the marker when the stream ends inside length, frame
checksum or envelope of a frame: whenever the bytes arrive, the result is
`FP_ERROR_TIMEOUT`. -/
theorem afterHeader_starved (timeout : Nat) (htm : timeout < 2 ^ 32) (self : FPM383F)
    (w : Transport) (out : Outputs) (maxDataLen : Nat) (env : List Nat) (m : Nat)
    (hL : env.length < 65536) (hm : m < 3 + env.length)
    (hs : stream w = ((env.length / 256 % 256) :: (env.length % 256) ::
      calculateFrameChecksum env.length :: env).take m) :
    ∃ w1, afterHeader timeout self w out maxDataLen
      = .ret (failWith self w1 out FP_ERROR_TIMEOUT) := by
  unfold afterHeader
  obtain ⟨w1, hw1, hs1⟩ := waitAvailable_fuel_ret timeout 2 htm w
  rw [hw1]
  simp only [Exec.bind]
  split
  · exact ⟨_, rfl⟩
  · rename_i hav1
    have hlen1 := available_le_stream w1
    rw [hs1, hs, List.length_take] at hlen1
    obtain ⟨m, rfl⟩ : ∃ j, m = j + 2 := ⟨m - 2, by omega⟩
    rw [hs] at hs1
    simp only [List.take_succ_cons] at hs1
    obtain ⟨hb1, hs2⟩ := read_of_stream w1 _ _ hs1 (by omega)
    have hav2 : ¬ available (read w1).2 < 1 := by
      have := (read_length w1 (by omega)).1
      unfold available at hav1 ⊢
      omega
    obtain ⟨hb2, hs3⟩ := read_of_stream (read w1).2 _ _ hs2 hav2
    rw [hb1, hb2, decode_bigEndian16 env.length hL]
    obtain ⟨w2, hw2, hs4⟩ := waitAvailable_fuel_ret timeout 1 htm (read (read w1).2).2
    rw [hw2]
    simp only
    split
    · exact ⟨_, rfl⟩
    · rename_i hav3
      have hlen3 := available_le_stream w2
      rw [hs4, hs3, List.length_take] at hlen3
      obtain ⟨m, rfl⟩ : ∃ j, m = j + 1 := ⟨m - 1, by omega⟩
      rw [hs3] at hs4
      simp only [List.take_succ_cons] at hs4
      obtain ⟨hb3, hs5⟩ := read_of_stream w2 _ _ hs4 hav3
      rw [hb3, if_neg (by simp)]
      obtain ⟨w3, hw3, hs6⟩ := waitAvailable_fuel_ret timeout env.length htm (read w2).2
      rw [hw3]
      simp only
      have hlen4 := available_le_stream w3
      rw [hs6, hs5, List.length_take] at hlen4
      rw [if_pos (by omega)]
      exact ⟨_, rfl⟩

/-- C18, partial delivery is a timeout: for every frame `F` (marker, 16-bit
length, matching frame checksum, envelope) and every proper prefix `P` of it,
from the empty one to `F` without its last byte, when the transport delivers
exactly `P` and nothing more (in the receive buffer or still on the wire,
arriving at any times), `receiveFrame` returns false with
`lastError = FP_ERROR_TIMEOUT`, for every value of the clock. -/
theorem partial_delivery_times_out (self : FPM383F) (w : Transport) (out : Outputs)
    (maxDataLen : Nat) (env : List Nat) (n : Nat) (hL : env.length < 65536)
    (hn : n < (frame env).length) (hs : stream w = (frame env).take n) :
    ∃ w1, receiveFrame self w out maxDataLen
      = .ret { value := false
               self := { self with lastError := FP_ERROR_TIMEOUT }
               serial := w1
               out := out } := by
  have hframe : frame env = marker ++ ((env.length / 256 % 256) :: (env.length % 256) ::
      calculateFrameChecksum env.length :: env) := by
    simp [frame, bigEndian16]
  have hflen : (frame env).length = 11 + env.length := by
    rw [hframe]
    simp only [marker, List.length_append, List.length_cons, List.length_nil]
    omega
  unfold receiveFrame
  simp only
  obtain ⟨p, hp⟩ := headerLoop_total (deadline w) (deadline_lt w)
    (w.rx.length + w.incoming.length + waitFuel (deadline w) w) w 0
    (by unfold waitFuel; omega)
  obtain ⟨c, hc, hk, hlt⟩ := headerLoop_stream _ _ _ _ _ hp
  rw [hp]
  simp only [Exec.bind]
  split
  · exact ⟨_, rfl⟩
  · rename_i hk8
    have hpre : c = (frame env).take c.length ∧ c.length ≤ n := by
      have h1 : c = ((frame env).take n).take c.length := by
        rw [← hs, hc]
        simp
      have h2 : c.length ≤ ((frame env).take n).length := by
        rw [← hs, hc]
        simp
      rw [List.length_take] at h2
      rw [List.take_take] at h1
      have h3 : min c.length n = c.length := by omega
      rw [h3] at h1
      exact ⟨h1, by omega⟩
    have hmk : marker.foldl syncNext 0 = 8 := by decide
    have hclen : c.length = 8 := by
      rcases Nat.lt_trichotomy c.length 8 with h | h | h
      · exfalso
        have hcm : c = marker.take c.length := by
          have := hpre.1
          rw [hframe, List.take_append_of_le_length (by simpa [marker] using Nat.le_of_lt h)]
            at this
          exact this
        have := (marker_take_states c.length h).1
        rw [← hcm, ← hk] at this
        exact hk8 this
      · exact h
      · exfalso
        have hc8 : c.take 8 = marker := by
          have := congrArg (List.take 8) hpre.1
          rw [List.take_take, hframe] at this
          rw [this, Nat.min_eq_left (Nat.le_of_lt h)]
          simp [marker]
        have := hlt 8 h
        rw [hc8, hmk] at this
        omega
    have hcm : c = marker := by
      have := hpre.1
      rw [hclen, hframe] at this
      rw [this]
      simp [marker]
    have hrest : stream p.1 = ((env.length / 256 % 256) :: (env.length % 256) ::
        calculateFrameChecksum env.length :: env).take (n - 8) := by
      have h1 : stream p.1 = (stream w).drop c.length := by
        rw [hc]
        simp
      rw [h1, hs, hclen, List.drop_take, hframe]
      simp [marker]
    exact afterHeader_starved (deadline w) (deadline_lt w) self p.1 out maxDataLen env (n - 8)
      hL (by have := hpre.2; omega) hrest

/-- C18 on a heartbeat response without its last byte, of which fifteen bytes
are in the receive buffer and six arrive later. -/
theorem partial_delivery_times_out_witness :
    ∃ w1, receiveFrame ⟨0, 0⟩
        ⟨0, [0xF1, 0x1F, 0xE2, 0x2E, 0xB6, 0x6B, 0xA8, 0x8A, 0x00, 0x0B, 0x82, 0, 0, 0, 0],
            [(20, 0x03), (20, 0x03), (700, 0), (700, 0), (6000, 0), (6000, 0)], []⟩
        noBuffer 0
      = .ret { value := false
               self := { (⟨0, 0⟩ : FPM383F) with lastError := FP_ERROR_TIMEOUT }
               serial := w1
               out := noBuffer } :=
  partial_delivery_times_out ⟨0, 0⟩
    ⟨0, [0xF1, 0x1F, 0xE2, 0x2E, 0xB6, 0x6B, 0xA8, 0x8A, 0x00, 0x0B, 0x82, 0, 0, 0, 0],
        [(20, 0x03), (20, 0x03), (700, 0), (700, 0), (6000, 0), (6000, 0)], []⟩
    noBuffer 0 [0, 0, 0, 0, 0x03, 0x03, 0, 0, 0, 0, 0xFA] 21 (by decide) (by decide)
    (by decide)

/-! ## Polling while nothing arrives -/

theorem delay_quiet (w : Transport) (ms : Nat) (hq : ∀ p ∈ w.incoming, w.now + ms < p.1) :
    delay w ms = { w with now := w.now + ms } := by
  obtain ⟨now, rx, incoming, tx⟩ := w
  cases incoming with
  | nil => simp [delay]
  | cons p ps =>
    have hp : ¬ p.1 ≤ now + ms := by
      have := hq p (List.mem_cons_self p ps)
      simp only at this
      omega
    simp [delay, List.takeWhile_cons, List.dropWhile_cons, hp]

theorem headerLoop_quiet (timeout : Nat) (htm : timeout < 2 ^ 32) :
    ∀ (n fuel : Nat) (w : Transport) (k : Nat), k < 8 → w.rx = [] →
      (∀ p ∈ w.incoming, w.now + n < p.1) → millis w + n = timeout → n < fuel →
      headerLoop timeout fuel w k = .ret ({ w with now := w.now + n }, k) := by
  intro n
  induction n with
  | zero =>
    intro fuel w k _ _ _ hm hf
    obtain ⟨fuel, rfl⟩ : ∃ f, fuel = f + 1 := ⟨fuel - 1, by omega⟩
    rw [headerLoop]
    have : ¬ millis w < timeout := by omega
    simp [this]
  | succ n ih =>
    intro fuel w k hk hrx hq hm hf
    obtain ⟨fuel, rfl⟩ : ∃ f, fuel = f + 1 := ⟨fuel - 1, by omega⟩
    rw [headerLoop]
    have hlt : millis w < timeout := by omega
    have hav : available w = 0 := by simp [available, hrx]
    simp only [hlt, hk, and_self, if_true, hav, ne_eq, not_true_eq_false, if_false]
    rw [delay_quiet w 1 (fun p hp => by have := hq p hp; omega)]
    have hmil : millis { w with now := w.now + 1 } = millis w + 1 := by
      simp only [millis, Nat.reducePow] at hlt htm ⊢
      omega
    rw [ih fuel { w with now := w.now + 1 } k hk hrx
      (fun p hp => by have := hq p hp; simp only; omega) (by rw [hmil]; omega) (by omega)]
    simp only [Nat.add_assoc, Nat.add_comm 1 n]

/-- When nothing is in the receive buffer, nothing arrives within 5000 ms and
the deadline does not wrap, `receiveFrame` fails with `FP_ERROR_TIMEOUT`
exactly 5000 ms after entry. -/
theorem receiveFrame_quiet (self : FPM383F) (w : Transport) (out : Outputs)
    (maxDataLen : Nat) (hrx : w.rx = []) (hq : ∀ p ∈ w.incoming, w.now + 5000 < p.1)
    (hwrap : millis w + 5000 < 2 ^ 32) :
    receiveFrame self w out maxDataLen
      = .ret (failWith self { w with now := w.now + 5000 } out FP_ERROR_TIMEOUT) := by
  have hd : deadline w = millis w + 5000 := Nat.mod_eq_of_lt hwrap
  unfold receiveFrame
  simp only
  rw [headerLoop_quiet (deadline w) (by rw [hd]; exact hwrap) 5000 _ w 0 (by decide) hrx hq
    hd.symm (by rw [hd]; simp only [waitFuel]; omega)]
  simp [Exec.bind]

/-- One polling iteration while nothing arrives: the attempt times out after
5000 ms and the loop waits another 100 ms. -/
theorem loop_quiet_attempt (timeout fuel : Nat) (self : FPM383F) (w : Transport) (n : Nat)
    (hto : millis w < timeout) (hrx : w.rx = [])
    (hq : ∀ p ∈ w.incoming, w.now + 5000 < p.1) (hwrap : millis w + 5000 < 2 ^ 32) :
    autoEnrollLoop timeout (fuel + 1) self w n
      = autoEnrollLoop timeout fuel { self with lastError := FP_ERROR_TIMEOUT }
          (delay { w with now := w.now + 5000 } 100) (n + 1) := by
  have h := receiveResponse_of_receiveFrame_false self w FP_CMD_FINGERPRINT_0
    FP_CMD_AUTO_ENROLL responseBuffer 4 _ (receiveFrame_quiet self w responseBuffer 4 hrx hq hwrap)
    rfl
  rw [loop_failed_attempt timeout fuel self w n _ hto h rfl]
  rfl

theorem loop_quiet_step (timeout fuel : Nat) (self : FPM383F) (w : Transport) (n : Nat)
    (hto : millis w < timeout) (hrx : w.rx = [])
    (hq : ∀ p ∈ w.incoming, w.now + 5100 < p.1) (hwrap : millis w + 5000 < 2 ^ 32) :
    autoEnrollLoop timeout (fuel + 1) self w n
      = autoEnrollLoop timeout fuel { self with lastError := FP_ERROR_TIMEOUT }
          { w with now := w.now + 5100 } (n + 1) := by
  rw [loop_quiet_attempt timeout fuel self w n hto hrx
    (fun p hp => by have := hq p hp; omega) hwrap]
  rw [delay_quiet { w with now := w.now + 5000 } 100
    (fun p hp => by have := hq p hp; simp only; omega)]

/-- A run of `k + 1` polling iterations during which nothing arrives. -/
theorem loop_quiet_steps (timeout : Nat) :
    ∀ (k fuel : Nat) (self : FPM383F) (w : Transport) (n : Nat), w.rx = [] →
      (∀ p ∈ w.incoming, w.now + 5100 * (k + 1) < p.1) →
      millis w + 5100 * k < timeout → millis w + 5100 * k + 5000 < 2 ^ 32 →
      autoEnrollLoop timeout (fuel + (k + 1)) self w n
        = autoEnrollLoop timeout fuel { self with lastError := FP_ERROR_TIMEOUT }
            { w with now := w.now + 5100 * (k + 1) } (n + (k + 1)) := by
  intro k
  induction k with
  | zero =>
    intro fuel self w n hrx hq hto hwrap
    exact loop_quiet_step timeout fuel self w n (by omega) hrx
      (fun p hp => by have := hq p hp; omega) (by omega)
  | succ k ih =>
    intro fuel self w n hrx hq hto hwrap
    rw [show fuel + (k + 1 + 1) = (fuel + (k + 1)) + 1 from rfl]
    rw [loop_quiet_step timeout (fuel + (k + 1)) self w n (by omega) hrx
      (fun p hp => by have := hq p hp; omega) (by omega)]
    have hmil : millis { w with now := w.now + 5100 } = millis w + 5100 :=
      millis_add w 5100 (by omega)
    rw [ih fuel { self with lastError := FP_ERROR_TIMEOUT } { w with now := w.now + 5100 } (n + 1)
      hrx (fun p hp => by have := hq p hp; simp only; omega) (by rw [hmil]; omega)
      (by rw [hmil]; omega)]
    have e1 : w.now + 5100 + 5100 * (k + 1) = w.now + 5100 * (k + 1 + 1) := by omega
    have e2 : n + 1 + (k + 1) = n + (k + 1 + 1) := by omega
    simp only [e1, e2]

theorem autoEnrollLoop_tx (timeout : Nat) :
    ∀ (fuel : Nat) (self : FPM383F) (w : Transport) (n : Nat)
      (res : Bool × FPM383F × Transport × Nat),
      autoEnrollLoop timeout fuel self w n = .ret res → res.2.2.1.tx = w.tx := by
  intro fuel
  induction fuel with
  | zero =>
    intro self w n res h
    simp [autoEnrollLoop] at h
  | succ fuel ih =>
    intro self w n res h
    rw [autoEnrollLoop] at h
    split at h
    · obtain ⟨r, hr, h⟩ := bind_eq_ret _ _ _ h
      have htx := (receiveResponse_typed _ _ _ _ _ _ _ hr).1
      split at h
      · split at h
        · cases h
          exact htx
        · simp only at h
          split at h
          · cases h
            exact htx
          · rw [ih _ _ _ _ h, delay_tx, htx]
      · rw [ih _ _ _ _ h, delay_tx, htx]
    · cases h
      rfl

/-- Whenever `autoEnroll` returns, whatever arrived and whenever, it has
written its one request frame and nothing else. -/
theorem autoEnroll_writes_once (fuel : Nat) (self : FPM383F) (w : Transport)
    (fingerprintId enrollCount : Nat) (waitFingerLift : Bool)
    (res : Bool × FPM383F × Transport × Nat)
    (h : autoEnroll fuel self w fingerprintId enrollCount waitFingerLift = .ret res) :
    res.2.2.1.tx
      = w.tx ++ autoEnrollRequest self.password fingerprintId enrollCount waitFingerLift := by
  rw [autoEnroll_eq_loop] at h
  rw [autoEnrollLoop_tx _ _ _ _ _ _ h]

theorem loop_silent (fuel : Nat) (self : FPM383F) (w : Transport) (t0 : Nat)
    (hrx : w.rx = []) (hin : w.incoming = []) (ht0 : millis w = t0)
    (hclock : t0 + 35100 < 2 ^ 32) :
    autoEnrollLoop (t0 + 30000) (fuel + 7) self w 0
      = .ret (false, { self with lastError := FP_ERROR_TIMEOUT },
          { w with now := w.now + 30600 }, 6) := by
  subst ht0
  have hq : ∀ p ∈ w.incoming, w.now + 5100 * (5 + 1) < p.1 := by
    intro p hp
    rw [hin] at hp
    simp at hp
  rw [show fuel + 7 = (fuel + 1) + (5 + 1) from rfl]
  rw [loop_quiet_steps (millis w + 30000) 5 (fuel + 1) self w 0 hrx hq (by omega) (by omega)]
  rw [loop_deadline]
  have hm : millis { w with now := w.now + 5100 * (5 + 1) } = millis w + 30600 :=
    millis_add w 30600 (by omega)
  rw [hm]
  omega

/-- With silence on the line and the clock at least 35100 ms from its
wrap-around, `autoEnroll` returns false after six attempts, 30600 ms after it
was called. -/
theorem autoEnroll_silent (fuel : Nat) (self : FPM383F) (w : Transport)
    (fingerprintId enrollCount : Nat) (waitFingerLift : Bool)
    (hrx : w.rx = []) (hin : w.incoming = []) (hclock : millis w + 35100 < 2 ^ 32) :
    autoEnroll (fuel + 7) self w fingerprintId enrollCount waitFingerLift
      = .ret (false, { self with lastError := FP_ERROR_TIMEOUT },
          { w with now := w.now + 30600
                   tx := w.tx ++
                     autoEnrollRequest self.password fingerprintId enrollCount waitFingerLift },
          6) := by
  rw [autoEnroll_eq_loop, Nat.mod_eq_of_lt (show millis w + 30000 < 2 ^ 32 by omega)]
  exact loop_silent fuel self _ (millis w) hrx hin rfl hclock


/-! ## Polling across the wrap-around of the clock -/

theorem delay_all (w : Transport) (ms : Nat) (h : ∀ p ∈ w.incoming, p.1 ≤ w.now + ms) :
    delay w ms
      = { w with now := w.now + ms, rx := w.rx ++ w.incoming.map Prod.snd, incoming := [] } := by
  have h1 : w.incoming.takeWhile (fun p => decide (p.1 ≤ w.now + ms)) = w.incoming :=
    List.takeWhile_eq_self_iff.mpr (fun p hp => by simpa using h p hp)
  have h2 : w.incoming.dropWhile (fun p => decide (p.1 ≤ w.now + ms)) = [] :=
    List.dropWhile_eq_nil_iff.mpr (fun p hp => by simpa using h p hp)
  unfold delay
  rw [h1, h2]

theorem map_snd_stamp (T : Nat) (l : List Nat) :
    (l.map (fun x => (T, x))).map Prod.snd = l := by
  induction l with
  | nil => rfl
  | cons a l ih => simp

theorem mem_stamp (T : Nat) (l : List Nat) (p : Nat × Nat)
    (hp : p ∈ l.map (fun x => (T, x))) : p.1 = T := by
  obtain ⟨x, _, rfl⟩ := List.mem_map.mp hp
  rfl

/-- The polling loop started `t0` ms after a clock wrap-around would be 30600 ms
away or less, on a silent line on which a terminal frame arrives at the time
`T`, between 30500 and 30600 ms after the start: six attempts time out, the
clock wraps, the seventh loop test still finds `millis() < timeout`, and the
seventh attempt receives the frame. -/
theorem loop_late_terminal (fuel : Nat) (self : FPM383F) (w : Transport)
    (t0 T pw b c : Nat) (hrx : w.rx = [])
    (hin : w.incoming
      = (frame (responseEnvelope pw 0x01 0x18 0 [0xFF, b, c, 100])).map (fun x => (T, x)))
    (ht0 : millis w = t0) (hT1 : w.now + 30500 < T) (hT2 : T ≤ w.now + 30600)
    (h1 : t0 + 30500 < 2 ^ 32) (h2 : 2 ^ 32 ≤ t0 + 30600) :
    autoEnrollLoop (t0 + 30000) (fuel + 7) self w 0
      = .ret (true, { self with lastError := 0 },
          { w with now := w.now + 30600, rx := [], incoming := [] }, 7) := by
  subst ht0
  have hstamp : ∀ p ∈ w.incoming, p.1 = T := fun p hp => mem_stamp T _ p (by rw [← hin]; exact hp)
  rw [show fuel + 7 = (fuel + 2) + (4 + 1) from rfl]
  rw [loop_quiet_steps (millis w + 30000) 4 (fuel + 2) self w 0 hrx
    (fun p hp => by rw [hstamp p hp]; omega) (by omega) (by omega)]
  have hm5 : millis { w with now := w.now + 5100 * (4 + 1) } = millis w + 25500 :=
    millis_add w 25500 (by omega)
  rw [loop_quiet_attempt (millis w + 30000) (fuel + 1) _ { w with now := w.now + 5100 * (4 + 1) }
    (0 + (4 + 1)) (by rw [hm5]; omega) hrx
    (fun p hp => by rw [hstamp p hp]; simp only; omega) (by rw [hm5]; omega)]
  rw [delay_all _ 100 (fun p hp => by rw [hstamp p hp]; simp only; omega)]
  simp only [hrx, hin, map_snd_stamp, List.nil_append]
  have hm7 : (w.now + 5100 * (4 + 1) + 5000 + 100) % 2 ^ 32 = millis w + 30600 - 2 ^ 32 := by
    simp only [millis, Nat.reducePow] at h1 h2 ⊢
    omega
  have hb1 : millis w + 30600 - 2 ^ 32 < millis w + 30000 := by
    simp only [Nat.reducePow] at h1 h2 ⊢
    omega
  have hb2 : millis w + 30600 - 2 ^ 32 + 5000 < 2 ^ 32 := by
    simp only [Nat.reducePow] at h1 h2 ⊢
    omega
  refine (loop_terminal_frame (millis w + 30000) fuel _ _ (0 + (4 + 1) + 1) pw b c []
    ?_ ?_ ?_).trans ?_
  · show (w.now + 5100 * (4 + 1) + 5000 + 100) % 2 ^ 32 < millis w + 30000
    rw [hm7]
    exact hb1
  · apply deadline_ahead
    show (w.now + 5100 * (4 + 1) + 5000 + 100) % 2 ^ 32 + 5000 < 2 ^ 32
    rw [hm7]
    exact hb2
  · simp
  · rfl

/-- C20 at a failing input: `autoEnroll` is called when `millis()` reads
4294936746 (30550 ms before the clock wraps), the line is silent, and a
terminal frame arrives 30600 ms after the call, 600 ms after the 30000 ms outer
deadline. The deadline 4294966746 does not wrap, but the clock does during the
sixth iteration; the seventh loop test compares `50 < 4294966746`, polling goes
on past the deadline and `autoEnroll` returns true on the seventh attempt. -/
theorem autoEnroll_polls_past_deadline :
    autoEnroll 7 ⟨0, 0⟩
        ⟨4294936746, [],
          [0xF1, 0x1F, 0xE2, 0x2E, 0xB6, 0x6B, 0xA8, 0x8A, 0x00, 0x0F, 0x7E, 0, 0, 0, 0, 0x01, 0x18, 0, 0, 0, 0, 0xFF, 0x00, 0x05, 0x64, 0x7F].map
            (fun x => (4294967346, x)), []⟩ 5 3 false
      = .ret (true, ⟨0, 0⟩,
          ⟨4294967346, [], [], [0xF1, 0x1F, 0xE2, 0x2E, 0xB6, 0x6B, 0xA8, 0x8A, 0x00, 0x0B, 0x82, 0, 0, 0, 0, 0x01, 0x18, 0x00, 0x03, 0x00, 0x05, 0xDF]⟩, 7) ∧
    4294936746 + 30000 = 4294966746 ∧ 4294966746 < 2 ^ 32 ∧
    4294936746 + 30600 = 4294967346 ∧ 4294967346 % 2 ^ 32 = 50 := by
  refine ⟨?_, by norm_num, by norm_num, by norm_num, by norm_num⟩
  rw [autoEnroll_eq_loop]
  have hT : (millis (⟨4294936746, [],
      [0xF1, 0x1F, 0xE2, 0x2E, 0xB6, 0x6B, 0xA8, 0x8A, 0x00, 0x0F, 0x7E, 0, 0, 0, 0, 0x01, 0x18, 0, 0, 0, 0, 0xFF, 0x00, 0x05, 0x64, 0x7F].map
        (fun x => (4294967346, x)), []⟩ : Transport) + 30000) % 2 ^ 32
      = 4294936746 + 30000 := by
    norm_num [millis]
  rw [hT]
  rw [loop_late_terminal 0 ⟨0, 0⟩ _ 4294936746 4294967346 0 0x00 0x05 rfl (by decide)
    (by norm_num [millis]) (by norm_num) (by norm_num) (by norm_num) (by norm_num)]
  decide

/-! ## Bytes that arrive while receiveFrame waits -/

theorem settled_delay (w : Transport) (ms : Nat) : Settled (delay w ms) := by
  intro p hp
  have h := List.head?_dropWhile_not (fun p : Nat × Nat => decide (p.1 ≤ w.now + ms)) w.incoming
  have hp' : (w.incoming.dropWhile (fun p : Nat × Nat => decide (p.1 ≤ w.now + ms))).head?
      = some p := hp
  rw [hp'] at h
  simp only [decide_eq_false_iff_not, Nat.not_le] at h
  exact h

theorem settled_read (w : Transport) (h : Settled w) : Settled (read w).2 := by
  unfold read
  split
  · exact h
  · exact h

theorem arrivesBy_delay (w : Transport) (ms k t : Nat) (h : ArrivesBy w k t) :
    ArrivesBy (delay w ms) k t := by
  intro p hp
  apply h p
  have hsplit := List.takeWhile_append_dropWhile
    (fun p : Nat × Nat => decide (p.1 ≤ w.now + ms)) w.incoming
  have hmem : p ∈ List.take (k - w.rx.length)
      (w.incoming.takeWhile (fun p : Nat × Nat => decide (p.1 ≤ w.now + ms)) ++
        w.incoming.dropWhile (fun p : Nat × Nat => decide (p.1 ≤ w.now + ms))) := by
    rw [List.take_append_eq_append_take, List.mem_append]
    right
    simp only [delay, List.length_append, List.length_map] at hp
    rw [Nat.sub_sub]
    exact hp
  rw [hsplit] at hmem
  exact hmem

theorem arrivesBy_read (w : Transport) (k t : Nat) (hav : available w ≠ 0)
    (h : ArrivesBy w (1 + k) t) : ArrivesBy (read w).2 k t := by
  obtain ⟨hl, hi, -⟩ := read_length w hav
  intro p hp
  apply h p
  rw [hi] at hp
  have hk : 1 + k - w.rx.length = k - (read w).2.rx.length := by omega
  rw [hk]
  exact hp

theorem arrivesBy_of_delay (w : Transport) (ms k t : Nat) (ht : w.now + ms ≤ t)
    (h : ArrivesBy (delay w ms) k t) : ArrivesBy w k t := by
  intro p hp
  have hsplit := List.takeWhile_append_dropWhile
    (fun p : Nat × Nat => decide (p.1 ≤ w.now + ms)) w.incoming
  rw [← hsplit, List.take_append_eq_append_take, List.mem_append] at hp
  rcases hp with hp | hp
  · have h1 := List.mem_takeWhile_imp (List.mem_of_mem_take hp)
    simp only [decide_eq_true_eq] at h1
    omega
  · apply h p
    simp only [delay, List.length_append, List.length_map]
    rw [Nat.sub_sub] at hp
    exact hp

theorem arrivesBy_of_read (w : Transport) (k t : Nat) (hav : available w ≠ 0)
    (h : ArrivesBy (read w).2 k t) : ArrivesBy w (1 + k) t := by
  obtain ⟨hl, hi, -⟩ := read_length w hav
  intro p hp
  apply h p
  rw [hi]
  have hk : 1 + k - w.rx.length = k - (read w).2.rx.length := by omega
  rw [← hk]
  exact hp

theorem arrivesBy_le (w : Transport) (k j t u : Nat) (hk : j ≤ k) (ht : t ≤ u)
    (h : ArrivesBy w k t) : ArrivesBy w j u := by
  intro p hp
  exact Nat.le_trans
    (h p (List.take_subset_take_left w.incoming (Nat.sub_le_sub_right hk w.rx.length) hp)) ht

/-- A loop that lacks a byte which is due by `t` has not reached `t` yet. -/
theorem now_lt_of_lacking (w : Transport) (n t : Nat) (hS : Settled w) (harr : ArrivesBy w n t)
    (hav : available w < n) (hlen : n ≤ (stream w).length) : w.now < t := by
  unfold available at hav
  simp only [stream, List.length_append, List.length_map] at hlen
  cases hin : w.incoming with
  | nil =>
    rw [hin] at hlen
    simp only [List.length_nil] at hlen
    omega
  | cons p rest =>
    have h1 : p.1 ≤ t := by
      apply harr p
      rw [hin]
      obtain ⟨j, hj⟩ : ∃ j, n - w.rx.length = j + 1 := ⟨n - w.rx.length - 1, by omega⟩
      rw [hj]
      simp
    have h2 : w.now < p.1 := by
      apply hS p
      rw [hin]
      simp
    omega

theorem follows_refl (w : Transport) (t : Nat) (hS : Settled w) (ht : w.now ≤ t) :
    Follows w w 0 t :=
  ⟨Nat.zero_le _, rfl, rfl, hS, Nat.le_refl _, ht, fun m B h => by simpa using h,
    fun m B _ h => by simpa using h⟩

theorem follows_trans (w r s : Transport) (c e t : Nat) (h1 : Follows w r c t)
    (h2 : Follows r s e t) : Follows w s (c + e) t := by
  obtain ⟨a1, a2, a3, a4, a5, a6, a7, a8⟩ := h1
  obtain ⟨b1, b2, b3, b4, b5, b6, b7, b8⟩ := h2
  refine ⟨?_, ?_, by rw [b3, a3], b4, by omega, b6, ?_, ?_⟩
  · rw [a2, List.length_drop] at b1
    omega
  · rw [b2, a2, List.drop_drop]
  · intro m B h
    apply b7
    apply a7
    rw [← Nat.add_assoc]
    exact h
  · intro m B hB h
    rw [Nat.add_assoc]
    exact a8 _ B (by omega) (b8 m B hB h)

theorem follows_delay (w : Transport) (ms t : Nat) (ht : w.now + ms ≤ t) :
    Follows w (delay w ms) 0 t :=
  ⟨Nat.zero_le _, by rw [stream_delay]; rfl, rfl, settled_delay w ms, Nat.le_add_right _ _, ht,
    fun m B h => arrivesBy_delay w ms m B (by simpa using h),
    fun m B hB h => by simpa using arrivesBy_of_delay w ms m B hB h⟩

theorem follows_read (w : Transport) (t : Nat) (hS : Settled w) (ht : w.now ≤ t)
    (hav : available w ≠ 0) : Follows w (read w).2 1 t := by
  obtain ⟨hl, hi, hn⟩ := read_length w hav
  have hs := stream_read w hav
  refine ⟨?_, ?_, read_tx w, settled_read w hS, by omega, by omega, ?_, ?_⟩
  · rw [hs]
    simp
  · rw [hs]
    rfl
  · intro m B h
    exact arrivesBy_read w m B hav h
  · intro m B _ h
    exact arrivesBy_of_read w m B hav h

/-- The clock of a port that follows another one within a stretch free of wrap-around. -/
theorem millis_follows (w r : Transport) (c t timeout : Nat) (h : Follows w r c t)
    (hm : millis w + (t - w.now) < timeout) :
    millis r + (t - r.now) < timeout := by
  obtain ⟨-, -, -, -, h1, h2, -, -⟩ := h
  simp only [millis, Nat.reducePow] at hm ⊢
  omega

/-- The marker loop, with what it consumes and how long it takes: it reads a
front part `c` of the stream, and as long as the bytes it still needs are due
by `t` it does not wait beyond `t`. -/
theorem headerLoop_timed (timeout : Nat) :
    ∀ (fuel : Nat) (w : Transport) (k : Nat) (r : Transport × Nat),
      headerLoop timeout fuel w k = .ret r → Settled w →
      ∃ c, stream w = c ++ stream r.1 ∧ r.2 = c.foldl syncNext k ∧
        (∀ i, i < c.length → (c.take i).foldl syncNext k < 8) ∧
        ¬ (millis r.1 < timeout ∧ r.2 < 8) ∧
        r.1.tx = w.tx ∧ Settled r.1 ∧ w.now ≤ r.1.now ∧
        (∀ m B, ArrivesBy w (c.length + m) B → ArrivesBy r.1 m B) ∧
        (∀ m B, r.1.now ≤ B → ArrivesBy r.1 m B → ArrivesBy w (c.length + m) B) ∧
        (∀ n t, w.now ≤ t → ArrivesBy w n t → n ≤ (stream w).length →
          (c.length < n ∨ (c.length = n ∧ r.2 = 8)) → r.1.now ≤ t) := by
  intro fuel
  induction fuel with
  | zero =>
    intro w k r h
    simp [headerLoop] at h
  | succ fuel ih =>
    intro w k r h hS
    rw [headerLoop] at h
    split at h
    · rename_i hc
      split at h
      · rename_i hav
        have hnext : headerLoop timeout fuel (read w).2 (syncNext k (read w).1) = .ret r := by
          simp only at h
          unfold syncNext
          split at h
          · rename_i hb
            rw [if_pos hb]
            exact h
          · rename_i hb
            rw [if_neg hb]
            exact h
        obtain ⟨c, hs, hk, hlt, hex, htx, hS1, hnow, harr, hback, htime⟩ :=
          ih _ _ _ hnext (settled_read w hS)
        obtain ⟨hl, hi, hn⟩ := read_length w hav
        have hsr := stream_read w hav
        refine ⟨(read w).1 :: c, ?_, ?_, ?_, hex, ?_, hS1, ?_, ?_, ?_, ?_⟩
        · rw [hsr, hs]
          rfl
        · rw [hk]
          rfl
        · intro i hi
          cases i with
          | zero => exact hc.2
          | succ i =>
            simp only [List.take_succ_cons, List.foldl_cons]
            exact hlt i (by simpa using hi)
        · rw [htx, read_tx]
        · omega
        · intro m B h
          apply harr
          apply arrivesBy_read w _ B hav
          have he : ((read w).1 :: c).length + m = 1 + (c.length + m) := by
            simp only [List.length_cons]
            omega
          rw [← he]
          exact h
        · intro m B hB h
          have he : ((read w).1 :: c).length + m = 1 + (c.length + m) := by
            simp only [List.length_cons]
            omega
          rw [he]
          exact arrivesBy_of_read w _ B hav (hback m B hB h)
        · intro n t ht hA hlen hcase
          simp only [List.length_cons] at hcase
          obtain ⟨j, rfl⟩ : ∃ j, n = 1 + j := ⟨n - 1, by omega⟩
          apply htime j t (by omega) (arrivesBy_read w j t hav hA)
          · rw [hsr] at hlen
            simp only [List.length_cons] at hlen
            omega
          · omega
      · rename_i hav
        obtain ⟨c, hs, hk, hlt, hex, htx, hS1, hnow, harr, hback, htime⟩ :=
          ih _ _ _ h (settled_delay w 1)
        refine ⟨c, ?_, hk, hlt, hex, htx, hS1, ?_, ?_, ?_, ?_⟩
        · rw [← stream_delay w 1]
          exact hs
        · have := delay_now w 1
          omega
        · intro m B h
          exact harr m B (arrivesBy_delay w 1 _ B h)
        · intro m B hB h
          have := delay_now w 1
          exact arrivesBy_of_delay w 1 _ B (by omega) (hback m B hB h)
        · intro n t ht hA hlen hcase
          have hn1 : 0 < n := by
            rcases hcase with h1 | ⟨h1, h2⟩
            · omega
            · rcases Nat.eq_zero_or_pos n with h0 | h0
              · exfalso
                have hc0 : c = [] := List.length_eq_zero.mp (by omega)
                rw [hc0] at hk
                simp only [List.foldl_nil] at hk
                have := hc.2
                omega
              · exact h0
          have hlt2 : w.now < t := now_lt_of_lacking w n t hS hA (by omega) hlen
          apply htime n t (by rw [delay_now]; omega) (arrivesBy_delay w 1 n t hA)
          · rw [stream_delay]
            exact hlen
          · exact hcase
    · rename_i hc
      cases h
      refine ⟨[], rfl, rfl, fun i hi => by simp at hi, hc, rfl, hS, Nat.le_refl _, ?_, ?_, ?_⟩
      · intro m B h
        simpa using h
      · intro m B _ h
        simpa using h
      · intro n t ht _ _ _
        exact ht

/-- A wait loop, with how long it takes: it reads nothing, and as long as the
bytes it waits for are due by `t` it does not wait beyond `t`. -/
theorem waitAvailable_timed (timeout n : Nat) :
    ∀ (fuel : Nat) (w r : Transport), waitAvailable timeout n fuel w = .ret r → Settled w →
      stream r = stream w ∧ (n ≤ available r ∨ ¬ millis r < timeout) ∧
        r.tx = w.tx ∧ Settled r ∧ w.now ≤ r.now ∧
        (∀ m B, ArrivesBy w m B → ArrivesBy r m B) ∧
        (∀ m B, r.now ≤ B → ArrivesBy r m B → ArrivesBy w m B) ∧
        (∀ t, w.now ≤ t → ArrivesBy w n t → n ≤ (stream w).length → r.now ≤ t) := by
  intro fuel
  induction fuel with
  | zero =>
    intro w r h
    simp [waitAvailable] at h
  | succ fuel ih =>
    intro w r h hS
    rw [waitAvailable] at h
    split at h
    · rename_i hc
      obtain ⟨hs, hx, htx, hS1, hnow, harr, hback, htime⟩ := ih _ _ h (settled_delay w 1)
      refine ⟨by rw [hs, stream_delay], hx, htx, hS1, ?_, ?_, ?_, ?_⟩
      · have := delay_now w 1
        omega
      · intro m B h
        exact harr m B (arrivesBy_delay w 1 m B h)
      · intro m B hB h
        have := delay_now w 1
        exact arrivesBy_of_delay w 1 m B (by omega) (hback m B hB h)
      · intro t ht hA hlen
        have hlt2 : w.now < t := now_lt_of_lacking w n t hS hA hc.2 hlen
        exact htime t (by rw [delay_now]; omega) (arrivesBy_delay w 1 n t hA)
          (by rw [stream_delay]; exact hlen)
    · rename_i hc
      cases h
      refine ⟨rfl, ?_, rfl, hS, Nat.le_refl _, fun m B h => h, fun m B _ h => h,
        fun t ht _ _ => ht⟩
      by_cases hm : millis w < timeout
      · left
        have : ¬ available w < n := fun ha => hc ⟨hm, ha⟩
        omega
      · right
        exact hm

/-- One wait stage of `receiveFrame` for `n` bytes that are due by `t`, with
`t` before the deadline: the stage ends by `t` with the bytes available. -/
theorem waitAvailable_arrives (timeout n t c : Nat) (htm : timeout < 2 ^ 32)
    (w0 w : Transport) (hF : Follows w0 w c t) (harr : ArrivesBy w0 (c + n) t)
    (hlen : c + n ≤ (stream w0).length) (hm : millis w0 + (t - w0.now) < timeout) :
    ∃ r, waitAvailable timeout n (waitFuel timeout w) w = .ret r ∧ n ≤ available r ∧
      Follows w0 r c t := by
  obtain ⟨r, hr⟩ := waitAvailable_total timeout n htm (waitFuel timeout w) w
    (by unfold waitFuel; omega)
  have hmw := millis_follows w0 w c t timeout hF hm
  obtain ⟨f1, f2, f3, f4, f5, f6, f7, f8⟩ := hF
  obtain ⟨hs, hx, htx, hS1, hnow, harr1, hback, htime⟩ :=
    waitAvailable_timed timeout n _ w r hr f4
  have hrt : r.now ≤ t := htime t f6 (f7 n t harr) (by rw [f2, List.length_drop]; omega)
  have hFr : Follows w0 r c t :=
    ⟨f1, by rw [hs, f2], by rw [htx, f3], hS1, by omega, hrt,
      fun m B h => harr1 m B (f7 m B h), fun m B hB h => f8 m B (by omega) (hback m B hB h)⟩
  refine ⟨r, hr, ?_, hFr⟩
  have hmr := millis_follows w0 r c t timeout hFr hm
  rcases hx with hx | hx
  · exact hx
  · omega

/-- The marker loop on a stream that starts with noise `N` and the marker, all
due by `t` before the deadline: the loop ends by `t` right after the marker. -/
theorem headerLoop_arrives (timeout t : Nat) (htm : timeout < 2 ^ 32) (fuel : Nat)
    (w : Transport) (N tail : List Nat) (hS : Settled w) (ht : w.now ≤ t)
    (hm : millis w + (t - w.now) < timeout) (hiso : MarkerOnlyAtEnd N)
    (hs : stream w = N ++ marker ++ tail) (harr : ArrivesBy w (N.length + 8) t)
    (hfuel : w.rx.length + w.incoming.length + (timeout - millis w) < fuel) :
    ∃ r, headerLoop timeout fuel w 0 = .ret (r, 8) ∧ Follows w r (N.length + 8) t ∧
      stream r = tail := by
  obtain ⟨p, hp⟩ := headerLoop_total timeout htm fuel w 0 hfuel
  obtain ⟨c, hc, hk, hlt, hex, htx, hS1, hnow, harr1, hback, htime⟩ :=
    headerLoop_timed timeout fuel w 0 p hp hS
  have hMlen : (N ++ marker).length = N.length + 8 := by simp [marker]
  have hlen : N.length + 8 ≤ (stream w).length := by
    rw [hs]
    simp only [List.length_append, marker, List.length_cons, List.length_nil]
    omega
  have hstates := states_before_end N hiso
  have hfin : (N ++ marker).foldl syncNext 0 = 8 := by
    have hN : N.foldl syncNext 0 < 8 := by
      have h := (hstates N.length (by simp [marker])).1
      simpa using h
    rw [List.foldl_append]
    exact (marker_from_any_state _ hN).1
  have hcM : c = N ++ marker := by
    rcases Nat.lt_trichotomy c.length (N.length + 8) with h | h | h
    · exfalso
      have hpre : c = (N ++ marker).take c.length := by
        have h1 : c = (stream w).take c.length := by
          rw [hc]
          simp
        rw [hs, List.append_assoc N marker tail, ← List.append_assoc N marker tail,
          List.take_append_of_le_length (by omega)] at h1
        exact h1
      have hk8 : p.2 < 8 := by
        rw [hk, hpre]
        exact (hstates c.length (by omega)).1
      have hpt : p.1.now ≤ t := htime (N.length + 8) t ht harr hlen (Or.inl h)
      have hmil : millis p.1 < timeout := by
        simp only [millis, Nat.reducePow] at hm ⊢
        omega
      exact hex ⟨hmil, hk8⟩
    · have h1 : c = (stream w).take c.length := by
        rw [hc]
        simp
      rw [hs, List.take_append_of_le_length (by omega), h, ← hMlen, List.take_length] at h1
      exact h1
    · exfalso
      have hpre : c.take (N.length + 8) = N ++ marker := by
        have h1 : c.take (N.length + 8) = (stream w).take (N.length + 8) := by
          rw [hc, List.take_append_of_le_length (by omega)]
        rw [h1, hs, List.take_append_of_le_length (by omega), ← hMlen, List.take_length]
      have := hlt (N.length + 8) h
      rw [hpre, hfin] at this
      omega
  have hclen : c.length = N.length + 8 := by rw [hcM, hMlen]
  have hp8 : p.2 = 8 := by rw [hk, hcM, hfin]
  have hst : stream p.1 = tail := by
    have := hc
    rw [hs, hcM] at this
    exact (List.append_cancel_left this).symm
  refine ⟨p.1, ?_, ⟨hlen, ?_, htx, hS1, hnow, ?_, ?_, ?_⟩, hst⟩
  · rw [hp, ← hp8]
  · rw [hst, hs, ← hMlen, List.drop_left]
  · exact htime (N.length + 8) t ht harr hlen (Or.inr ⟨hclen, hp8⟩)
  · intro m B h
    exact harr1 m B (by rw [hclen]; exact h)
  · intro m B hB h
    rw [← hclen]
    exact hback m B hB h

/-- Taking the first bytes of the receive buffer out of it. -/
theorem follows_consume (w : Transport) (a b : List Nat) (t : Nat) (hrx : w.rx = a ++ b)
    (hS : Settled w) (ht : w.now ≤ t) : Follows w { w with rx := b } a.length t := by
  have he : ∀ m, a.length + m - w.rx.length = m - b.length := by
    intro m
    rw [hrx, List.length_append]
    omega
  refine ⟨?_, ?_, rfl, hS, Nat.le_refl _, ht, ?_, ?_⟩
  · simp [stream, hrx]
  · simp [stream, hrx]
  · intro m B h p hp
    apply h p
    rw [he]
    exact hp
  · intro m B _ h p hp
    apply h p
    rw [he] at hp
    exact hp

theorem stream_of_follows (w0 w r : Transport) (c e t : Nat) (l x : List Nat)
    (hF : Follows w0 w c t) (hs : stream w = l ++ x) (hl : l.length = e)
    (hFr : Follows w0 r (c + e) t) : stream r = x := by
  rw [hFr.2.1, ← List.drop_drop, ← hF.2.1, hs, ← hl, List.drop_left]

/-- The stages of `receiveFrame` after the marker on a stream that goes on
with length, matching frame checksum and envelope, all due by `t` before the
deadline: the envelope is handed to `parseEnvelope` by `t`. -/
theorem afterHeader_arrives (timeout t c : Nat) (htm : timeout < 2 ^ 32) (self : FPM383F)
    (w0 w : Transport) (out : Outputs) (maxDataLen : Nat) (env rest : List Nat)
    (hL : env.length < 65536) (hF : Follows w0 w c t)
    (hs : stream w = (env.length / 256 % 256) :: (env.length % 256) ::
      calculateFrameChecksum env.length :: (env ++ rest))
    (harr : ArrivesBy w0 (c + (3 + env.length)) t)
    (hm : millis w0 + (t - w0.now) < timeout) :
    ∃ r, afterHeader timeout self w out maxDataLen
        = parseEnvelope self r out maxDataLen env.length env ∧
      Follows w0 r (c + (3 + env.length)) t ∧ stream r = rest := by
  have hlen : c + (3 + env.length) ≤ (stream w0).length := by
    have h1 := congrArg List.length hF.2.1
    rw [hs, List.length_drop] at h1
    simp only [List.length_cons, List.length_append] at h1
    have := hF.1
    omega
  unfold afterHeader
  -- length
  obtain ⟨w1, hw1, hav1, hF1⟩ := waitAvailable_arrives timeout 2 t c htm w0 w hF
    (arrivesBy_le w0 _ _ t t (by omega) (Nat.le_refl _) harr) (by omega) hm
  have hs1 : stream w1 = (env.length / 256 % 256) :: (env.length % 256) ::
      calculateFrameChecksum env.length :: (env ++ rest) := by
    rw [hF1.2.1, ← hF.2.1, hs]
  rw [hw1]
  simp only [Exec.bind]
  rw [if_neg (by omega)]
  obtain ⟨hb1, hs2⟩ := read_of_stream w1 _ _ hs1 (by omega)
  have hF1a : Follows w0 (read w1).2 (c + 1) t :=
    follows_trans w0 w1 _ c 1 t hF1
      (follows_read w1 t hF1.2.2.2.1 hF1.2.2.2.2.2.1 (by omega))
  have hav2 : ¬ available (read w1).2 < 1 := by
    have := (read_length w1 (by omega)).1
    unfold available at hav1 ⊢
    omega
  obtain ⟨hb2, hs3⟩ := read_of_stream (read w1).2 _ _ hs2 hav2
  have hF1b : Follows w0 (read (read w1).2).2 (c + 1 + 1) t :=
    follows_trans w0 (read w1).2 _ (c + 1) 1 t hF1a
      (follows_read (read w1).2 t hF1a.2.2.2.1 hF1a.2.2.2.2.2.1 (by omega))
  rw [hb1, hb2, decode_bigEndian16 env.length hL]
  -- frame checksum
  obtain ⟨w2, hw2, hav3, hF2⟩ := waitAvailable_arrives timeout 1 t (c + 1 + 1) htm w0
    (read (read w1).2).2 hF1b
    (arrivesBy_le w0 _ _ t t (by omega) (Nat.le_refl _) harr) (by omega) hm
  have hs4 : stream w2 = calculateFrameChecksum env.length :: (env ++ rest) := by
    rw [hF2.2.1, ← hF1b.2.1, hs3]
  rw [hw2]
  simp only
  rw [if_neg (by omega)]
  obtain ⟨hb3, hs5⟩ := read_of_stream w2 _ _ hs4 (by omega)
  have hF2a : Follows w0 (read w2).2 (c + 1 + 1 + 1) t :=
    follows_trans w0 w2 _ (c + 1 + 1) 1 t hF2
      (follows_read w2 t hF2.2.2.2.1 hF2.2.2.2.2.2.1 (by omega))
  rw [hb3, if_neg (by simp)]
  -- envelope
  obtain ⟨w3, hw3, hav4, hF3⟩ := waitAvailable_arrives timeout env.length t (c + 1 + 1 + 1) htm
    w0 (read w2).2 hF2a
    (arrivesBy_le w0 _ _ t t (by omega) (Nat.le_refl _) harr) (by omega) hm
  have hs6 : stream w3 = env ++ rest := by
    rw [hF3.2.1, ← hF2a.2.1, hs5]
  rw [hw3]
  simp only
  rw [if_neg (by omega)]
  have hrx3 : w3.rx = env ++ rest.take (available w3 - env.length) := by
    rw [rx_eq_take_stream w3, hs6, List.take_append_eq_append_take,
      List.take_of_length_le hav4]
  rw [readBytes_append env w3 _ hrx3]
  have hF4 : Follows w0 { w3 with rx := rest.take (available w3 - env.length) }
      (c + 1 + 1 + 1 + env.length) t :=
    follows_trans w0 w3 _ (c + 1 + 1 + 1) env.length t hF3
      (follows_consume w3 env _ t hrx3 hF3.2.2.2.1 hF3.2.2.2.2.2.1)
  have he : c + 1 + 1 + 1 + env.length = c + (3 + env.length) := by omega
  rw [he] at hF4
  refine ⟨_, rfl, hF4, ?_⟩
  exact stream_of_follows w0 w _ c (3 + env.length) t
    ((env.length / 256 % 256) :: (env.length % 256) :: calculateFrameChecksum env.length :: env)
    rest hF (by rw [hs]; simp) (by simp only [List.length_cons]; omega) hF4

/-- A frame with envelope `env`, possibly after noise `N`, that arrives while
`receiveFrame` waits: with the noise and the frame due by `t`, less than
5000 ms after the call, the envelope is handed to `parseEnvelope` by `t` and
exactly the noise and the frame are consumed. -/
theorem receiveFrame_frame_arrives (self : FPM383F) (w : Transport) (out : Outputs)
    (maxDataLen t : Nat) (N env rest : List Nat) (hS : Settled w)
    (hclock : millis w + 5000 < 2 ^ 32) (ht : w.now ≤ t) (ht5 : t < w.now + 5000)
    (hiso : MarkerOnlyAtEnd N) (hL : env.length < 65536)
    (hs : stream w = N ++ frame env ++ rest)
    (harr : ArrivesBy w (N.length + (frame env).length) t) :
    ∃ r, receiveFrame self w out maxDataLen
        = parseEnvelope self r out maxDataLen env.length env ∧
      Follows w r (N.length + (frame env).length) t ∧ stream r = rest := by
  have hflen : (frame env).length = 8 + (3 + env.length) := by
    simp only [frame, marker, bigEndian16, List.length_append, List.length_cons,
      List.length_nil]
    omega
  have hd : deadline w = millis w + 5000 := Nat.mod_eq_of_lt hclock
  have hm : millis w + (t - w.now) < deadline w := by
    rw [hd]
    omega
  rw [hflen, ← Nat.add_assoc] at harr ⊢
  obtain ⟨p, hp, hFp, hsp⟩ := headerLoop_arrives (deadline w) t (deadline_lt w)
    (w.rx.length + w.incoming.length + waitFuel (deadline w) w) w N
    ((env.length / 256 % 256) :: (env.length % 256) :: calculateFrameChecksum env.length ::
      (env ++ rest))
    hS ht hm hiso (by rw [hs]; simp [frame, bigEndian16])
    (arrivesBy_le w _ _ t t (by omega) (Nat.le_refl _) harr) (by unfold waitFuel; omega)
  obtain ⟨r, hr, hFr, hsr⟩ := afterHeader_arrives (deadline w) t (N.length + 8) (deadline_lt w)
    self w p out maxDataLen env rest hL hFp hsp harr hm
  refine ⟨r, ?_, hFr, hsr⟩
  unfold receiveFrame
  simp only [hp, Exec.bind]
  rw [if_neg (by omega)]
  exact hr

/-- A valid response frame, possibly after noise `N`, that arrives while
`receiveFrame` waits is decoded by the time its last byte is due. -/
theorem receiveFrame_response_arrives (self : FPM383F) (w : Transport) (out : Outputs)
    (maxDataLen t : Nat) (N rest : List Nat) (pw c1 c2 ec : Nat) (d : List Nat)
    (hS : Settled w) (hclock : millis w + 5000 < 2 ^ 32) (ht : w.now ≤ t)
    (ht5 : t < w.now + 5000) (hiso : MarkerOnlyAtEnd N) (hec : ec < 2 ^ 32)
    (hlen : 11 + d.length < 65536)
    (hs : stream w = N ++ frame (responseEnvelope pw c1 c2 ec d) ++ rest)
    (harr : ArrivesBy w (N.length + (frame (responseEnvelope pw c1 c2 ec d)).length) t)
    (hroom : Room out (min d.length maxDataLen)) :
    ∃ r, receiveFrame self w out maxDataLen
        = .ret { value := true
                 self := { self with lastError := ec }
                 serial := r
                 out := deliver out maxDataLen c1 c2 ec d } ∧
      Follows w r (N.length + (frame (responseEnvelope pw c1 c2 ec d)).length) t ∧
      stream r = rest := by
  obtain ⟨r, hr, hF, hsr⟩ := receiveFrame_frame_arrives self w out maxDataLen t N _ rest hS
    hclock ht ht5 hiso (by rw [responseEnvelope_length]; exact hlen) hs harr
  refine ⟨r, ?_, hF, hsr⟩
  rw [hr]
  have h := parseEnvelope_ok self r out maxDataLen
    (pw / 16777216 % 256) (pw / 65536 % 256) (pw / 256 % 256) (pw % 256) c1 c2
    (ec / 16777216 % 256) (ec / 65536 % 256) (ec / 256 % 256) (ec % 256) d
    (Nat.mod_lt _ (by decide)) (Nat.mod_lt _ (by decide)) (Nat.mod_lt _ (by decide))
    (Nat.mod_lt _ (by decide)) hlen hroom
  rw [fromBigEndian32_bigEndian32 ec hec] at h
  exact h

theorem receiveResponse_response_arrives (self : FPM383F) (w : Transport) (out : Outputs)
    (maxDataLen t : Nat) (N rest : List Nat) (pw c1 c2 ec : Nat) (d : List Nat)
    (hS : Settled w) (hclock : millis w + 5000 < 2 ^ 32) (ht : w.now ≤ t)
    (ht5 : t < w.now + 5000) (hiso : MarkerOnlyAtEnd N) (hec : ec < 2 ^ 32)
    (hlen : 11 + d.length < 65536)
    (hs : stream w = N ++ frame (responseEnvelope pw c1 c2 ec d) ++ rest)
    (harr : ArrivesBy w (N.length + (frame (responseEnvelope pw c1 c2 ec d)).length) t)
    (hroom : Room out (min d.length maxDataLen)) :
    ∃ r, receiveResponse self w c1 c2 out maxDataLen
        = .ret { value := true
                 self := { self with lastError := ec }
                 serial := r
                 out := deliver out maxDataLen c1 c2 ec d } ∧
      Follows w r (N.length + (frame (responseEnvelope pw c1 c2 ec d)).length) t ∧
      stream r = rest := by
  obtain ⟨r, hr, hF, hsr⟩ := receiveFrame_response_arrives self w out maxDataLen t N rest pw c1
    c2 ec d hS hclock ht ht5 hiso hec hlen hs harr hroom
  exact ⟨r, receiveResponse_of_receiveFrame self w c1 c2 out maxDataLen _ hr rfl
    (deliver_cmd _ _ _ _ _ _).1 (deliver_cmd _ _ _ _ _ _).2.1, hF, hsr⟩

theorem follows_bound (w r : Transport) (c t u : Nat) (h : Follows w r c t) (hu : r.now ≤ u) :
    Follows w r c u :=
  ⟨h.1, h.2.1, h.2.2.1, h.2.2.2.1, h.2.2.2.2.1, hu, h.2.2.2.2.2.2⟩

theorem follows_then_delay (w r : Transport) (c t ms : Nat) (h : Follows w r c t) :
    Follows w (delay r ms) c (t + ms) :=
  follows_trans w r (delay r ms) c 0 (t + ms)
    (follows_bound w r c t (t + ms) h (Nat.le_trans h.2.2.2.2.2.1 (Nat.le_add_right _ _)))
    (follows_delay r ms (t + ms) (Nat.add_le_add_right h.2.2.2.2.2.1 ms))

theorem arrivesBy_min (w : Transport) (k t u : Nat) (h1 : ArrivesBy w k t)
    (h2 : ArrivesBy w k u) : ArrivesBy w k (min t u) := by
  rcases Nat.le_total t u with h | h
  · rw [Nat.min_eq_left h]
    exact h1
  · rw [Nat.min_eq_right h]
    exact h2

theorem arrivesBy_zero (w : Transport) (t : Nat) : ArrivesBy w 0 t := by
  intro p hp
  simp at hp

/-- The consumed bytes of a stretch had arrived when it ended. -/
theorem arrived_of_follows (w r : Transport) (c t : Nat) (h : Follows w r c t) :
    ArrivesBy w c r.now :=
  h.2.2.2.2.2.2.2 0 r.now (Nat.le_refl _) (arrivesBy_zero r r.now)

theorem frame_responseEnvelope_length (pw c1 c2 ec : Nat) (d : List Nat) :
    (frame (responseEnvelope pw c1 c2 ec d)).length = 22 + d.length := by
  simp only [frame, marker, bigEndian16, List.length_append, List.length_cons, List.length_nil,
    responseEnvelope_length]
  omega

theorem millis_shift (w x : Transport) (h1 : w.now ≤ x.now)
    (h2 : millis w + (x.now - w.now) < 2 ^ 32) : millis x = millis w + (x.now - w.now) := by
  simp only [millis, Nat.reducePow] at h2 ⊢
  omega

/-- A call of `receiveResponse` later in an exchange that began at the port
`w0`: the next frame of the stream, due by `t`, less than 5000 ms after the
call, is decoded, and the port then follows `w0` by that frame more. -/
theorem receiveResponse_follows (self : FPM383F) (w0 w : Transport) (out : Outputs)
    (maxDataLen c U t : Nat) (rest : List Nat) (pw c1 c2 ec : Nat) (d : List Nat)
    (hF : Follows w0 w c U) (hclock : millis w + 5000 < 2 ^ 32) (ht5 : t < w.now + 5000)
    (hec : ec < 2 ^ 32) (hlen : 11 + d.length < 65536)
    (hs : stream w = frame (responseEnvelope pw c1 c2 ec d) ++ rest)
    (harr : ArrivesBy w0 (c + (22 + d.length)) t)
    (hroom : Room out (min d.length maxDataLen)) :
    ∃ r, receiveResponse self w c1 c2 out maxDataLen
        = .ret { value := true
                 self := { self with lastError := ec }
                 serial := r
                 out := deliver out maxDataLen c1 c2 ec d } ∧
      Follows w0 r (c + (22 + d.length)) (max t w.now) ∧ stream r = rest ∧ w.now ≤ r.now := by
  have hA : ArrivesBy w (([] : List Nat).length +
      (frame (responseEnvelope pw c1 c2 ec d)).length) (max t w.now) := by
    rw [frame_responseEnvelope_length, List.length_nil, Nat.zero_add]
    exact hF.2.2.2.2.2.2.1 _ _
      (arrivesBy_le w0 _ _ t (max t w.now) (Nat.le_refl _) (Nat.le_max_left _ _) harr)
  obtain ⟨r, hr, hFr, hsr⟩ := receiveResponse_response_arrives self w out maxDataLen
    (max t w.now) [] rest pw c1 c2 ec d hF.2.2.2.1 hclock (Nat.le_max_right _ _) (by omega)
    markerOnlyAtEnd_nil hec hlen (by rw [List.nil_append]; exact hs) hA hroom
  rw [frame_responseEnvelope_length, List.length_nil, Nat.zero_add] at hFr
  exact ⟨r, hr, follows_trans w0 w r c _ _
    (follows_bound w0 w c U _ hF (Nat.le_max_right _ _)) hFr, hsr, hFr.2.2.2.2.1⟩

/-- One polling iteration later in an exchange that began at the port `w0`, on
a non-terminal frame due by `t`: the loop waits 100 ms and goes on. -/
theorem loop_progress_follows (timeout fuel : Nat) (self : FPM383F) (w0 w : Transport)
    (n c U t pw a b g e : Nat) (rest : List Nat)
    (hF : Follows w0 w c U) (hto : millis w < timeout) (hclock : millis w + 5000 < 2 ^ 32)
    (ht5 : t < w.now + 5000) (hnt : a ≠ 0xFF)
    (hs : stream w = frame (responseEnvelope pw 0x01 0x18 0 [a, b, g, e]) ++ rest)
    (harr : ArrivesBy w0 (c + 26) t) :
    ∃ r, autoEnrollLoop timeout (fuel + 1) self w n
        = autoEnrollLoop timeout fuel { self with lastError := 0 } (delay r 100) (n + 1) ∧
      Follows w0 r (c + 26) (max t w.now) ∧ stream r = rest ∧ w.now ≤ r.now := by
  obtain ⟨r, hr, hFr, hsr, hwr⟩ := receiveResponse_follows self w0 w responseBuffer 4 c U t rest
    pw 0x01 0x18 0 [a, b, g, e] hF hclock ht5 (by norm_num) (by simp) hs harr
    (room_responseBuffer _ (Nat.min_le_right _ _))
  rw [deliver_responseBuffer] at hr
  refine ⟨r, ?_, hFr, hsr, hwr⟩
  rw [loop_progress timeout fuel self w n _ hto hr rfl rfl]
  simp only [Option.getD_some, List.getD_cons_zero, List.getD_cons_succ, ge_iff_le, le_refl,
    true_and]
  exact fun h => hnt h.1

/-- One polling iteration later in an exchange that began at the port `w0`, on
a terminal frame due by `t`: `autoEnroll` returns true. -/
theorem loop_terminal_follows (timeout fuel : Nat) (self : FPM383F) (w0 w : Transport)
    (n c U t pw b g : Nat) (rest : List Nat)
    (hF : Follows w0 w c U) (hto : millis w < timeout) (hclock : millis w + 5000 < 2 ^ 32)
    (ht5 : t < w.now + 5000)
    (hs : stream w = frame (responseEnvelope pw 0x01 0x18 0 [0xFF, b, g, 100]) ++ rest)
    (harr : ArrivesBy w0 (c + 26) t) :
    ∃ r, autoEnrollLoop timeout (fuel + 1) self w n
        = .ret (true, { self with lastError := 0 }, r, n + 1) ∧
      Follows w0 r (c + 26) (max t w.now) ∧ stream r = rest ∧ w.now ≤ r.now := by
  obtain ⟨r, hr, hFr, hsr, hwr⟩ := receiveResponse_follows self w0 w responseBuffer 4 c U t rest
    pw 0x01 0x18 0 [0xFF, b, g, 100] hF hclock ht5 (by norm_num) (by simp) hs harr
    (room_responseBuffer _ (Nat.min_le_right _ _))
  rw [deliver_responseBuffer] at hr
  refine ⟨r, ?_, hFr, hsr, hwr⟩
  rw [loop_terminal timeout fuel self w n _ hto hr rfl rfl]
  simp

/-- Three non-terminal frames, each complete less than 5100 ms after the one
before it (the first less than 5000 ms after the start) and all complete by
`T`: after three iterations the polling loop has consumed them and goes on. -/
theorem loop_three_progress_arrive (timeout fuel : Nat) (self : FPM383F) (w : Transport)
    (pw1 a1 b1 g1 e1 pw2 a2 b2 g2 e2 pw3 a3 b3 g3 e3 T : Nat) (tail : List Nat)
    (hS : Settled w) (hclock : millis w + 35000 < 2 ^ 32)
    (hto : millis w + 30000 ≤ timeout)
    (h1 : a1 ≠ 0xFF) (h2 : a2 ≠ 0xFF) (h3 : a3 ≠ 0xFF)
    (hs : stream w = frame (responseEnvelope pw1 0x01 0x18 0 [a1, b1, g1, e1]) ++
      frame (responseEnvelope pw2 0x01 0x18 0 [a2, b2, g2, e2]) ++
      frame (responseEnvelope pw3 0x01 0x18 0 [a3, b3, g3, e3]) ++ tail)
    (hf1 : CompleteWithin w 0 26 5000) (hf2 : CompleteWithin w 26 52 5100)
    (hf3 : CompleteWithin w 52 78 5100)
    (hT : ArrivesBy w 78 T) (hT30 : T + 300 < w.now + 30000) :
    ∃ r, autoEnrollLoop timeout (fuel + 3) self w 0
        = autoEnrollLoop timeout fuel { self with lastError := 0 } (delay r 100) 3 ∧
      Follows w r 78 (max T w.now + 200) ∧ stream r = tail ∧ w.now + 200 ≤ r.now := by
  obtain ⟨t1, hA1, hg1⟩ := hf1
  obtain ⟨t2, hA2, hg2⟩ := hf2
  obtain ⟨t3, hA3, hg3⟩ := hf3
  -- first attempt
  have hlt1 : t1 < w.now + 5000 := hg1 w.now (Nat.le_refl _) (arrivesBy_zero w _)
  obtain ⟨r1, hl1, hF1, hs1, hw1⟩ := loop_progress_follows timeout (fuel + 2) self w w 0 0 w.now
    (min t1 T) pw1 a1 b1 g1 e1
    (frame (responseEnvelope pw2 0x01 0x18 0 [a2, b2, g2, e2]) ++
      frame (responseEnvelope pw3 0x01 0x18 0 [a3, b3, g3, e3]) ++ tail)
    (follows_refl w w.now hS (Nat.le_refl _)) (by omega) (by omega) (by omega) h1
    (by rw [hs]; simp only [List.append_assoc])
    (arrivesBy_min w _ t1 T hA1 (arrivesBy_le w 78 _ T T (by omega) (Nat.le_refl _) hT))
  have hn1 : r1.now ≤ max T w.now := by
    have := hF1.2.2.2.2.2.1
    omega
  -- second attempt
  have hFd1 := follows_then_delay w r1 _ _ 100 hF1
  have hm1 : millis (delay r1 100) = millis w + (r1.now + 100 - w.now) :=
    millis_shift w (delay r1 100) (by rw [delay_now]; omega) (by rw [delay_now]; omega)
  have hlt2 : t2 < r1.now + 5100 := hg2 r1.now hw1 (arrived_of_follows w r1 _ _ hF1)
  obtain ⟨r2, hl2, hF2, hs2, hw2⟩ := loop_progress_follows timeout (fuel + 1)
    { self with lastError := 0 } w (delay r1 100) 1 (0 + 26) _ (min t2 T) pw2 a2 b2 g2 e2
    (frame (responseEnvelope pw3 0x01 0x18 0 [a3, b3, g3, e3]) ++ tail)
    hFd1 (by rw [hm1]; omega) (by rw [hm1]; omega) (by rw [delay_now]; omega) h2
    (by rw [stream_delay, hs1]; simp only [List.append_assoc])
    (arrivesBy_min w _ t2 T hA2 (arrivesBy_le w 78 _ T T (by omega) (Nat.le_refl _) hT))
  rw [delay_now] at hw2
  have hn2 : r2.now ≤ max T w.now + 100 := by
    have := hF2.2.2.2.2.2.1
    rw [delay_now] at this
    omega
  -- third attempt
  have hFd2 := follows_then_delay w r2 _ _ 100 hF2
  have hm2 : millis (delay r2 100) = millis w + (r2.now + 100 - w.now) :=
    millis_shift w (delay r2 100) (by rw [delay_now]; omega) (by rw [delay_now]; omega)
  have hlt3 : t3 < r2.now + 5100 := hg3 r2.now (by omega) (arrived_of_follows w r2 _ _ hF2)
  obtain ⟨r3, hl3, hF3, hs3, hw3⟩ := loop_progress_follows timeout fuel
    { self with lastError := 0 } w (delay r2 100) 2 (0 + 26 + 26) _ (min t3 T) pw3 a3 b3 g3 e3
    tail hFd2 (by rw [hm2]; omega) (by rw [hm2]; omega) (by rw [delay_now]; omega) h3
    (by rw [stream_delay, hs2])
    (arrivesBy_min w _ t3 T hA3 hT)
  rw [delay_now] at hw3
  have hn3 : r3.now ≤ max T w.now + 200 := by
    have := hF3.2.2.2.2.2.1
    rw [delay_now] at this
    omega
  refine ⟨r3, ?_, follows_bound w r3 _ _ _ hF3 hn3, hs3, by omega⟩
  rw [show fuel + 3 = (fuel + 2) + 1 from rfl, hl1, hl2, hl3]

/-! ## A response whose command pair matches, arriving while the driver waits -/

theorem receiveResponse_bytes_arrives (self : FPM383F) (w : Transport) (out : Outputs)
    (maxDataLen t : Nat) (p0 p1 p2 p3 c1 c2 e0 e1 e2 e3 : Nat) (d rest : List Nat)
    (h0 : e0 < 256) (h1 : e1 < 256) (h2 : e2 < 256) (h3 : e3 < 256)
    (hlen : 11 + d.length < 65536) (hS : Settled w) (hclock : millis w + 5000 < 2 ^ 32)
    (ht : w.now ≤ t) (ht5 : t < w.now + 5000)
    (hs : stream w = frame ([p0, p1, p2, p3, c1, c2, e0, e1, e2, e3] ++ d ++
      [calculateChecksum ([p0, p1, p2, p3, c1, c2, e0, e1, e2, e3] ++ d)]) ++ rest)
    (harr : ArrivesBy w (22 + d.length) t) (hroom : Room out (min d.length maxDataLen)) :
    ∃ r, receiveResponse self w c1 c2 out maxDataLen
        = .ret { value := true
                 self := { self with lastError := fromBigEndian32 e0 e1 e2 e3 }
                 serial := r
                 out := deliver out maxDataLen c1 c2 (fromBigEndian32 e0 e1 e2 e3) d } ∧
      Follows w r (22 + d.length) t ∧ stream r = rest := by
  have hL : ([p0, p1, p2, p3, c1, c2, e0, e1, e2, e3] ++ d ++
      [calculateChecksum ([p0, p1, p2, p3, c1, c2, e0, e1, e2, e3] ++ d)]).length
        = 11 + d.length := by
    simp only [List.length_append, List.length_cons, List.length_nil]
    omega
  have hfl : (frame ([p0, p1, p2, p3, c1, c2, e0, e1, e2, e3] ++ d ++
      [calculateChecksum ([p0, p1, p2, p3, c1, c2, e0, e1, e2, e3] ++ d)])).length
        = 22 + d.length := by
    simp only [frame, marker, bigEndian16, List.length_append, List.length_cons,
      List.length_nil]
    omega
  obtain ⟨r, hr, hF, hsr⟩ := receiveFrame_frame_arrives self w out maxDataLen t [] _ rest hS
    hclock ht ht5 markerOnlyAtEnd_nil (by rw [hL]; exact hlen)
    (by rw [List.nil_append]; exact hs)
    (by rw [hfl, List.length_nil, Nat.zero_add]; exact harr)
  rw [hfl, List.length_nil, Nat.zero_add] at hF
  rw [parseEnvelope_ok self r out maxDataLen p0 p1 p2 p3 c1 c2 e0 e1 e2 e3 d h0 h1 h2 h3 hlen
    hroom] at hr
  exact ⟨r, receiveResponse_of_receiveFrame self w c1 c2 out maxDataLen _ hr rfl
    (deliver_cmd _ _ _ _ _ _).1 (deliver_cmd _ _ _ _ _ _).2.1, hF, hsr⟩

/-- Whatever `heartbeat` receives, it has written its request frame and nothing else. -/
theorem heartbeat_writes (self : FPM383F) (w : Transport) (b : Bool) (s : FPM383F)
    (r : Transport) (h : heartbeat self w = .ret (b, s, r)) :
    r.tx = w.tx ++ frame (requestEnvelope self.password 0x03 0x03 []) := by
  cases hrr : receiveResponse self
      { w with tx := w.tx ++ frame (requestEnvelope self.password 0x03 0x03 []) }
      0x03 0x03 noBuffer 0 with
  | ret r0 =>
    rw [heartbeat_of_receiveResponse self w r0 hrr] at h
    have h' := Exec.ret.inj h
    have htx := (receiveResponse_typed _ _ _ _ _ _ _ hrr).1
    have : r = r0.serial := by
      have := congrArg (fun x => x.2.2) h'
      exact this.symm
    rw [this, htx]
  | outOfBounds =>
    exfalso
    unfold heartbeat sendCommand at h
    rw [sendFrame_null] at h
    simp only [Exec.bind] at h
    have hrr' : receiveResponse self
        { w with tx := w.tx ++ frame (requestEnvelope self.password FP_CMD_MAINTENANCE_0
          FP_CMD_HEARTBEAT []) } FP_CMD_MAINTENANCE_0 FP_CMD_HEARTBEAT noBuffer 0
        = .outOfBounds := hrr
    rw [hrr'] at h
    cases h
  | outOfFuel =>
    exfalso
    unfold heartbeat sendCommand at h
    rw [sendFrame_null] at h
    simp only [Exec.bind] at h
    have hrr' : receiveResponse self
        { w with tx := w.tx ++ frame (requestEnvelope self.password FP_CMD_MAINTENANCE_0
          FP_CMD_HEARTBEAT []) } FP_CMD_MAINTENANCE_0 FP_CMD_HEARTBEAT noBuffer 0
        = .outOfFuel := hrr
    rw [hrr'] at h
    cases h

/-- C19, peer error pass-through: for every checksum-valid response frame of
at least 11 envelope bytes whose command pair is the requested one, arriving
less than 5000 ms after the call (its bytes in the receive buffer or on the
wire, due by `t`), `receiveResponse` returns true whatever the error code is,
the error code it delivers is the big-endian value of envelope bytes 6 to 9,
and `lastError` is set to that value; `heartbeat` on such a frame returns true
exactly when the error code is 0. -/
theorem peer_error_pass_through (self : FPM383F) (w : Transport) (out : Outputs)
    (maxDataLen t : Nat) (p0 p1 p2 p3 cmd1 cmd2 e0 e1 e2 e3 : Nat) (d rest : List Nat)
    (h0 : e0 < 256) (h1 : e1 < 256) (h2 : e2 < 256) (h3 : e3 < 256)
    (hlen : 11 + d.length < 65536) (hS : Settled w) (hclock : millis w + 5000 < 2 ^ 32)
    (ht : w.now ≤ t) (ht5 : t < w.now + 5000)
    (hs : stream w = frame ([p0, p1, p2, p3, cmd1, cmd2, e0, e1, e2, e3] ++ d ++
      [calculateChecksum ([p0, p1, p2, p3, cmd1, cmd2, e0, e1, e2, e3] ++ d)]) ++ rest)
    (harr : ArrivesBy w (22 + d.length) t) (hroom : Room out maxDataLen) :
    (∃ r o, receiveResponse self w cmd1 cmd2 out maxDataLen
        = .ret { value := true
                 self := { self with lastError := e0 * 16777216 + e1 * 65536 + e2 * 256 + e3 }
                 serial := r
                 out := o } ∧
        o.errorCode = e0 * 16777216 + e1 * 65536 + e2 * 256 + e3 ∧
        stream r = rest ∧ r.tx = w.tx ∧ r.now ≤ t) ∧
      (cmd1 = 0x03 → cmd2 = 0x03 →
        ∃ r, heartbeat self w
            = .ret (decide (e0 * 16777216 + e1 * 65536 + e2 * 256 + e3 = 0),
                { self with lastError := e0 * 16777216 + e1 * 65536 + e2 * 256 + e3 }, r) ∧
          stream r = rest ∧
          r.tx = w.tx ++ frame (requestEnvelope self.password 0x03 0x03 [])) := by
  constructor
  · obtain ⟨r, hr, hF, hsr⟩ := receiveResponse_bytes_arrives self w out maxDataLen t p0 p1 p2
      p3 cmd1 cmd2 e0 e1 e2 e3 d rest h0 h1 h2 h3 hlen hS hclock ht ht5 hs harr
      (room_min out _ _ hroom)
    exact ⟨r, _, hr, (deliver_cmd _ _ _ _ _ _).2.2, hsr, hF.2.2.1, hF.2.2.2.2.2.1⟩
  · intro hc1 hc2
    subst hc1 hc2
    obtain ⟨r, hr, hF, hsr⟩ := receiveResponse_bytes_arrives self
      { w with tx := w.tx ++ frame (requestEnvelope self.password 0x03 0x03 []) }
      noBuffer 0 t p0 p1 p2 p3 0x03 0x03 e0 e1 e2 e3 d rest h0 h1 h2 h3 hlen hS hclock ht ht5
      hs harr (room_noBuffer _)
    refine ⟨r, ?_, hsr, hF.2.2.1⟩
    rw [heartbeat_of_receiveResponse self w _ hr]
    simp [deliver_noBuffer, fromBigEndian32]

/-- C19 at a heartbeat response carrying error code 4 (system busy), of which
the marker is in the receive buffer and the rest arrives 25 ms after the call:
the frame exchange succeeds and `heartbeat` returns false. -/
theorem peer_error_pass_through_witness :
    ∃ r, heartbeat ⟨0, 0⟩
        ⟨0, [0xF1, 0x1F, 0xE2, 0x2E, 0xB6, 0x6B, 0xA8, 0x8A],
        [(25, 0), (25, 0x0B), (25, 0x82), (25, 0), (25, 0), (25, 0), (25, 0), (25, 3), (25, 3), (25, 0), (25, 0), (25, 0), (25, 4), (25, 0xF6)], []⟩
      = .ret (decide (0 * 16777216 + 0 * 65536 + 0 * 256 + 4 = 0),
          { (⟨0, 0⟩ : FPM383F) with lastError := 0 * 16777216 + 0 * 65536 + 0 * 256 + 4 }, r) ∧
      stream r = [] ∧
      r.tx = [] ++ frame (requestEnvelope 0 0x03 0x03 []) :=
  (peer_error_pass_through ⟨0, 0⟩
    ⟨0, [0xF1, 0x1F, 0xE2, 0x2E, 0xB6, 0x6B, 0xA8, 0x8A],
        [(25, 0), (25, 0x0B), (25, 0x82), (25, 0), (25, 0), (25, 0), (25, 0), (25, 3), (25, 3), (25, 0), (25, 0), (25, 0), (25, 4), (25, 0xF6)], []⟩
    noBuffer 0 25 0 0 0 0 0x03 0x03 0 0 0 4 [] [] (by decide) (by decide) (by decide) (by decide)
    (by decide) (by decide) (by norm_num [millis]) (by decide) (by decide) (by decide)
    (by decide) (room_noBuffer 0)).2 rfl rfl

/-- C13, heartbeat end to end: with password 0 `heartbeat` writes exactly the
18 bytes `F1 1F E2 2E B6 6B A8 8A 00 07 86 00 00 00 00 03 03 FA`, whatever it
receives; when the peer's reply is the 22-byte frame with command pair
(0x03, 0x03), error code 0 and no data, arriving less than 5000 ms after the
call, its `receiveResponse` delivers zero data bytes and `heartbeat` returns
true with `lastError = FP_ERROR_SUCCESS`. -/
theorem heartbeat_end_to_end (self : FPM383F) (w : Transport) (rest : List Nat) (t : Nat)
    (hpw : self.password = 0) (hS : Settled w) (hclock : millis w + 5000 < 2 ^ 32)
    (ht : w.now ≤ t) (ht5 : t < w.now + 5000)
    (hs : stream w = [0xF1, 0x1F, 0xE2, 0x2E, 0xB6, 0x6B, 0xA8, 0x8A, 0x00, 0x0B, 0x82,
                      0, 0, 0, 0, 0x03, 0x03, 0, 0, 0, 0, 0xFA] ++ rest)
    (harr : ArrivesBy w 22 t) :
    (∀ b s r, heartbeat self w = .ret (b, s, r) → r.tx = w.tx ++ [0xF1, 0x1F, 0xE2, 0x2E, 0xB6, 0x6B, 0xA8, 0x8A, 0x00, 0x07, 0x86, 0, 0, 0, 0, 0x03, 0x03, 0xFA]) ∧
    ∃ r, heartbeat self w = .ret (true, { self with lastError := FP_ERROR_SUCCESS }, r) ∧
      receiveResponse self { w with tx := w.tx ++ [0xF1, 0x1F, 0xE2, 0x2E, 0xB6, 0x6B, 0xA8, 0x8A, 0x00, 0x07, 0x86, 0, 0, 0, 0, 0x03, 0x03, 0xFA] } 0x03 0x03 noBuffer 0
        = .ret { value := true
                 self := { self with lastError := FP_ERROR_SUCCESS }
                 serial := r
                 out := { cmd1 := 0x03, cmd2 := 0x03, data := none, actualDataLen := 0,
                          errorCode := 0 } } ∧
      stream r = rest ∧ r.now ≤ t := by
  have hreq : frame (requestEnvelope self.password 0x03 0x03 []) = [0xF1, 0x1F, 0xE2, 0x2E, 0xB6, 0x6B, 0xA8, 0x8A, 0x00, 0x07, 0x86, 0, 0, 0, 0, 0x03, 0x03, 0xFA] := by
    rw [hpw]
    decide
  have hrep : [0xF1, 0x1F, 0xE2, 0x2E, 0xB6, 0x6B, 0xA8, 0x8A, 0x00, 0x0B, 0x82,
      0, 0, 0, 0, 0x03, 0x03, 0, 0, 0, 0, 0xFA]
      = frame (responseEnvelope 0 0x03 0x03 0 []) := by
    decide
  rw [hrep] at hs
  constructor
  · intro b s r h
    rw [← hreq]
    exact heartbeat_writes self w b s r h
  · obtain ⟨r, hr, hF, hsr⟩ := receiveResponse_response_arrives self
      { w with tx := w.tx ++ frame (requestEnvelope self.password 0x03 0x03 []) }
      noBuffer 0 t [] rest 0 0x03 0x03 0 [] hS hclock ht ht5 markerOnlyAtEnd_nil (by norm_num)
      (by decide) (by rw [List.nil_append]; exact hs)
      (by rw [frame_responseEnvelope_length]; exact harr) (room_noBuffer _)
    refine ⟨r, ?_, ?_, hsr, hF.2.2.2.2.2.1⟩
    · rw [heartbeat_of_receiveResponse self w _ hr]
      rfl
    · rw [← hreq, hr]
      rfl

/-- C13 on a reply that arrives 40 to 41 ms after the call. -/
theorem heartbeat_end_to_end_witness :
    ∃ r, heartbeat ⟨0, 7⟩
        ⟨0, [], [(40, 0xF1), (40, 0x1F), (40, 0xE2), (40, 0x2E), (40, 0xB6), (40, 0x6B), (40, 0xA8), (40, 0x8A), (40, 0), (40, 0x0B), (40, 0x82),
             (41, 0), (41, 0), (41, 0), (41, 0), (41, 3), (41, 3), (41, 0), (41, 0), (41, 0), (41, 0), (41, 0xFA)], []⟩
      = .ret (true, ⟨0, 0⟩, r) ∧
      r.tx = [0xF1, 0x1F, 0xE2, 0x2E, 0xB6, 0x6B, 0xA8, 0x8A, 0x00, 0x07, 0x86, 0, 0, 0, 0, 0x03, 0x03, 0xFA] ∧ stream r = [] ∧ r.now ≤ 41 := by
  obtain ⟨hw, r, h1, -, h3, h4⟩ := heartbeat_end_to_end ⟨0, 7⟩
    ⟨0, [], [(40, 0xF1), (40, 0x1F), (40, 0xE2), (40, 0x2E), (40, 0xB6), (40, 0x6B), (40, 0xA8), (40, 0x8A), (40, 0), (40, 0x0B), (40, 0x82),
             (41, 0), (41, 0), (41, 0), (41, 0), (41, 3), (41, 3), (41, 0), (41, 0), (41, 0), (41, 0), (41, 0xFA)], []⟩
    [] 41 rfl (by decide) (by norm_num [millis]) (by decide) (by decide) (by decide) (by decide)
  exact ⟨r, h1, hw _ _ _ h1, h3, h4⟩

/-! ## Polling on frames that arrive while autoEnroll waits -/

/-- Four attempts of the polling loop on three non-terminal frames and a
terminal one, each arriving within its deadline. -/
theorem loop_four_arrive (fuel : Nat) (self : FPM383F) (w : Transport)
    (pw1 a1 b1 c1 e1 pw2 a2 b2 c2 e2 pw3 a3 b3 c3 e3 pw4 b4 c4 T : Nat) (rest : List Nat)
    (hclock : millis w + 35000 < 2 ^ 32) (hS : Settled w)
    (h1 : a1 ≠ 0xFF) (h2 : a2 ≠ 0xFF) (h3 : a3 ≠ 0xFF)
    (hs : stream w = frame (responseEnvelope pw1 0x01 0x18 0 [a1, b1, c1, e1]) ++
      frame (responseEnvelope pw2 0x01 0x18 0 [a2, b2, c2, e2]) ++
      frame (responseEnvelope pw3 0x01 0x18 0 [a3, b3, c3, e3]) ++
      (frame (responseEnvelope pw4 0x01 0x18 0 [0xFF, b4, c4, 100]) ++ rest))
    (hf1 : CompleteWithin w 0 26 5000) (hf2 : CompleteWithin w 26 52 5100)
    (hf3 : CompleteWithin w 52 78 5100) (hf4 : CompleteWithin w 78 104 5100)
    (hT : ArrivesBy w 78 T) (hT30 : T + 300 < w.now + 30000) :
    (∃ w1, autoEnrollLoop (millis w + 30000) (fuel + 4) self w 0
        = .ret (true, { self with lastError := FP_ERROR_SUCCESS }, w1, 4) ∧
      w1.tx = w.tx ∧ stream w1 = rest ∧ w.now + 300 ≤ w1.now) ∧
    autoEnrollLoop (millis w + 30000) 3 self w 0 = .outOfFuel := by
  constructor
  · obtain ⟨r3, hl, hF3, hs3, hn3⟩ := loop_three_progress_arrive (millis w + 30000) (fuel + 1)
      self w pw1 a1 b1 c1 e1 pw2 a2 b2 c2 e2 pw3 a3 b3 c3 e3 T
      (frame (responseEnvelope pw4 0x01 0x18 0 [0xFF, b4, c4, 100]) ++ rest)
      hS hclock (Nat.le_refl _) h1 h2 h3 hs hf1 hf2 hf3 hT hT30
    obtain ⟨t4, hA4, hg4⟩ := hf4
    have hb3 : r3.now ≤ max T w.now + 200 := hF3.2.2.2.2.2.1
    have hm3 : millis (delay r3 100) = millis w + (r3.now + 100 - w.now) :=
      millis_shift w (delay r3 100) (by rw [delay_now]; omega) (by rw [delay_now]; omega)
    have hlt4 : t4 < r3.now + 5100 := hg4 r3.now (by omega) (arrived_of_follows w r3 _ _ hF3)
    obtain ⟨r4, hl4, hF4, hs4, hw4⟩ := loop_terminal_follows (millis w + 30000) fuel
      { self with lastError := 0 } w (delay r3 100) 3 78 _ t4 pw4 b4 c4 rest
      (follows_then_delay w r3 _ _ 100 hF3)
      (by rw [hm3]; omega) (by rw [hm3]; omega) (by rw [delay_now]; omega)
      (by rw [stream_delay, hs3]) hA4
    rw [delay_now] at hw4
    refine ⟨r4, ?_, hF4.2.2.1, hs4, by omega⟩
    rw [show fuel + 4 = (fuel + 1) + 3 from rfl, hl, hl4]
    rfl
  · obtain ⟨r3, hl, -, -, -⟩ := loop_three_progress_arrive (millis w + 30000) 0 self w
      pw1 a1 b1 c1 e1 pw2 a2 b2 c2 e2 pw3 a3 b3 c3 e3 T
      (frame (responseEnvelope pw4 0x01 0x18 0 [0xFF, b4, c4, 100]) ++ rest)
      hS hclock (Nat.le_refl _) h1 h2 h3 hs hf1 hf2 hf3 hT hT30
    rw [show (3 : Nat) = 0 + 3 from rfl, hl]
    rfl

/-- C14, auto-enroll polling success: when the stream holds three valid
(0x01, 0x18) response frames with error code 0 and four data bytes whose first
byte is not 0xFF, then a valid frame whose four data bytes start with 0xFF and
end with 100, and every frame arrives within its deadline (the first complete
less than 5000 ms after the call, each further one less than 5100 ms after the
one before it, the first three early enough for the fourth attempt to start
before the 30000 ms outer deadline, the clock not wrapping meanwhile),
`autoEnroll` returns true with exactly four calls of `receiveResponse`, having
consumed exactly the four frames; a polling loop cut off after three
iterations has not returned. -/
theorem autoEnroll_polling_success (fuel : Nat) (self : FPM383F) (w : Transport)
    (fingerprintId enrollCount : Nat) (waitFingerLift : Bool)
    (pw1 a1 b1 c1 e1 pw2 a2 b2 c2 e2 pw3 a3 b3 c3 e3 pw4 b4 c4 T : Nat) (rest : List Nat)
    (hfuel : 4 ≤ fuel) (hclock : millis w + 35000 < 2 ^ 32) (hS : Settled w)
    (h1 : a1 ≠ 0xFF) (h2 : a2 ≠ 0xFF) (h3 : a3 ≠ 0xFF)
    (hs : stream w = frame (responseEnvelope pw1 0x01 0x18 0 [a1, b1, c1, e1]) ++
      frame (responseEnvelope pw2 0x01 0x18 0 [a2, b2, c2, e2]) ++
      frame (responseEnvelope pw3 0x01 0x18 0 [a3, b3, c3, e3]) ++
      (frame (responseEnvelope pw4 0x01 0x18 0 [0xFF, b4, c4, 100]) ++ rest))
    (hf1 : CompleteWithin w 0 26 5000) (hf2 : CompleteWithin w 26 52 5100)
    (hf3 : CompleteWithin w 52 78 5100) (hf4 : CompleteWithin w 78 104 5100)
    (hT : ArrivesBy w 78 T) (hT30 : T + 300 < w.now + 30000) :
    (∃ w1, autoEnroll fuel self w fingerprintId enrollCount waitFingerLift
        = .ret (true, { self with lastError := FP_ERROR_SUCCESS }, w1, 4) ∧
      w1.tx = w.tx ++ autoEnrollRequest self.password fingerprintId enrollCount waitFingerLift ∧
      stream w1 = rest ∧ w.now + 300 ≤ w1.now) ∧
    autoEnroll 3 self w fingerprintId enrollCount waitFingerLift = .outOfFuel := by
  have hTm : (millis w + 30000) % 2 ^ 32 = millis w + 30000 := Nat.mod_eq_of_lt (by omega)
  obtain ⟨f, rfl⟩ : ∃ f, fuel = f + 4 := ⟨fuel - 4, by omega⟩
  rw [autoEnroll_eq_loop, autoEnroll_eq_loop, hTm]
  exact loop_four_arrive f self
    { w with tx := w.tx ++
        autoEnrollRequest self.password fingerprintId enrollCount waitFingerLift }
    pw1 a1 b1 c1 e1 pw2 a2 b2 c2 e2 pw3 a3 b3 c3 e3 pw4 b4 c4 T rest hclock hS h1 h2 h3 hs
    hf1 hf2 hf3 hf4 hT hT30

/-- C14 on a concrete exchange: `autoEnroll` is called at 1000 ms with nothing
received yet; progress frames with counts 1, 2, 3 arrive at 3000, 7000 and
11000 ms and the terminal frame `FF 00 05 64` at 15000 ms. -/
theorem autoEnroll_polling_success_witness :
    ∃ w1, autoEnroll 4 ⟨0, 0⟩
        ⟨1000, [],
          [(3000, 0xF1), (3000, 0x1F), (3000, 0xE2), (3000, 0x2E), (3000, 0xB6), (3000, 0x6B), (3000, 0xA8), (3000, 0x8A), (3000, 0), (3000, 0x0F), (3000, 0x7E), (3000, 0), (3000, 0), (3000, 0), (3000, 0), (3000, 1), (3000, 0x18), (3000, 0), (3000, 0), (3000, 0), (3000, 0), (3000, 1), (3000, 0), (3000, 5), (3000, 0x21), (3000, 0xC0),
           (7000, 0xF1), (7000, 0x1F), (7000, 0xE2), (7000, 0x2E), (7000, 0xB6), (7000, 0x6B), (7000, 0xA8), (7000, 0x8A), (7000, 0), (7000, 0x0F), (7000, 0x7E), (7000, 0), (7000, 0), (7000, 0), (7000, 0), (7000, 1), (7000, 0x18), (7000, 0), (7000, 0), (7000, 0), (7000, 0), (7000, 2), (7000, 0), (7000, 5), (7000, 0x42), (7000, 0x9E),
           (11000, 0xF1), (11000, 0x1F), (11000, 0xE2), (11000, 0x2E), (11000, 0xB6), (11000, 0x6B), (11000, 0xA8), (11000, 0x8A), (11000, 0), (11000, 0x0F), (11000, 0x7E), (11000, 0), (11000, 0), (11000, 0), (11000, 0), (11000, 1), (11000, 0x18), (11000, 0), (11000, 0), (11000, 0), (11000, 0), (11000, 3), (11000, 0), (11000, 5), (11000, 0x63), (11000, 0x7C),
           (15000, 0xF1), (15000, 0x1F), (15000, 0xE2), (15000, 0x2E), (15000, 0xB6), (15000, 0x6B), (15000, 0xA8), (15000, 0x8A), (15000, 0), (15000, 0x0F), (15000, 0x7E), (15000, 0), (15000, 0), (15000, 0), (15000, 0), (15000, 1), (15000, 0x18), (15000, 0), (15000, 0), (15000, 0), (15000, 0), (15000, 0xFF), (15000, 0), (15000, 5), (15000, 0x64), (15000, 0x7F)], []⟩ 5 3 false
        = .ret (true, ⟨0, 0⟩, w1, 4) ∧
      w1.tx = [] ++ autoEnrollRequest 0 5 3 false ∧ stream w1 = [] ∧ 1000 + 300 ≤ w1.now :=
  (autoEnroll_polling_success 4 ⟨0, 0⟩
    ⟨1000, [],
          [(3000, 0xF1), (3000, 0x1F), (3000, 0xE2), (3000, 0x2E), (3000, 0xB6), (3000, 0x6B), (3000, 0xA8), (3000, 0x8A), (3000, 0), (3000, 0x0F), (3000, 0x7E), (3000, 0), (3000, 0), (3000, 0), (3000, 0), (3000, 1), (3000, 0x18), (3000, 0), (3000, 0), (3000, 0), (3000, 0), (3000, 1), (3000, 0), (3000, 5), (3000, 0x21), (3000, 0xC0),
           (7000, 0xF1), (7000, 0x1F), (7000, 0xE2), (7000, 0x2E), (7000, 0xB6), (7000, 0x6B), (7000, 0xA8), (7000, 0x8A), (7000, 0), (7000, 0x0F), (7000, 0x7E), (7000, 0), (7000, 0), (7000, 0), (7000, 0), (7000, 1), (7000, 0x18), (7000, 0), (7000, 0), (7000, 0), (7000, 0), (7000, 2), (7000, 0), (7000, 5), (7000, 0x42), (7000, 0x9E),
           (11000, 0xF1), (11000, 0x1F), (11000, 0xE2), (11000, 0x2E), (11000, 0xB6), (11000, 0x6B), (11000, 0xA8), (11000, 0x8A), (11000, 0), (11000, 0x0F), (11000, 0x7E), (11000, 0), (11000, 0), (11000, 0), (11000, 0), (11000, 1), (11000, 0x18), (11000, 0), (11000, 0), (11000, 0), (11000, 0), (11000, 3), (11000, 0), (11000, 5), (11000, 0x63), (11000, 0x7C),
           (15000, 0xF1), (15000, 0x1F), (15000, 0xE2), (15000, 0x2E), (15000, 0xB6), (15000, 0x6B), (15000, 0xA8), (15000, 0x8A), (15000, 0), (15000, 0x0F), (15000, 0x7E), (15000, 0), (15000, 0), (15000, 0), (15000, 0), (15000, 1), (15000, 0x18), (15000, 0), (15000, 0), (15000, 0), (15000, 0), (15000, 0xFF), (15000, 0), (15000, 5), (15000, 0x64), (15000, 0x7F)], []⟩ 5 3 false
    0 1 0 5 0x21 0 2 0 5 0x42 0 3 0 5 0x63 0 0 5 11000 [] (by decide) (by norm_num [millis])
    (by decide) (by decide) (by decide) (by decide) (by decide)
    ⟨3000, by decide, fun u _ _ => by omega⟩
    ⟨7000, by decide, fun u _ h => by
      have h' : 3000 ≤ u := h (3000, 0xC0) (by decide)
      omega⟩
    ⟨11000, by decide, fun u _ h => by
      have h' : 7000 ≤ u := h (7000, 0x9E) (by decide)
      omega⟩
    ⟨15000, by decide, fun u _ h => by
      have h' : 11000 ≤ u := h (11000, 0x7C) (by decide)
      omega⟩
    (by decide) (by decide)).1

/-! ## A peer error during polling -/

/-- C16, polling stops on a peer error: whenever a call of `receiveResponse`
inside the polling loop of `autoEnroll` returns true with a non-zero error
code, `autoEnroll` returns false right after that call, with `lastError` equal
to that error code and the port as that call left it; a valid (0x01, 0x18)
response frame with a non-zero error code, arriving less than 5000 ms after the
attempt begins, has this effect at any iteration and on the first attempt of
`autoEnroll`, whatever its data bytes are, and the bytes after the frame stay
unread. -/
theorem polling_stops_on_peer_error (timeout fuel : Nat) (self : FPM383F) (w : Transport)
    (n pw ec t : Nat) (d rest : List Nat) (fingerprintId enrollCount : Nat)
    (waitFingerLift : Bool)
    (hec0 : ec ≠ 0) (hec : ec < 2 ^ 32) (hlen : 11 + d.length < 65536)
    (hS : Settled w) (hclock : millis w + 5000 < 2 ^ 32) (ht : w.now ≤ t)
    (ht5 : t < w.now + 5000)
    (hs : stream w = frame (responseEnvelope pw 0x01 0x18 ec d) ++ rest)
    (harr : ArrivesBy w (22 + d.length) t) :
    (∀ r, receiveResponse self w 0x01 0x18 responseBuffer 4 = .ret r → r.value = true →
      r.out.errorCode ≠ 0 → millis w < timeout →
      autoEnrollLoop timeout (fuel + 1) self w n = .ret (false, r.self, r.serial, n + 1) ∧
        r.self.lastError = r.out.errorCode) ∧
    (∃ r, receiveResponse self w 0x01 0x18 responseBuffer 4
        = .ret { value := true
                 self := { self with lastError := ec }
                 serial := r
                 out := deliver responseBuffer 4 0x01 0x18 ec d } ∧
      stream r = rest ∧ r.tx = w.tx ∧
      (millis w < timeout →
        autoEnrollLoop timeout (fuel + 1) self w n
          = .ret (false, { self with lastError := ec }, r, n + 1))) ∧
    (millis w + 30000 < 2 ^ 32 →
      ∃ r, autoEnroll (fuel + 1) self w fingerprintId enrollCount waitFingerLift
          = .ret (false, { self with lastError := ec }, r, 1) ∧
        stream r = rest ∧
        r.tx = w.tx ++
          autoEnrollRequest self.password fingerprintId enrollCount waitFingerLift) := by
  have hfl := frame_responseEnvelope_length pw 0x01 0x18 ec d
  refine ⟨?_, ?_, ?_⟩
  · intro r hr hv hne hto
    refine ⟨loop_peer_error timeout fuel self w n r hto hr hv hne, ?_⟩
    rcases (receiveResponse_typed _ _ _ _ _ _ _ hr).2.2 with ⟨hf, -⟩ | ⟨-, hl⟩
    · rw [hv] at hf
      cases hf
    · exact hl
  · obtain ⟨r, hr, hF, hsr⟩ := receiveResponse_response_arrives self w responseBuffer 4 t []
      rest pw 0x01 0x18 ec d hS hclock ht ht5 markerOnlyAtEnd_nil hec hlen
      (by rw [List.nil_append]; exact hs) (by rw [hfl, List.length_nil, Nat.zero_add]; exact harr)
      (room_responseBuffer _ (Nat.min_le_right _ _))
    refine ⟨r, hr, hsr, hF.2.2.1, ?_⟩
    intro hto
    rw [loop_peer_error timeout fuel self w n _ hto hr rfl
      (by rw [(deliver_cmd _ _ _ _ _ _).2.2]; exact hec0)]
  · intro hclock30
    rw [autoEnroll_eq_loop, Nat.mod_eq_of_lt hclock30]
    obtain ⟨r, hr, hF, hsr⟩ := receiveResponse_response_arrives self
      { w with tx := w.tx ++
          autoEnrollRequest self.password fingerprintId enrollCount waitFingerLift }
      responseBuffer 4 t [] rest pw 0x01 0x18 ec d hS hclock ht ht5 markerOnlyAtEnd_nil hec
      hlen (by rw [List.nil_append]; exact hs)
      (by rw [hfl, List.length_nil, Nat.zero_add]; exact harr)
      (room_responseBuffer _ (Nat.min_le_right _ _))
    have hto : millis ({ w with
        tx := w.tx ++
          autoEnrollRequest self.password fingerprintId enrollCount waitFingerLift } : Transport)
        < millis w + 30000 := by
      show millis w < millis w + 30000
      omega
    refine ⟨r, ?_, hsr, hF.2.2.1⟩
    rw [loop_peer_error (millis w + 30000) fuel self _ 0 _ hto hr rfl
      (by rw [(deliver_cmd _ _ _ _ _ _).2.2]; exact hec0)]

/-- C16 on a frame that carries error code 0x0B (storage full) together with
the terminal data bytes `FF 00 05 64`, followed by a terminal frame, both
arriving 120 ms after the call: `autoEnroll` returns false after one attempt
and the terminal frame stays unread. -/
theorem polling_stops_on_peer_error_witness :
    ∃ r, autoEnroll 1 ⟨0, 0⟩
        ⟨0, [], [(120, 0xF1), (120, 0x1F), (120, 0xE2), (120, 0x2E), (120, 0xB6), (120, 0x6B), (120, 0xA8), (120, 0x8A), (120, 0), (120, 0x0F), (120, 0x7E), (120, 0), (120, 0), (120, 0), (120, 0), (120, 1), (120, 0x18), (120, 0), (120, 0), (120, 0), (120, 0x0B), (120, 0xFF), (120, 0), (120, 5), (120, 0x64), (120, 0x74),
             (120, 0xF1), (120, 0x1F), (120, 0xE2), (120, 0x2E), (120, 0xB6), (120, 0x6B), (120, 0xA8), (120, 0x8A), (120, 0), (120, 0x0F), (120, 0x7E), (120, 0), (120, 0), (120, 0), (120, 0), (120, 1), (120, 0x18), (120, 0), (120, 0), (120, 0), (120, 0), (120, 0xFF), (120, 0), (120, 5), (120, 0x64), (120, 0x7F)], []⟩ 5 3 false
        = .ret (false, ⟨0, 0x0B⟩, r, 1) ∧
      stream r = [0xF1, 0x1F, 0xE2, 0x2E, 0xB6, 0x6B, 0xA8, 0x8A, 0, 0x0F, 0x7E, 0, 0, 0, 0, 1, 0x18, 0, 0, 0, 0, 0xFF, 0, 5, 0x64, 0x7F] ∧
      r.tx = [] ++ autoEnrollRequest 0 5 3 false :=
  (polling_stops_on_peer_error 0 0 ⟨0, 0⟩
    ⟨0, [], [(120, 0xF1), (120, 0x1F), (120, 0xE2), (120, 0x2E), (120, 0xB6), (120, 0x6B), (120, 0xA8), (120, 0x8A), (120, 0), (120, 0x0F), (120, 0x7E), (120, 0), (120, 0), (120, 0), (120, 0), (120, 1), (120, 0x18), (120, 0), (120, 0), (120, 0), (120, 0x0B), (120, 0xFF), (120, 0), (120, 5), (120, 0x64), (120, 0x74),
             (120, 0xF1), (120, 0x1F), (120, 0xE2), (120, 0x2E), (120, 0xB6), (120, 0x6B), (120, 0xA8), (120, 0x8A), (120, 0), (120, 0x0F), (120, 0x7E), (120, 0), (120, 0), (120, 0), (120, 0), (120, 1), (120, 0x18), (120, 0), (120, 0), (120, 0), (120, 0), (120, 0xFF), (120, 0), (120, 5), (120, 0x64), (120, 0x7F)], []⟩ 0 0 0x0B 120 [0xFF, 0x00, 0x05, 0x64]
    [0xF1, 0x1F, 0xE2, 0x2E, 0xB6, 0x6B, 0xA8, 0x8A, 0, 0x0F, 0x7E, 0, 0, 0, 0, 1, 0x18, 0, 0, 0, 0, 0xFF, 0, 5, 0x64, 0x7F] 5 3 false
    (by decide) (by norm_num) (by decide) (by decide) (by norm_num [millis]) (by decide)
    (by decide) (by decide) (by decide)).2.2 (by norm_num [millis])

/-! ## What a successful receiveFrame has consumed -/

theorem parseEnvelope_serial (self : FPM383F) (w : Transport) (out : Outputs)
    (maxDataLen dataLength : Nat) (appData : List Nat) (r : Return)
    (h : parseEnvelope self w out maxDataLen dataLength appData = .ret r) : r.serial = w := by
  unfold parseEnvelope at h
  obtain ⟨rc, -, h⟩ := bind_eq_ret _ _ _ h
  obtain ⟨body, -, h⟩ := bind_eq_ret _ _ _ h
  simp only at h
  split at h
  · cases h
    rfl
  · obtain ⟨p0, -, h⟩ := bind_eq_ret _ _ _ h
    obtain ⟨p1, -, h⟩ := bind_eq_ret _ _ _ h
    obtain ⟨p2, -, h⟩ := bind_eq_ret _ _ _ h
    obtain ⟨p3, -, h⟩ := bind_eq_ret _ _ _ h
    obtain ⟨c1, -, h⟩ := bind_eq_ret _ _ _ h
    obtain ⟨c2, -, h⟩ := bind_eq_ret _ _ _ h
    obtain ⟨e0, -, h⟩ := bind_eq_ret _ _ _ h
    obtain ⟨e1, -, h⟩ := bind_eq_ret _ _ _ h
    obtain ⟨e2, -, h⟩ := bind_eq_ret _ _ _ h
    obtain ⟨e3, -, h⟩ := bind_eq_ret _ _ _ h
    obtain ⟨o, -, h⟩ := bind_eq_ret _ _ _ h
    cases h
    rfl

/-- The marker loop ended with all eight marker bytes matched on a stream that
starts with noise `N` and the marker: what it consumed is `N` and the marker. -/
theorem marker_found (S c s1 N tail : List Nat) (k : Nat) (hc : S = c ++ s1)
    (hs : S = N ++ marker ++ tail) (hk : k = c.foldl syncNext 0)
    (hlt : ∀ i, i < c.length → (c.take i).foldl syncNext 0 < 8) (hiso : MarkerOnlyAtEnd N)
    (hk8 : ¬ k < 8) : c = N ++ marker ∧ s1 = tail := by
  have hMlen : (N ++ marker).length = N.length + 8 := by simp [marker]
  have hstates := states_before_end N hiso
  have hfin : (N ++ marker).foldl syncNext 0 = 8 := by
    have hN : N.foldl syncNext 0 < 8 := by
      have h := (hstates N.length (by simp [marker])).1
      simpa using h
    rw [List.foldl_append]
    exact (marker_from_any_state _ hN).1
  have hcM : c = N ++ marker := by
    rcases Nat.lt_trichotomy c.length (N.length + 8) with h | h | h
    · exfalso
      have hpre : c = (N ++ marker).take c.length := by
        have h1 : c = S.take c.length := by
          rw [hc]
          simp
        rw [hs, List.append_assoc N marker tail, ← List.append_assoc N marker tail,
          List.take_append_of_le_length (by omega)] at h1
        exact h1
      apply hk8
      rw [hk, hpre]
      exact (hstates c.length (by omega)).1
    · have h1 : c = S.take c.length := by
        rw [hc]
        simp
      rw [hs, List.take_append_of_le_length (by omega), h, ← hMlen, List.take_length] at h1
      exact h1
    · exfalso
      have hpre : c.take (N.length + 8) = N ++ marker := by
        have h1 : c.take (N.length + 8) = S.take (N.length + 8) := by
          rw [hc, List.take_append_of_le_length (by omega)]
        rw [h1, hs, List.take_append_of_le_length (by omega), ← hMlen, List.take_length]
      have := hlt (N.length + 8) h
      rw [hpre, hfin] at this
      omega
  refine ⟨hcM, ?_⟩
  have := hc
  rw [hs, hcM] at this
  exact (List.append_cancel_left this).symm

/-- The stages after the marker on a stream that goes on with length, matching
frame checksum and envelope: whenever the bytes arrive, a result other than a
failure of these stages is the result of `parseEnvelope` on the envelope, with
exactly these bytes consumed. -/
theorem afterHeader_consumes (timeout : Nat) (self : FPM383F) (w : Transport) (out : Outputs)
    (maxDataLen : Nat) (env rest : List Nat) (R : Return) (hL : env.length < 65536)
    (hs : stream w = (env.length / 256 % 256) :: (env.length % 256) ::
      calculateFrameChecksum env.length :: (env ++ rest))
    (h : afterHeader timeout self w out maxDataLen = .ret R) :
    R.value = false ∨
      (stream R.serial = rest ∧
        parseEnvelope self R.serial out maxDataLen env.length env = .ret R) := by
  unfold afterHeader at h
  obtain ⟨w1, hw1, h⟩ := bind_eq_ret _ _ _ h
  obtain ⟨hs1, -⟩ := waitAvailable_stream _ _ _ _ _ hw1
  simp only at h
  split at h
  · cases h
    exact Or.inl rfl
  · rename_i hav1
    rw [hs] at hs1
    obtain ⟨hb1, hs2⟩ := read_of_stream w1 _ _ hs1 (by omega)
    have hav2 : ¬ available (read w1).2 < 1 := by
      have := (read_length w1 (by omega)).1
      unfold available at hav1 ⊢
      omega
    obtain ⟨hb2, hs3⟩ := read_of_stream (read w1).2 _ _ hs2 hav2
    rw [hb1, hb2, decode_bigEndian16 env.length hL] at h
    obtain ⟨w2, hw2, h⟩ := bind_eq_ret _ _ _ h
    obtain ⟨hs4, -⟩ := waitAvailable_stream _ _ _ _ _ hw2
    split at h
    · cases h
      exact Or.inl rfl
    · rename_i hav3
      rw [hs3] at hs4
      obtain ⟨hb3, hs5⟩ := read_of_stream w2 _ _ hs4 hav3
      rw [hb3, if_neg (by simp)] at h
      obtain ⟨w3, hw3, h⟩ := bind_eq_ret _ _ _ h
      obtain ⟨hs6, -⟩ := waitAvailable_stream _ _ _ _ _ hw3
      split at h
      · cases h
        exact Or.inl rfl
      · rename_i hav4
        rw [hs5] at hs6
        have hrx3 : w3.rx = env ++ rest.take (available w3 - env.length) := by
          rw [rx_eq_take_stream w3, hs6, List.take_append_eq_append_take,
            List.take_of_length_le (by omega)]
        rw [readBytes_append env w3 _ hrx3] at h
        have hser := parseEnvelope_serial _ _ _ _ _ _ _ h
        right
        rw [hser]
        refine ⟨?_, h⟩
        have h7 : stream w3 = env ++ stream { w3 with rx := rest.take (available w3 - env.length) } := by
          simp [stream, hrx3]
        rw [hs6] at h7
        exact (List.append_cancel_left h7).symm

/-- A call of `receiveFrame` that returns true on a stream `N ++ F ++ rest`,
`F` a frame with envelope `env`, has consumed exactly `N` and `F`, whenever the
bytes arrived and whatever the clock read. -/
theorem receiveFrame_consumes (self : FPM383F) (w : Transport) (out : Outputs)
    (maxDataLen : Nat) (N env rest : List Nat) (R : Return) (hiso : MarkerOnlyAtEnd N)
    (hL : env.length < 65536) (hs : stream w = N ++ frame env ++ rest)
    (h : receiveFrame self w out maxDataLen = .ret R) (hv : R.value = true) :
    stream R.serial = rest ∧
      parseEnvelope self R.serial out maxDataLen env.length env = .ret R := by
  unfold receiveFrame at h
  obtain ⟨p, hp, h⟩ := bind_eq_ret _ _ _ h
  split at h
  · cases h
    cases hv
  · rename_i hk8
    obtain ⟨c, hc, hk, hlt⟩ := headerLoop_stream _ _ _ _ _ hp
    have hs' : stream w = N ++ marker ++ ((env.length / 256 % 256) :: (env.length % 256) ::
        calculateFrameChecksum env.length :: (env ++ rest)) := by
      rw [hs]
      simp [frame, bigEndian16]
    obtain ⟨-, hst⟩ := marker_found _ c _ N _ p.2 hc hs' hk hlt hiso hk8
    rcases afterHeader_consumes _ self p.1 out maxDataLen env rest R hL hst h with hf | hok
    · rw [hv] at hf
      cases hf
    · exact hok

/-- C22, frame-exact consumption: when `receiveFrame` returns true on a stream
`N ++ F ++ rest`, where `F` is a frame with envelope `env` (length field
`L = len env`) and the noise `N` completes no marker before the one of `F`, it
has consumed exactly `len N + 11 + L` bytes, written nothing, and left `rest`
to be delivered, whenever the bytes arrived and whatever the clock read; so
when `F` is a valid response frame and `rest` starts with a second valid
response frame, both arriving less than 5000 ms after the first call, two
successive calls of `receiveFrame` decode the first and then the second. -/
theorem frame_exact_consumption (self : FPM383F) (w : Transport) (out : Outputs)
    (maxDataLen : Nat) (N env rest : List Nat) (hiso : MarkerOnlyAtEnd N)
    (hL : env.length < 65536) (hs : stream w = N ++ frame env ++ rest) :
    (∀ R, receiveFrame self w out maxDataLen = .ret R → R.value = true →
      stream R.serial = rest ∧
        (stream w).length = (N.length + 11 + env.length) + (stream R.serial).length ∧
        R.serial.tx = w.tx) ∧
    (∀ (pw c1 c2 ec : Nat) (d : List Nat) (pw2 c3 c4 ec2 : Nat) (d2 rest2 : List Nat)
      (out2 : Outputs) (maxDataLen2 t : Nat),
      env = responseEnvelope pw c1 c2 ec d →
      rest = frame (responseEnvelope pw2 c3 c4 ec2 d2) ++ rest2 →
      ec < 2 ^ 32 → 11 + d.length < 65536 → ec2 < 2 ^ 32 → 11 + d2.length < 65536 →
      Room out (min d.length maxDataLen) → Room out2 (min d2.length maxDataLen2) →
      Settled w → millis w + 10000 < 2 ^ 32 → w.now ≤ t → t < w.now + 5000 →
      ArrivesBy w (N.length + (22 + d.length) + (22 + d2.length)) t →
      ∃ r1 r2,
        receiveFrame self w out maxDataLen
          = .ret { value := true
                   self := { self with lastError := ec }
                   serial := r1
                   out := deliver out maxDataLen c1 c2 ec d } ∧
        receiveFrame { self with lastError := ec } r1 out2 maxDataLen2
          = .ret { value := true
                   self := { self with lastError := ec2 }
                   serial := r2
                   out := deliver out2 maxDataLen2 c3 c4 ec2 d2 } ∧
        stream r1 = frame (responseEnvelope pw2 c3 c4 ec2 d2) ++ rest2 ∧ stream r2 = rest2) := by
  constructor
  · intro R h hv
    obtain ⟨hst, -⟩ := receiveFrame_consumes self w out maxDataLen N env rest R hiso hL hs h hv
    refine ⟨hst, ?_, (receiveFrame_typed self w out maxDataLen R h).1⟩
    rw [hst, hs]
    simp only [frame, marker, bigEndian16, List.length_append, List.length_cons,
      List.length_nil]
    omega
  · intro pw c1 c2 ec d pw2 c3 c4 ec2 d2 rest2 out2 maxDataLen2 t henv hrest hec hlen hec2 hlen2
      hroom hroom2 hS hclock ht ht5 harr
    subst henv hrest
    have hl1 := frame_responseEnvelope_length pw c1 c2 ec d
    have hl2 := frame_responseEnvelope_length pw2 c3 c4 ec2 d2
    obtain ⟨r1, hr1, hF1, hs1⟩ := receiveFrame_response_arrives self w out maxDataLen t N
      (frame (responseEnvelope pw2 c3 c4 ec2 d2) ++ rest2) pw c1 c2 ec d hS (by omega) ht ht5
      hiso hec hlen hs
      (by rw [hl1]; exact arrivesBy_le w _ _ t t (by omega) (Nat.le_refl _) harr) hroom
    rw [hl1] at hF1
    have hn1 : w.now ≤ r1.now := hF1.2.2.2.2.1
    have hn2 : r1.now ≤ t := hF1.2.2.2.2.2.1
    have hm1 : millis r1 = millis w + (r1.now - w.now) := millis_shift w r1 hn1 (by omega)
    obtain ⟨r2, hr2, -, hs2⟩ := receiveFrame_response_arrives { self with lastError := ec } r1
      out2 maxDataLen2 t [] rest2 pw2 c3 c4 ec2 d2 hF1.2.2.2.1 (by rw [hm1]; omega) hn2
      (by omega) markerOnlyAtEnd_nil hec2 hlen2 (by rw [List.nil_append]; exact hs1)
      (by
        rw [hl2, List.length_nil, Nat.zero_add]
        exact hF1.2.2.2.2.2.2.1 _ t harr) hroom2
    exact ⟨r1, r2, hr1, hr2, hs1, hs2⟩

/-- C22 on the noise byte `F1` followed by two heartbeat responses (error codes
0 and 4) and a further byte: the call at 100 ms, with three bytes buffered and
the rest of the first frame arriving at 105 ms, consumes 1 + 22 bytes and
returns at 105 ms; the next call decodes the second frame, which arrives at
110 ms, and leaves the byte `55` that arrives at 200 ms. -/
theorem frame_exact_consumption_witness :
    (stream (⟨105, [],
          [(110, 0xF1), (110, 0x1F), (110, 0xE2), (110, 0x2E), (110, 0xB6), (110, 0x6B), (110, 0xA8), (110, 0x8A), (110, 0), (110, 0x0B), (110, 0x82), (110, 0), (110, 0), (110, 0), (110, 0), (110, 3), (110, 3), (110, 0), (110, 0), (110, 0), (110, 4), (110, 0xF6), (200, 0x55)], []⟩ : Transport) = [0xF1, 0x1F, 0xE2, 0x2E, 0xB6, 0x6B, 0xA8, 0x8A, 0, 0x0B, 0x82, 0, 0, 0, 0, 3, 3, 0, 0, 0, 4, 0xF6] ++ [0x55] ∧
      (stream (⟨100, [0xF1, 0xF1, 0x1F],
        [(105, 0xE2), (105, 0x2E), (105, 0xB6), (105, 0x6B), (105, 0xA8), (105, 0x8A), (105, 0), (105, 0x0B), (105, 0x82), (105, 0), (105, 0), (105, 0), (105, 0), (105, 3), (105, 3), (105, 0), (105, 0), (105, 0), (105, 0), (105, 0xFA),
         (110, 0xF1), (110, 0x1F), (110, 0xE2), (110, 0x2E), (110, 0xB6), (110, 0x6B), (110, 0xA8), (110, 0x8A), (110, 0), (110, 0x0B), (110, 0x82), (110, 0), (110, 0), (110, 0), (110, 0), (110, 3), (110, 3), (110, 0), (110, 0), (110, 0), (110, 4), (110, 0xF6), (200, 0x55)], []⟩ : Transport)).length
        = (1 + 11 + 11) + (stream (⟨105, [],
          [(110, 0xF1), (110, 0x1F), (110, 0xE2), (110, 0x2E), (110, 0xB6), (110, 0x6B), (110, 0xA8), (110, 0x8A), (110, 0), (110, 0x0B), (110, 0x82), (110, 0), (110, 0), (110, 0), (110, 0), (110, 3), (110, 3), (110, 0), (110, 0), (110, 0), (110, 4), (110, 0xF6), (200, 0x55)], []⟩ : Transport)).length) ∧
    ∃ r1 r2,
      receiveFrame ⟨0, 0⟩
          ⟨100, [0xF1, 0xF1, 0x1F],
        [(105, 0xE2), (105, 0x2E), (105, 0xB6), (105, 0x6B), (105, 0xA8), (105, 0x8A), (105, 0), (105, 0x0B), (105, 0x82), (105, 0), (105, 0), (105, 0), (105, 0), (105, 3), (105, 3), (105, 0), (105, 0), (105, 0), (105, 0), (105, 0xFA),
         (110, 0xF1), (110, 0x1F), (110, 0xE2), (110, 0x2E), (110, 0xB6), (110, 0x6B), (110, 0xA8), (110, 0x8A), (110, 0), (110, 0x0B), (110, 0x82), (110, 0), (110, 0), (110, 0), (110, 0), (110, 3), (110, 3), (110, 0), (110, 0), (110, 0), (110, 4), (110, 0xF6), (200, 0x55)], []⟩
          noBuffer 0
        = .ret { value := true
                 self := { (⟨0, 0⟩ : FPM383F) with lastError := 0 }
                 serial := r1
                 out := deliver noBuffer 0 0x03 0x03 0 [] } ∧
      receiveFrame { (⟨0, 0⟩ : FPM383F) with lastError := 0 } r1 noBuffer 0
        = .ret { value := true
                 self := { (⟨0, 0⟩ : FPM383F) with lastError := 4 }
                 serial := r2
                 out := deliver noBuffer 0 0x03 0x03 4 [] } ∧
      stream r1 = frame (responseEnvelope 0 0x03 0x03 4 []) ++ [0x55] ∧ stream r2 = [0x55] := by
  have h := frame_exact_consumption ⟨0, 0⟩
    ⟨100, [0xF1, 0xF1, 0x1F],
        [(105, 0xE2), (105, 0x2E), (105, 0xB6), (105, 0x6B), (105, 0xA8), (105, 0x8A), (105, 0), (105, 0x0B), (105, 0x82), (105, 0), (105, 0), (105, 0), (105, 0), (105, 3), (105, 3), (105, 0), (105, 0), (105, 0), (105, 0), (105, 0xFA),
         (110, 0xF1), (110, 0x1F), (110, 0xE2), (110, 0x2E), (110, 0xB6), (110, 0x6B), (110, 0xA8), (110, 0x8A), (110, 0), (110, 0x0B), (110, 0x82), (110, 0), (110, 0), (110, 0), (110, 0), (110, 3), (110, 3), (110, 0), (110, 0), (110, 0), (110, 4), (110, 0xF6), (200, 0x55)], []⟩
    noBuffer 0 [0xF1] (responseEnvelope 0 0x03 0x03 0 [])
    (frame (responseEnvelope 0 0x03 0x03 4 []) ++ [0x55]) markerOnlyAtEnd_F1 (by decide)
    (by decide)
  constructor
  · have h1 := h.1
      { value := true
        self := ⟨0, 0⟩
        serial := ⟨105, [],
          [(110, 0xF1), (110, 0x1F), (110, 0xE2), (110, 0x2E), (110, 0xB6), (110, 0x6B), (110, 0xA8), (110, 0x8A), (110, 0), (110, 0x0B), (110, 0x82), (110, 0), (110, 0), (110, 0), (110, 0), (110, 3), (110, 3), (110, 0), (110, 0), (110, 0), (110, 4), (110, 0xF6), (200, 0x55)], []⟩
        out := ⟨0x03, 0x03, none, 0, 0⟩ } (by decide) rfl
    exact ⟨h1.1, h1.2.1⟩
  · exact h.2 0 0x03 0x03 0 [] 0 0x03 0x03 4 [] [0x55] noBuffer 0 110 rfl rfl (by norm_num)
      (by decide) (by norm_num) (by decide) (room_noBuffer _) (room_noBuffer _) (by decide)
      (by norm_num [millis]) (by decide) (by decide) (by decide)

/-! ## Response data and the caller's buffer -/

/-- C21, response data is truncated to the caller's capacity: for every valid
response frame with length field `L > 11` (response data `d` not empty) that
arrives less than 5000 ms after the call, and every buffer that has the
announced capacity `maxDataLen > 0`, `receiveFrame` returns true with
`actualDataLen = min (L - 11) maxDataLen`, the buffer holds the first
`actualDataLen` bytes of the response data (envelope bytes from offset 10)
followed by its old bytes from that index on, and `actualDataLen ≤ maxDataLen`;
with a null buffer or `maxDataLen = 0` it returns true with
`actualDataLen = 0` and the buffer is as it was. -/
theorem response_data_truncated (self : FPM383F) (w : Transport) (out : Outputs)
    (maxDataLen t : Nat) (rest : List Nat) (pw c1 c2 ec : Nat) (d : List Nat)
    (hd : 0 < d.length) (hec : ec < 2 ^ 32) (hlen : 11 + d.length < 65536)
    (hS : Settled w) (hclock : millis w + 5000 < 2 ^ 32) (ht : w.now ≤ t)
    (ht5 : t < w.now + 5000)
    (hs : stream w = frame (responseEnvelope pw c1 c2 ec d) ++ rest)
    (harr : ArrivesBy w (22 + d.length) t) :
    lengthField (frame (responseEnvelope pw c1 c2 ec d)) = 11 + d.length ∧
    (∀ buf, out.data = some buf → 0 < maxDataLen → maxDataLen ≤ buf.length →
      ∃ r o, receiveFrame self w out maxDataLen
          = .ret { value := true
                   self := { self with lastError := ec }
                   serial := r
                   out := o } ∧
        o.actualDataLen = min (11 + d.length - 11) maxDataLen ∧
        o.data = some (((responseEnvelope pw c1 c2 ec d).drop 10).take o.actualDataLen ++
          buf.drop o.actualDataLen) ∧
        o.data = some (d.take o.actualDataLen ++ buf.drop o.actualDataLen) ∧
        o.actualDataLen ≤ maxDataLen ∧ (o.data.getD []).length = buf.length ∧
        o.cmd1 = c1 ∧ o.cmd2 = c2 ∧ o.errorCode = ec) ∧
    ((out.data = none ∨ maxDataLen = 0) →
      ∃ r o, receiveFrame self w out maxDataLen
          = .ret { value := true
                   self := { self with lastError := ec }
                   serial := r
                   out := o } ∧
        o.actualDataLen = 0 ∧ o.data = out.data ∧
        o.cmd1 = c1 ∧ o.cmd2 = c2 ∧ o.errorCode = ec) := by
  have hfl := frame_responseEnvelope_length pw c1 c2 ec d
  have key : ∀ (hroom : Room out (min d.length maxDataLen)),
      ∃ r, receiveFrame self w out maxDataLen
        = .ret { value := true
                 self := { self with lastError := ec }
                 serial := r
                 out := deliver out maxDataLen c1 c2 ec d } := by
    intro hroom
    obtain ⟨r, hr, -, -⟩ := receiveFrame_response_arrives self w out maxDataLen t [] rest pw c1
      c2 ec d hS hclock ht ht5 markerOnlyAtEnd_nil hec hlen (by rw [List.nil_append]; exact hs)
      (by rw [hfl, List.length_nil, Nat.zero_add]; exact harr) hroom
    exact ⟨r, hr⟩
  have hcmd := deliver_cmd out maxDataLen c1 c2 ec d
  refine ⟨?_, ?_, ?_⟩
  · rw [lengthField_frame _ (by rw [responseEnvelope_length]; exact hlen),
      responseEnvelope_length]
  · intro buf hbuf hmax hcap
    obtain ⟨r, hr⟩ := key (fun b hb => by
      rw [hbuf] at hb
      cases hb
      exact Nat.le_trans (Nat.min_le_right _ _) hcap)
    have hdel : deliver out maxDataLen c1 c2 ec d
        = { cmd1 := c1, cmd2 := c2, errorCode := ec,
            actualDataLen := min d.length maxDataLen,
            data := some (d.take (min d.length maxDataLen) ++
              buf.drop (min d.length maxDataLen)) } := by
      unfold deliver
      rw [hbuf]
      simp only
      rw [if_pos ⟨hd, hmax⟩]
    have hdrop : ((responseEnvelope pw c1 c2 ec d).drop 10).take (min d.length maxDataLen)
        = d.take (min d.length maxDataLen) := by
      simp only [responseEnvelope, bigEndian32, List.cons_append, List.nil_append,
        List.append_assoc, List.drop_succ_cons, List.drop_zero]
      rw [List.take_append_of_le_length (Nat.min_le_left _ _)]
    refine ⟨r, _, hr, ?_, ?_, ?_, ?_, ?_, hcmd.1, hcmd.2.1, hcmd.2.2⟩
    · rw [hdel]
      simp
    · rw [hdel]
      simp only
      rw [hdrop]
    · rw [hdel]
    · rw [hdel]
      exact Nat.min_le_right _ _
    · rw [hdel]
      simp only [Option.getD_some, List.length_append, List.length_take, List.length_drop]
      omega
  · intro hnull
    obtain ⟨r, hr⟩ := key (fun b hb => by
      rcases hnull with h0 | h0
      · rw [h0] at hb
        cases hb
      · rw [h0]
        simp)
    refine ⟨r, _, hr, ?_, ?_, hcmd.1, hcmd.2.1, hcmd.2.2⟩
    · unfold deliver
      rcases hnull with h0 | h0
      · rw [h0]
      · cases out.data with
        | none => rfl
        | some buf =>
          simp only
          rw [if_neg (by omega)]
    · unfold deliver
      rcases hnull with h0 | h0
      · rw [h0]
      · cases out.data with
        | none => rfl
        | some buf =>
          simp only
          rw [if_neg (by omega)]

/-- C21 on a (0x01, 0x18) response with the four data bytes `01 00 05 21`
received into a 2-byte buffer holding `09 09`, `maxDataLen = 2`: two bytes are
delivered; into a 6-byte buffer with `maxDataLen = 6`: four bytes are delivered
and the last two bytes of the buffer stay. -/
theorem response_data_truncated_witness :
    (∃ r o, receiveFrame ⟨0, 0⟩
        ⟨0, [0xF1, 0x1F, 0xE2, 0x2E, 0xB6, 0x6B, 0xA8, 0x8A, 0, 0x0F, 0x7E, 0],
        [(7, 0), (7, 0), (7, 0), (7, 1), (7, 0x18), (7, 0), (7, 0), (7, 0), (7, 0), (7, 1), (7, 0), (7, 5), (7, 0x21), (7, 0xC0)], []⟩
        ⟨0, 0, some [9, 9], 0, 0⟩ 2
        = .ret { value := true, self := { (⟨0, 0⟩ : FPM383F) with lastError := 0 }, serial := r,
                 out := o } ∧
      o.actualDataLen = min (11 + [1, 0, 5, 0x21].length - 11) 2 ∧
      o.data = some ([1, 0, 5, 0x21].take o.actualDataLen ++ [9, 9].drop o.actualDataLen)) ∧
    (∃ r o, receiveFrame ⟨0, 0⟩
        ⟨0, [0xF1, 0x1F, 0xE2, 0x2E, 0xB6, 0x6B, 0xA8, 0x8A, 0, 0x0F, 0x7E, 0],
        [(7, 0), (7, 0), (7, 0), (7, 1), (7, 0x18), (7, 0), (7, 0), (7, 0), (7, 0), (7, 1), (7, 0), (7, 5), (7, 0x21), (7, 0xC0)], []⟩
        ⟨0, 0, some [9, 9, 9, 9, 9, 9], 0, 0⟩ 6
        = .ret { value := true, self := { (⟨0, 0⟩ : FPM383F) with lastError := 0 }, serial := r,
                 out := o } ∧
      o.actualDataLen = min (11 + [1, 0, 5, 0x21].length - 11) 6 ∧
      o.data = some ([1, 0, 5, 0x21].take o.actualDataLen ++
        [9, 9, 9, 9, 9, 9].drop o.actualDataLen)) := by
  constructor
  · obtain ⟨r, o, h1, h2, -, h4, -⟩ := (response_data_truncated ⟨0, 0⟩
      ⟨0, [0xF1, 0x1F, 0xE2, 0x2E, 0xB6, 0x6B, 0xA8, 0x8A, 0, 0x0F, 0x7E, 0],
        [(7, 0), (7, 0), (7, 0), (7, 1), (7, 0x18), (7, 0), (7, 0), (7, 0), (7, 0), (7, 1), (7, 0), (7, 5), (7, 0x21), (7, 0xC0)], []⟩
      ⟨0, 0, some [9, 9], 0, 0⟩ 2 7 [] 0 0x01 0x18 0 [1, 0, 5, 0x21] (by decide)
      (by norm_num) (by decide) (by decide) (by norm_num [millis]) (by decide) (by decide)
      (by decide) (by decide)).2.1 [9, 9] rfl (by decide) (by decide)
    exact ⟨r, o, h1, h2, h4⟩
  · obtain ⟨r, o, h1, h2, -, h4, -⟩ := (response_data_truncated ⟨0, 0⟩
      ⟨0, [0xF1, 0x1F, 0xE2, 0x2E, 0xB6, 0x6B, 0xA8, 0x8A, 0, 0x0F, 0x7E, 0],
        [(7, 0), (7, 0), (7, 0), (7, 1), (7, 0x18), (7, 0), (7, 0), (7, 0), (7, 0), (7, 1), (7, 0), (7, 5), (7, 0x21), (7, 0xC0)], []⟩
      ⟨0, 0, some [9, 9, 9, 9, 9, 9], 0, 0⟩ 6 7 [] 0 0x01 0x18 0 [1, 0, 5, 0x21]
      (by decide) (by norm_num) (by decide) (by decide) (by norm_num [millis]) (by decide)
      (by decide) (by decide) (by decide)).2.1 [9, 9, 9, 9, 9, 9] rfl (by decide)
      (by decide)
    exact ⟨r, o, h1, h2, h4⟩

/-! ## The enroll count -/

/-- The function `setEnrollCount` for a count from 1 to 6, in terms of the
result of its `receiveResponse`. -/
theorem setEnrollCount_of_receiveResponse (self : FPM383F) (w : Transport) (count : Nat)
    (r : Return) (h1 : 1 ≤ count) (h6 : count ≤ 6)
    (h : receiveResponse self
      { w with tx := w.tx ++ frame (requestEnvelope self.password 0x02 0x0D [count]) }
      0x02 0x0D noBuffer 0 = .ret r) :
    setEnrollCount self w count
      = .ret (decide (r.value = true ∧ r.out.errorCode = 0), r.self, r.serial) := by
  unfold setEnrollCount sendCommand
  rw [if_neg (by omega)]
  have hsend := sendFrame_eq self w FP_CMD_SYSTEM_0 FP_CMD_SET_ENROLL_COUNT [count] (by simp)
  simp only [List.length_cons, List.length_nil, Nat.zero_add] at hsend
  simp only
  rw [hsend]
  simp only [Exec.bind]
  have h' : receiveResponse self
      { w with tx := w.tx ++ frame (requestEnvelope self.password FP_CMD_SYSTEM_0
        FP_CMD_SET_ENROLL_COUNT [count]) } FP_CMD_SYSTEM_0 FP_CMD_SET_ENROLL_COUNT noBuffer 0
      = .ret r := h
  rw [h']
  simp only
  cases hv : r.value <;> simp [FP_ERROR_SUCCESS]

/-- Whatever `setEnrollCount` receives for a count from 1 to 6, it has written
its request frame and nothing else. -/
theorem setEnrollCount_writes (self : FPM383F) (w : Transport) (count : Nat) (b : Bool)
    (s : FPM383F) (r : Transport) (h1 : 1 ≤ count) (h6 : count ≤ 6)
    (h : setEnrollCount self w count = .ret (b, s, r)) :
    r.tx = w.tx ++ frame (requestEnvelope self.password 0x02 0x0D [count]) := by
  cases hrr : receiveResponse self
      { w with tx := w.tx ++ frame (requestEnvelope self.password 0x02 0x0D [count]) }
      0x02 0x0D noBuffer 0 with
  | ret r0 =>
    rw [setEnrollCount_of_receiveResponse self w count r0 h1 h6 hrr] at h
    have h' := Exec.ret.inj h
    have htx := (receiveResponse_typed _ _ _ _ _ _ _ hrr).1
    have : r = r0.serial := by
      have := congrArg (fun x => x.2.2) h'
      exact this.symm
    rw [this, htx]
  | outOfBounds =>
    exfalso
    unfold setEnrollCount sendCommand at h
    rw [if_neg (by omega)] at h
    have hsend := sendFrame_eq self w FP_CMD_SYSTEM_0 FP_CMD_SET_ENROLL_COUNT [count] (by simp)
    simp only [List.length_cons, List.length_nil, Nat.zero_add] at hsend
    simp only at h
    rw [hsend] at h
    simp only [Exec.bind] at h
    have hrr' : receiveResponse self
        { w with tx := w.tx ++ frame (requestEnvelope self.password FP_CMD_SYSTEM_0
          FP_CMD_SET_ENROLL_COUNT [count]) } FP_CMD_SYSTEM_0 FP_CMD_SET_ENROLL_COUNT noBuffer 0
        = .outOfBounds := hrr
    rw [hrr'] at h
    cases h
  | outOfFuel =>
    exact absurd hrr (fun hx => by
      unfold receiveResponse at hx
      cases hf : receiveFrame self
          { w with tx := w.tx ++ frame (requestEnvelope self.password 0x02 0x0D [count]) }
          noBuffer 0 with
      | ret r1 =>
        rw [hf] at hx
        simp only [Exec.bind] at hx
        split at hx
        · cases hx
        · split at hx <;> cases hx
      | outOfBounds =>
        rw [hf] at hx
        cases hx
      | outOfFuel => exact receiveFrame_ne_outOfFuel _ _ _ _ hf)

/-- C23, enroll-count validation: for every count outside 1..6 (0, or 7 and
above) `setEnrollCount` returns false and leaves the driver object and the
port as they are: nothing is written, nothing is read, `lastError` and the
password are unchanged. For every count from 1 to 6 every returning call has
written exactly one frame, the request tagged (0x02, 0x0D) whose single data
byte is the count, and its result is that of the response: true exactly when
`receiveResponse` succeeds with error code 0, which a valid (0x02, 0x0D)
response with error code 0 arriving within 5000 ms brings about. -/
theorem setEnrollCount_validation (self : FPM383F) (w : Transport) (count : Nat) :
    ((count = 0 ∨ 7 ≤ count) → setEnrollCount self w count = .ret (false, self, w)) ∧
    (1 ≤ count → count ≤ 6 →
      (∀ b s r, setEnrollCount self w count = .ret (b, s, r) →
        written w r = marker ++ [0x00, 0x08, calculateFrameChecksum 8] ++
          bigEndian32 self.password ++ [0x02, 0x0D, count] ++
          [calculateChecksum (bigEndian32 self.password ++ [0x02, 0x0D, count])] ∧
        r.tx = w.tx ++ written w r) ∧
      (∀ r0, receiveResponse self
          { w with tx := w.tx ++ frame (requestEnvelope self.password 0x02 0x0D [count]) }
          0x02 0x0D noBuffer 0 = .ret r0 →
        setEnrollCount self w count
          = .ret (decide (r0.value = true ∧ r0.out.errorCode = 0), r0.self, r0.serial)) ∧
      (∀ (pw ec t : Nat) (d rest : List Nat), ec < 2 ^ 32 → 11 + d.length < 65536 →
        Settled w → millis w + 5000 < 2 ^ 32 → w.now ≤ t → t < w.now + 5000 →
        stream w = frame (responseEnvelope pw 0x02 0x0D ec d) ++ rest →
        ArrivesBy w (22 + d.length) t →
        ∃ r, setEnrollCount self w count
            = .ret (decide (ec = 0), { self with lastError := ec }, r) ∧
          stream r = rest)) := by
  have hframe : frame (requestEnvelope self.password 0x02 0x0D [count])
      = marker ++ [0x00, 0x08, calculateFrameChecksum 8] ++
          bigEndian32 self.password ++ [0x02, 0x0D, count] ++
          [calculateChecksum (bigEndian32 self.password ++ [0x02, 0x0D, count])] := by
    unfold frame
    rw [requestEnvelope_length]
    simp [requestEnvelope, bigEndian16]
  refine ⟨?_, ?_⟩
  · intro h
    unfold setEnrollCount
    rw [if_pos (by omega)]
  · intro h1 h6
    refine ⟨?_, ?_, ?_⟩
    · intro b s r h
      have htx := setEnrollCount_writes self w count b s r h1 h6 h
      have hw : written w r = frame (requestEnvelope self.password 0x02 0x0D [count]) := by
        unfold written
        rw [htx]
        simp
      rw [hw]
      exact ⟨hframe, htx⟩
    · intro r0 h
      exact setEnrollCount_of_receiveResponse self w count r0 h1 h6 h
    · intro pw ec t d rest hec hlen hS hclock ht ht5 hs harr
      obtain ⟨r, hr, -, hsr⟩ := receiveResponse_response_arrives self
        { w with tx := w.tx ++ frame (requestEnvelope self.password 0x02 0x0D [count]) }
        noBuffer 0 t [] rest pw 0x02 0x0D ec d hS hclock ht ht5 markerOnlyAtEnd_nil hec hlen
        (by rw [List.nil_append]; exact hs)
        (by rw [frame_responseEnvelope_length, List.length_nil, Nat.zero_add]; exact harr)
        (room_noBuffer _)
      refine ⟨r, ?_, hsr⟩
      rw [setEnrollCount_of_receiveResponse self w count _ h1 h6 hr]
      simp [deliver_noBuffer]

/-- C23 at the counts 0, 7 and 255, which are refused with the port untouched
(two bytes buffered, two on the wire), and at the count 3 answered 12 ms later
by a valid response with error code 0. -/
theorem setEnrollCount_validation_witness :
    setEnrollCount ⟨5, 8⟩ ⟨10, [1, 2], [(11, 3), (12, 4)], [7]⟩ 0
      = .ret (false, ⟨5, 8⟩, ⟨10, [1, 2], [(11, 3), (12, 4)], [7]⟩) ∧
    setEnrollCount ⟨5, 8⟩ ⟨10, [1, 2], [(11, 3), (12, 4)], [7]⟩ 7
      = .ret (false, ⟨5, 8⟩, ⟨10, [1, 2], [(11, 3), (12, 4)], [7]⟩) ∧
    setEnrollCount ⟨5, 8⟩ ⟨10, [1, 2], [(11, 3), (12, 4)], [7]⟩ 255
      = .ret (false, ⟨5, 8⟩, ⟨10, [1, 2], [(11, 3), (12, 4)], [7]⟩) ∧
    ∃ r, setEnrollCount ⟨0, 8⟩
        ⟨0, [], [(12, 0xF1), (12, 0x1F), (12, 0xE2), (12, 0x2E), (12, 0xB6), (12, 0x6B), (12, 0xA8), (12, 0x8A), (12, 0), (12, 0x0B), (12, 0x82), (12, 0), (12, 0), (12, 0), (12, 0), (12, 2), (12, 0x0D), (12, 0), (12, 0), (12, 0), (12, 0), (12, 0xF1)], []⟩ 3
        = .ret (true, ⟨0, 0⟩, r) ∧
      stream r = [] ∧
      written (⟨0, [], [(12, 0xF1), (12, 0x1F), (12, 0xE2), (12, 0x2E), (12, 0xB6), (12, 0x6B), (12, 0xA8), (12, 0x8A), (12, 0), (12, 0x0B), (12, 0x82), (12, 0), (12, 0), (12, 0), (12, 0), (12, 2), (12, 0x0D), (12, 0), (12, 0), (12, 0), (12, 0), (12, 0xF1)], []⟩ : Transport) r
        = [0xF1, 0x1F, 0xE2, 0x2E, 0xB6, 0x6B, 0xA8, 0x8A, 0, 8, 0x85, 0, 0, 0, 0, 2, 0x0D, 3, 0xEE] := by
  refine ⟨(setEnrollCount_validation ⟨5, 8⟩ ⟨10, [1, 2], [(11, 3), (12, 4)], [7]⟩ 0).1
      (Or.inl rfl),
    (setEnrollCount_validation ⟨5, 8⟩ ⟨10, [1, 2], [(11, 3), (12, 4)], [7]⟩ 7).1
      (Or.inr (by decide)),
    (setEnrollCount_validation ⟨5, 8⟩ ⟨10, [1, 2], [(11, 3), (12, 4)], [7]⟩ 255).1
      (Or.inr (by decide)), ?_⟩
  have h := (setEnrollCount_validation ⟨0, 8⟩
    ⟨0, [], [(12, 0xF1), (12, 0x1F), (12, 0xE2), (12, 0x2E), (12, 0xB6), (12, 0x6B), (12, 0xA8), (12, 0x8A), (12, 0), (12, 0x0B), (12, 0x82), (12, 0), (12, 0), (12, 0), (12, 0), (12, 2), (12, 0x0D), (12, 0), (12, 0), (12, 0), (12, 0), (12, 0xF1)], []⟩ 3).2 (by decide) (by decide)
  obtain ⟨r, hr, hsr⟩ := h.2.2 0 0 12 [] [] (by norm_num) (by decide) (by decide)
    (by norm_num [millis]) (by decide) (by decide) (by decide) (by decide)
  refine ⟨r, hr, hsr, ?_⟩
  rw [(h.1 _ _ _ hr).1]
  decide

/-! ## Match results -/

theorem room_matchBuffer (n : Nat) (h : n ≤ 6) : Room matchBuffer n := by
  intro buf hb
  cases hb
  exact h

theorem deliver_matchBuffer_full (c1 c2 ec : Nat) (d : List Nat) (h6 : 6 ≤ d.length) :
    deliver matchBuffer 6 c1 c2 ec d
      = { cmd1 := c1, cmd2 := c2, data := some (d.take 6), actualDataLen := 6,
          errorCode := ec } := by
  unfold deliver matchBuffer
  simp only
  rw [if_pos ⟨by omega, by decide⟩, Nat.min_eq_right h6]
  simp

theorem deliver_matchBuffer_short (c1 c2 ec : Nat) (d : List Nat) (h6 : d.length < 6) :
    (deliver matchBuffer 6 c1 c2 ec d).actualDataLen < 6 := by
  unfold deliver matchBuffer
  simp only
  split
  · simp only
    omega
  · simp only
    omega

/-- The decoding of `queryMatchResult` and `matchSync` on the six bytes copied
from response data `d` of at least six bytes is the match result `d` encodes. -/
theorem matchResultOf_take (d : List Nat) (h6 : 6 ≤ d.length) (hb : Bytes d) :
    ({ matched := decide
          ((((d.take 6).getD 1 0 <<< 8) ||| (d.take 6).getD 2 0) % 65536 > 0 ∧
            (((d.take 6).getD 4 0 <<< 8) ||| (d.take 6).getD 5 0) % 65536 ≠ 65535)
       fingerprintId := (((d.take 6).getD 4 0 <<< 8) ||| (d.take 6).getD 5 0) % 65536
       matchScore := (((d.take 6).getD 1 0 <<< 8) ||| (d.take 6).getD 2 0) % 65536 } :
      FingerprintMatchResult) = matchResultOf d := by
  match d, h6, hb with
  | a0 :: a1 :: a2 :: a3 :: a4 :: a5 :: more, _, hb =>
    have h1 : a1 < 256 := hb a1 (by simp)
    have h2 : a2 < 256 := hb a2 (by simp)
    have h4 : a4 < 256 := hb a4 (by simp)
    have h5 : a5 < 256 := hb a5 (by simp)
    have e1 : ((a1 <<< 8) ||| a2) % 65536 = a1 * 256 + a2 := by
      rw [shiftLeft_or_lt a1 a2 8 (by simpa using h2)]
      simp only [Nat.reducePow]
      omega
    have e2 : ((a4 <<< 8) ||| a5) % 65536 = a4 * 256 + a5 := by
      rw [shiftLeft_or_lt a4 a5 8 (by simpa using h5)]
      simp only [Nat.reducePow]
      omega
    simp only [matchResultOf, List.take_succ_cons, List.take_zero, List.getD_cons_succ,
      List.getD_cons_zero, e1, e2]

/-- The function `queryMatchResult` in terms of the result of its `receiveResponse`. -/
theorem queryMatchResult_of_receiveResponse (self : FPM383F) (w : Transport) (r : Return)
    (h : receiveResponse self
      { w with tx := w.tx ++ frame (requestEnvelope self.password 0x01 0x22 []) }
      0x01 0x22 matchBuffer 6 = .ret r) :
    queryMatchResult self w
      = .ret (if r.value = true ∧ r.out.errorCode = 0 ∧ 6 ≤ r.out.actualDataLen then
            { matched := decide
                ((((r.out.data.getD []).getD 1 0 <<< 8) ||| (r.out.data.getD []).getD 2 0)
                    % 65536 > 0 ∧
                  (((r.out.data.getD []).getD 4 0 <<< 8) ||| (r.out.data.getD []).getD 5 0)
                    % 65536 ≠ 65535)
              fingerprintId :=
                (((r.out.data.getD []).getD 4 0 <<< 8) ||| (r.out.data.getD []).getD 5 0) % 65536
              matchScore :=
                (((r.out.data.getD []).getD 1 0 <<< 8) ||| (r.out.data.getD []).getD 2 0)
                  % 65536 }
          else noMatch, r.self, r.serial) := by
  unfold queryMatchResult sendCommand
  rw [sendFrame_null]
  simp only [Exec.bind]
  have h' : receiveResponse self
      { w with tx := w.tx ++ frame (requestEnvelope self.password FP_CMD_FINGERPRINT_0
        FP_CMD_QUERY_MATCH []) } FP_CMD_FINGERPRINT_0 FP_CMD_QUERY_MATCH matchBuffer 6 = .ret r := h
  rw [h']
  simp only
  cases hv : r.value
  · simp [noMatch]
  · by_cases hc : r.out.errorCode = FP_ERROR_SUCCESS ∧ r.out.actualDataLen ≥ 6
    · have hc' : r.out.errorCode = 0 ∧ 6 ≤ r.out.actualDataLen := hc
      rw [if_neg (by simp), if_pos hc, if_pos ⟨rfl, hc'⟩]
    · have hc' : ¬ (r.out.errorCode = 0 ∧ 6 ≤ r.out.actualDataLen) := hc
      rw [if_neg (by simp), if_neg hc, if_neg (fun hx => hc' hx.2)]
      rfl

/-- A valid response to `queryMatchResult` that arrives within 5000 ms, decoded. -/
theorem queryMatchResult_response (self : FPM383F) (w : Transport) (pw ec t : Nat)
    (d rest : List Nat) (hec : ec < 2 ^ 32) (hlen : 11 + d.length < 65536) (hb : Bytes d)
    (hS : Settled w) (hclock : millis w + 5000 < 2 ^ 32) (ht : w.now ≤ t)
    (ht5 : t < w.now + 5000)
    (hs : stream w = frame (responseEnvelope pw 0x01 0x22 ec d) ++ rest)
    (harr : ArrivesBy w (22 + d.length) t) :
    ∃ r, queryMatchResult self w
        = .ret (if ec = 0 ∧ 6 ≤ d.length then matchResultOf d else noMatch,
            { self with lastError := ec }, r) ∧
      stream r = rest ∧
      r.tx = w.tx ++ frame (requestEnvelope self.password 0x01 0x22 []) := by
  obtain ⟨r, hr, hF, hsr⟩ := receiveResponse_response_arrives self
    { w with tx := w.tx ++ frame (requestEnvelope self.password 0x01 0x22 []) }
    matchBuffer 6 t [] rest pw 0x01 0x22 ec d hS hclock ht ht5 markerOnlyAtEnd_nil hec hlen
    (by rw [List.nil_append]; exact hs)
    (by rw [frame_responseEnvelope_length, List.length_nil, Nat.zero_add]; exact harr)
    (room_matchBuffer _ (Nat.min_le_right _ _))
  refine ⟨r, ?_, hsr, hF.2.2.1⟩
  rw [queryMatchResult_of_receiveResponse self w _ hr]
  by_cases h6 : 6 ≤ d.length
  · rw [deliver_matchBuffer_full 0x01 0x22 ec d h6]
    by_cases h0 : ec = 0
    · rw [if_pos ⟨rfl, h0, Nat.le_refl _⟩, if_pos ⟨h0, h6⟩]
      simp only [Option.getD_some]
      rw [matchResultOf_take d h6 hb]
    · rw [if_neg (fun hx => h0 hx.2.1), if_neg (fun hx => h0 hx.1)]
  · have hshort := deliver_matchBuffer_short 0x01 0x22 ec d (by omega)
    rw [if_neg (fun hx => Nat.lt_irrefl _ (Nat.lt_of_le_of_lt hx.2.2 hshort)),
      if_neg (fun hx => h6 hx.2)]

/-- The function `matchSync` in terms of the result of its `receiveResponse`. -/
theorem matchSync_of_receiveResponse (self : FPM383F) (w : Transport) (r : Return)
    (h : receiveResponse self
      { w with tx := w.tx ++ frame (requestEnvelope self.password 0x01 0x23 []) }
      0x01 0x23 matchBuffer 6 = .ret r) :
    matchSync self w
      = .ret (if r.value = true ∧ r.out.errorCode = 0 ∧ 6 ≤ r.out.actualDataLen then
            { matched := decide
                ((((r.out.data.getD []).getD 1 0 <<< 8) ||| (r.out.data.getD []).getD 2 0)
                    % 65536 > 0 ∧
                  (((r.out.data.getD []).getD 4 0 <<< 8) ||| (r.out.data.getD []).getD 5 0)
                    % 65536 ≠ 65535)
              fingerprintId :=
                (((r.out.data.getD []).getD 4 0 <<< 8) ||| (r.out.data.getD []).getD 5 0) % 65536
              matchScore :=
                (((r.out.data.getD []).getD 1 0 <<< 8) ||| (r.out.data.getD []).getD 2 0)
                  % 65536 }
          else noMatch, r.self, r.serial) := by
  unfold matchSync sendCommand
  rw [sendFrame_null]
  simp only [Exec.bind]
  have h' : receiveResponse self
      { w with tx := w.tx ++ frame (requestEnvelope self.password FP_CMD_FINGERPRINT_0
        FP_CMD_MATCH_SYNC []) } FP_CMD_FINGERPRINT_0 FP_CMD_MATCH_SYNC matchBuffer 6 = .ret r := h
  rw [h']
  simp only
  cases hv : r.value
  · simp [noMatch]
  · by_cases hc : r.out.errorCode = FP_ERROR_SUCCESS ∧ r.out.actualDataLen ≥ 6
    · have hc' : r.out.errorCode = 0 ∧ 6 ≤ r.out.actualDataLen := hc
      rw [if_neg (by simp), if_pos hc, if_pos ⟨rfl, hc'⟩]
    · have hc' : ¬ (r.out.errorCode = 0 ∧ 6 ≤ r.out.actualDataLen) := hc
      rw [if_neg (by simp), if_neg hc, if_neg (fun hx => hc' hx.2)]
      rfl

/-- A valid response to `matchSync` that arrives within 5000 ms, decoded. -/
theorem matchSync_response (self : FPM383F) (w : Transport) (pw ec t : Nat)
    (d rest : List Nat) (hec : ec < 2 ^ 32) (hlen : 11 + d.length < 65536) (hb : Bytes d)
    (hS : Settled w) (hclock : millis w + 5000 < 2 ^ 32) (ht : w.now ≤ t)
    (ht5 : t < w.now + 5000)
    (hs : stream w = frame (responseEnvelope pw 0x01 0x23 ec d) ++ rest)
    (harr : ArrivesBy w (22 + d.length) t) :
    ∃ r, matchSync self w
        = .ret (if ec = 0 ∧ 6 ≤ d.length then matchResultOf d else noMatch,
            { self with lastError := ec }, r) ∧
      stream r = rest ∧
      r.tx = w.tx ++ frame (requestEnvelope self.password 0x01 0x23 []) := by
  obtain ⟨r, hr, hF, hsr⟩ := receiveResponse_response_arrives self
    { w with tx := w.tx ++ frame (requestEnvelope self.password 0x01 0x23 []) }
    matchBuffer 6 t [] rest pw 0x01 0x23 ec d hS hclock ht ht5 markerOnlyAtEnd_nil hec hlen
    (by rw [List.nil_append]; exact hs)
    (by rw [frame_responseEnvelope_length, List.length_nil, Nat.zero_add]; exact harr)
    (room_matchBuffer _ (Nat.min_le_right _ _))
  refine ⟨r, ?_, hsr, hF.2.2.1⟩
  rw [matchSync_of_receiveResponse self w _ hr]
  by_cases h6 : 6 ≤ d.length
  · rw [deliver_matchBuffer_full 0x01 0x23 ec d h6]
    by_cases h0 : ec = 0
    · rw [if_pos ⟨rfl, h0, Nat.le_refl _⟩, if_pos ⟨h0, h6⟩]
      simp only [Option.getD_some]
      rw [matchResultOf_take d h6 hb]
    · rw [if_neg (fun hx => h0 hx.2.1), if_neg (fun hx => h0 hx.1)]
  · have hshort := deliver_matchBuffer_short 0x01 0x23 ec d (by omega)
    rw [if_neg (fun hx => Nat.lt_irrefl _ (Nat.lt_of_le_of_lt hx.2.2 hshort)),
      if_neg (fun hx => h6 hx.2)]

/-- C24, match result decoding: for `queryMatchResult` and for `matchSync`,
when `receiveResponse` fails, or succeeds with a non-zero error code or with
fewer than 6 data bytes delivered, the result is `{false, 0, 0}`; when the
response is a valid frame with the command pair of the request that arrives
within 5000 ms, the result is, for error code 0 and at least 6 data bytes `d`,
`matchScore = d[1] * 256 + d[2]`, `fingerprintId = d[4] * 256 + d[5]` and
`matched` true exactly when `matchScore > 0` and `fingerprintId ≠ 65535`, and
`{false, 0, 0}` for a non-zero error code or fewer than 6 data bytes. -/
theorem match_result_decoding (self : FPM383F) (w : Transport) :
    (∀ r, receiveResponse self
        { w with tx := w.tx ++ frame (requestEnvelope self.password 0x01 0x22 []) }
        0x01 0x22 matchBuffer 6 = .ret r →
      (r.value = false ∨ r.out.errorCode ≠ 0 ∨ r.out.actualDataLen < 6) →
      queryMatchResult self w
        = .ret ({ matched := false, fingerprintId := 0, matchScore := 0 }, r.self, r.serial)) ∧
    (∀ (pw ec t : Nat) (d rest : List Nat), ec < 2 ^ 32 → 11 + d.length < 65536 → Bytes d →
      Settled w → millis w + 5000 < 2 ^ 32 → w.now ≤ t → t < w.now + 5000 →
      stream w = frame (responseEnvelope pw 0x01 0x22 ec d) ++ rest →
      ArrivesBy w (22 + d.length) t →
      ∃ r, queryMatchResult self w
          = .ret (if ec = 0 ∧ 6 ≤ d.length then
                { matched := decide (d.getD 1 0 * 256 + d.getD 2 0 > 0 ∧
                    d.getD 4 0 * 256 + d.getD 5 0 ≠ 65535)
                  fingerprintId := d.getD 4 0 * 256 + d.getD 5 0
                  matchScore := d.getD 1 0 * 256 + d.getD 2 0 }
              else { matched := false, fingerprintId := 0, matchScore := 0 },
              { self with lastError := ec }, r) ∧
        stream r = rest) ∧
    (∀ r, receiveResponse self
        { w with tx := w.tx ++ frame (requestEnvelope self.password 0x01 0x23 []) }
        0x01 0x23 matchBuffer 6 = .ret r →
      (r.value = false ∨ r.out.errorCode ≠ 0 ∨ r.out.actualDataLen < 6) →
      matchSync self w
        = .ret ({ matched := false, fingerprintId := 0, matchScore := 0 }, r.self, r.serial)) ∧
    (∀ (pw ec t : Nat) (d rest : List Nat), ec < 2 ^ 32 → 11 + d.length < 65536 → Bytes d →
      Settled w → millis w + 5000 < 2 ^ 32 → w.now ≤ t → t < w.now + 5000 →
      stream w = frame (responseEnvelope pw 0x01 0x23 ec d) ++ rest →
      ArrivesBy w (22 + d.length) t →
      ∃ r, matchSync self w
          = .ret (if ec = 0 ∧ 6 ≤ d.length then
                { matched := decide (d.getD 1 0 * 256 + d.getD 2 0 > 0 ∧
                    d.getD 4 0 * 256 + d.getD 5 0 ≠ 65535)
                  fingerprintId := d.getD 4 0 * 256 + d.getD 5 0
                  matchScore := d.getD 1 0 * 256 + d.getD 2 0 }
              else { matched := false, fingerprintId := 0, matchScore := 0 },
              { self with lastError := ec }, r) ∧
        stream r = rest) := by
  refine ⟨?_, ?_, ?_, ?_⟩
  · intro r h hc
    rw [queryMatchResult_of_receiveResponse self w r h]
    rw [if_neg (fun hx => by
      rcases hc with h1 | h1 | h1
      · rw [hx.1] at h1
        cases h1
      · exact h1 hx.2.1
      · exact Nat.lt_irrefl _ (Nat.lt_of_le_of_lt hx.2.2 h1))]
    rfl
  · intro pw ec t d rest hec hlen hb hS hclock ht ht5 hs harr
    obtain ⟨r, hr, hsr, -⟩ := queryMatchResult_response self w pw ec t d rest hec hlen hb hS hclock ht
      ht5 hs harr
    exact ⟨r, hr, hsr⟩
  · intro r h hc
    rw [matchSync_of_receiveResponse self w r h]
    rw [if_neg (fun hx => by
      rcases hc with h1 | h1 | h1
      · rw [hx.1] at h1
        cases h1
      · exact h1 hx.2.1
      · exact Nat.lt_irrefl _ (Nat.lt_of_le_of_lt hx.2.2 h1))]
    rfl
  · intro pw ec t d rest hec hlen hb hS hclock ht ht5 hs harr
    obtain ⟨r, hr, hsr, -⟩ := matchSync_response self w pw ec t d rest hec hlen hb hS hclock ht
      ht5 hs harr
    exact ⟨r, hr, hsr⟩

/-- C24 at two exchanges whose response arrives 15 ms after the call:
`queryMatchResult` answered with the data `00 00 50 00 00 07` gives a match of
fingerprint 7 with score 80; `matchSync` answered with `00 00 09 00 FF FF`
gives score 9 and fingerprint id 65535, which is no match. -/
theorem match_result_decoding_witness :
    (∃ r, queryMatchResult ⟨0, 0⟩
        ⟨0, [], [(15, 0xF1), (15, 0x1F), (15, 0xE2), (15, 0x2E), (15, 0xB6), (15, 0x6B), (15, 0xA8), (15, 0x8A), (15, 0), (15, 0x11), (15, 0x7C), (15, 0), (15, 0), (15, 0),
             (15, 0), (15, 1), (15, 0x22), (15, 0), (15, 0), (15, 0), (15, 0), (15, 0), (15, 0), (15, 0x50), (15, 0), (15, 0), (15, 7), (15, 0x86)], []⟩
        = .ret ({ matched := true, fingerprintId := 7, matchScore := 80 }, ⟨0, 0⟩, r) ∧
      stream r = []) ∧
    (∃ r, matchSync ⟨0, 0⟩
        ⟨0, [], [(15, 0xF1), (15, 0x1F), (15, 0xE2), (15, 0x2E), (15, 0xB6), (15, 0x6B), (15, 0xA8), (15, 0x8A), (15, 0), (15, 0x11), (15, 0x7C), (15, 0), (15, 0), (15, 0),
             (15, 0), (15, 1), (15, 0x23), (15, 0), (15, 0), (15, 0), (15, 0), (15, 0), (15, 0), (15, 9), (15, 0), (15, 0xFF), (15, 0xFF), (15, 0xD5)], []⟩
        = .ret ({ matched := false, fingerprintId := 65535, matchScore := 9 }, ⟨0, 0⟩, r) ∧
      stream r = []) := by
  have hq : frame (responseEnvelope 0 0x01 0x22 0 [0, 0, 0x50, 0, 0, 7])
      = [0xF1, 0x1F, 0xE2, 0x2E, 0xB6, 0x6B, 0xA8, 0x8A, 0, 0x11, 0x7C, 0, 0, 0, 0, 1, 0x22, 0, 0, 0, 0, 0, 0, 0x50, 0, 0, 7, 0x86] := by
    unfold frame responseEnvelope
    rw [calculateChecksum_eq]
    decide
  have hm : frame (responseEnvelope 0 0x01 0x23 0 [0, 0, 9, 0, 0xFF, 0xFF])
      = [0xF1, 0x1F, 0xE2, 0x2E, 0xB6, 0x6B, 0xA8, 0x8A, 0, 0x11, 0x7C, 0, 0, 0, 0, 1, 0x23, 0, 0, 0, 0, 0, 0, 9, 0, 0xFF, 0xFF, 0xD5] := by
    unfold frame responseEnvelope
    rw [calculateChecksum_eq]
    decide
  constructor
  · exact (match_result_decoding ⟨0, 0⟩
      ⟨0, [], [(15, 0xF1), (15, 0x1F), (15, 0xE2), (15, 0x2E), (15, 0xB6), (15, 0x6B), (15, 0xA8), (15, 0x8A), (15, 0), (15, 0x11), (15, 0x7C), (15, 0), (15, 0), (15, 0),
             (15, 0), (15, 1), (15, 0x22), (15, 0), (15, 0), (15, 0), (15, 0), (15, 0), (15, 0), (15, 0x50), (15, 0), (15, 0), (15, 7), (15, 0x86)], []⟩).2.1
      0 0 15 [0, 0, 0x50, 0, 0, 7] [] (by norm_num) (by decide) (by decide) (by decide)
      (by norm_num [millis]) (by decide) (by decide) (by rw [hq]; decide) (by decide)
  · exact (match_result_decoding ⟨0, 0⟩
      ⟨0, [], [(15, 0xF1), (15, 0x1F), (15, 0xE2), (15, 0x2E), (15, 0xB6), (15, 0x6B), (15, 0xA8), (15, 0x8A), (15, 0), (15, 0x11), (15, 0x7C), (15, 0), (15, 0), (15, 0),
             (15, 0), (15, 1), (15, 0x23), (15, 0), (15, 0), (15, 0), (15, 0), (15, 0), (15, 0), (15, 9), (15, 0), (15, 0xFF), (15, 0xFF), (15, 0xD5)], []⟩).2.2.2
      0 0 15 [0, 0, 9, 0, 0xFF, 0xFF] [] (by norm_num) (by decide) (by decide) (by decide)
      (by norm_num [millis]) (by decide) (by decide) (by rw [hm]; decide) (by decide)

end FPM383F
